import Mathlib

/-!
# matpy: the value conversions `mat2py` and `py2mat` of `src/py.cpp`

A shallow embedding of the two conversion functions of the MEX bridge
(`mat2py`: host array to interpreter object, `py2mat`: interpreter object to
host array) together with the parts of the MEX, CPython 2.7 and numpy
interfaces they call, followed by theorems about them.

Conventions of the embedding.
* `mexErrMsgIdAndTxt` does not return: a conversion is a value of
  `Except MexErr _`, the error carrying the message identifier.
* A `NULL` result of a conversion is `none`.
* Element counts, lengths and dimensions are natural numbers; element values
  of the integer classes are integers reduced to the width of their C type.
* Floating point elements are IEEE 754 values (`F32`, `F64`) with a single
  NaN; the C conversions between `float` and `double` are `F32.toF64`
  (exact) and `F64.toF32` (round to nearest, ties to even).
* The C types are those of the LP64 data model with a signed `char`
  (the platform of `libpython2.7.so`, `py.cpp` line 565).
* Text crosses the interface as a `char *` in the multibyte encoding of the
  locale. ASCII text is one byte per character in every such encoding; what
  becomes of text with another character is not determined by this embedding
  (`MexErr.localeDependent`).
* Reference counts are not part of `mat2py` and `py2mat`; the struct and cell
  branches of `mat2py` are embedded a second time on a heap of reference
  counted objects (`Rc.mat2py`).
-/

namespace Matpy

/-! ## IEEE 754 values -/

/-- A binary32 value: NaN, an infinity, or a finite value with biased exponent
field `e` (0 for zero and subnormals, at most 254) and 23-bit fraction `m`. -/
inductive F32 where
  | nan
  | inf (neg : Bool)
  | fin (neg : Bool) (e m : Nat)
deriving DecidableEq, Repr

/-- A binary64 value: NaN, an infinity, or a finite value with biased exponent
field `e` (0 for zero and subnormals, at most 2046) and 52-bit fraction `m`. -/
inductive F64 where
  | nan
  | inf (neg : Bool)
  | fin (neg : Bool) (e m : Nat)
deriving DecidableEq, Repr

/-- The fields of a binary32 value are within their widths. -/
def F32.Valid : F32 → Prop
  | .fin _ e m => e < 255 ∧ m < 8388608
  | _ => True

/-- The fields of a binary64 value are within their widths. -/
def F64.Valid : F64 → Prop
  | .fin _ e m => e < 2047 ∧ m < 4503599627370496
  | _ => True

instance (x : F32) : Decidable x.Valid := by
  cases x <;> unfold F32.Valid <;> infer_instance

instance (x : F64) : Decidable x.Valid := by
  cases x <;> unfold F64.Valid <;> infer_instance

/-- Position of the leading one bit of `m`, looking at most `fuel` bits up
(`bitPos 23 m = ⌊log₂ m⌋` for a non-zero 23-bit `m`). -/
def bitPos : Nat → Nat → Nat
  | 0, _ => 0
  | fuel + 1, m => if 2 ≤ m then bitPos fuel (m / 2) + 1 else 0

/-- The C conversion `float → double`: exact. A normal number keeps its
fraction (shifted by 29 bits) and rebiases the exponent by 1023 - 127 = 896; a
subnormal `m * 2^-149` with leading bit `k` becomes the normal number with
exponent field `k + 874`. -/
def F32.toF64 : F32 → F64
  | .nan => .nan
  | .inf s => .inf s
  | .fin s e m =>
    if e = 0 then
      if m = 0 then .fin s 0 0
      else
        let k := bitPos 23 m
        .fin s (k + 874) ((m - 2 ^ k) * 2 ^ (52 - k))
    else .fin s (e + 896) (m * 536870912)

/-- Round `sig / 2^sh` to the nearest integer, ties to even. -/
def roundShift (sig sh : Nat) : Nat :=
  let q := sig / 2 ^ sh
  let r := sig % 2 ^ sh
  let half := 2 ^ sh / 2
  if half < r ∨ (r = half ∧ 0 < sh ∧ q % 2 = 1) then q + 1 else q

/-- The C conversion `double → float`: round to nearest, ties to even, with
overflow to infinity and gradual underflow. The rounded significand is added to
the exponent field so that a carry out of the fraction increments the
exponent. -/
def F64.toF32 : F64 → F32
  | .nan => .nan
  | .inf s => .inf s
  | .fin s e m =>
    if 897 ≤ e then
      let c := (e - 896) * 8388608 + roundShift m 29
      if 2139095040 ≤ c then .inf s else .fin s (c / 8388608) (c % 8388608)
    else if e = 0 then .fin s 0 0
    else
      let c := roundShift (4503599627370496 + m) (926 - e)
      .fin s (c / 8388608) (c % 8388608)

/-- The C conversion of a 64-bit integer to `double`: exact up to 53 bits,
round to nearest, ties to even, beyond. -/
def intToF64 (v : Int) : F64 :=
  let a := v.natAbs
  if a = 0 then .fin false 0 0
  else
    let k := bitPos 64 a
    if k ≤ 52 then .fin (decide (v < 0)) (k + 1023) ((a - 2 ^ k) * 2 ^ (52 - k))
    else
      let c := (k + 1022) * 4503599627370496 + roundShift a (k - 52)
      .fin (decide (v < 0)) (c / 4503599627370496) (c % 4503599627370496)

/-! ## C integer types -/

/-- Conversion to an unsigned C integer type of `w` bits. -/
def wrapU (w : Nat) (v : Int) : Int := v % 2 ^ w

/-- Conversion to a signed C integer type of `w` bits (two's complement). -/
def wrapS (w : Nat) (v : Int) : Int := (v + 2 ^ (w - 1)) % 2 ^ w - 2 ^ (w - 1)

/-! ## Host values (`mxArray`) -/

/-- The class identifiers of `matrix.h`. -/
inductive mxClassID where
  | mxUNKNOWN_CLASS
  | mxCELL_CLASS
  | mxSTRUCT_CLASS
  | mxLOGICAL_CLASS
  | mxCHAR_CLASS
  | mxVOID_CLASS
  | mxDOUBLE_CLASS
  | mxSINGLE_CLASS
  | mxINT8_CLASS
  | mxUINT8_CLASS
  | mxINT16_CLASS
  | mxUINT16_CLASS
  | mxINT32_CLASS
  | mxUINT32_CLASS
  | mxINT64_CLASS
  | mxUINT64_CLASS
  | mxFUNCTION_CLASS
  | mxOPAQUE_CLASS
  | mxOBJECT_CLASS
deriving DecidableEq, Repr

/-- One element of a numeric or logical buffer. -/
inductive Scalar where
  | bool (b : Bool)
  | int (v : Int)
  | f32 (x : F32)
  | f64 (x : F64)
deriving DecidableEq, Repr

/-- The element is a value of the C type that stores class `cls`. -/
def Scalar.OfClass : mxClassID → Scalar → Prop
  | .mxLOGICAL_CLASS, .bool _ => True
  | .mxDOUBLE_CLASS, .f64 x => x.Valid
  | .mxSINGLE_CLASS, .f32 x => x.Valid
  | .mxINT8_CLASS, .int v => -128 ≤ v ∧ v < 128
  | .mxUINT8_CLASS, .int v => 0 ≤ v ∧ v < 256
  | .mxINT16_CLASS, .int v => -32768 ≤ v ∧ v < 32768
  | .mxUINT16_CLASS, .int v => 0 ≤ v ∧ v < 65536
  | .mxINT32_CLASS, .int v => -2147483648 ≤ v ∧ v < 2147483648
  | .mxUINT32_CLASS, .int v => 0 ≤ v ∧ v < 4294967296
  | .mxINT64_CLASS, .int v => -9223372036854775808 ≤ v ∧ v < 9223372036854775808
  | .mxUINT64_CLASS, .int v => 0 ≤ v ∧ v < 18446744073709551616
  | _, _ => False

instance (c : mxClassID) (s : Scalar) : Decidable (Scalar.OfClass c s) := by
  cases c <;> cases s <;> unfold Scalar.OfClass <;> infer_instance

/-- Read a buffer element as a C `bool`. A buffer holds elements of its own
class; an element of another kind reads as zero. -/
def Scalar.toBool : Scalar → Bool
  | .bool b => b
  | _ => false

/-- Read a buffer element as a C integer (before reduction to its width). -/
def Scalar.toInt : Scalar → Int
  | .int v => v
  | .bool b => if b then 1 else 0
  | _ => 0

/-- Read a buffer element as a C `float`. -/
def Scalar.toF32 : Scalar → F32
  | .f32 x => x
  | _ => .fin false 0 0

/-- Read a buffer element as a C `double`. -/
def Scalar.toF64 : Scalar → F64
  | .f64 x => x
  | _ => .fin false 0 0

/-- A host array. `char` holds the characters in column-major order; `struct`
holds, for field `i`, its name and the list of its slots `j = 0 .. nelem-1`
(`mxGetFieldByNumber(a, j, i)`, `none` for a slot that was never set); `cell`
holds the `nelem` elements in column-major order; `numeric` is every other
class: the real buffer `pr` and, for a complex array, the imaginary buffer
`pi`. -/
inductive MxArray where
  | char (dims : List Nat) (chars : List Char)
  | struct (dims : List Nat) (fields : List (String × List (Option MxArray)))
  | cell (dims : List Nat) (cells : List MxArray)
  | numeric (cls : mxClassID) (dims : List Nat) (pr : List Scalar) (pi : Option (List Scalar))
deriving Repr

/-- The message identifiers passed to `mexErrMsgIdAndTxt` by the conversions
(`matpy:<id>`); `undefinedBehaviour` for the paths on which the C code
dereferences a `NULL` or uninitialised pointer or stores outside a buffer
instead of reporting an error; and `localeDependent` for the conversions of
text with a character outside ASCII, which pass through a `char *` in the
multibyte encoding of the locale: their result is not determined by this
embedding. -/
inductive MexErr where
  | NullFieldValue
  | UnsupportedVariableType
  | PythonError
  | ConversionError
  | IncorrectStructForm
  | undefinedBehaviour
  | localeDependent
deriving DecidableEq, Repr

/-- The function `mxGetDimensions` (line 79): the dimension vector of a host array. -/
def mxGetDimensions : MxArray → List Nat
  | .char dims _ => dims
  | .struct dims _ => dims
  | .cell dims _ => dims
  | .numeric _ dims _ _ => dims

/-- The function `mxGetNumberOfElements`: the product of the dimensions, computed as the loop
`nelem *= dims[i]` of `py2mat` does. -/
def prodDims (dims : List Nat) : Nat := dims.foldl (fun nelem d => nelem * d) 1

/-- Drop the trailing singleton dimensions of a dimension list. -/
def dropTrailingOnes (dims : List Nat) : List Nat :=
  (dims.reverse.dropWhile (fun d => d == 1)).reverse

/-- The dimensions `mxCreateNumericArray(ndim, dims, ..)` gives the new array:
at least two (no dimensions at all is the empty 0-by-0 array, one dimension
`n` is `n`-by-1), and trailing singleton dimensions past the second are
removed. -/
def mxCreateDims : List Nat → List Nat
  | [] => [0, 0]
  | [n] => [n, 1]
  | m :: n :: rest => m :: n :: dropTrailingOnes rest

/-- The dimension vector of an existing host array: at least two dimensions,
none of the trailing ones past the second a singleton. -/
def MxDims (dims : List Nat) : Prop := mxCreateDims dims = dims

instance (dims : List Nat) : Decidable (MxDims dims) := by
  unfold MxDims; infer_instance

/-- The terminating character of a C string. -/
def NUL : Char := Char.ofNat 0

/-- What a function taking a `const char *` reads from a character buffer: the
characters before the first NUL. -/
def cString (buf : List Char) : List Char := buf.takeWhile (fun c => c != NUL)

/-- The characters of ASCII: in every encoding of a locale each of them is the
one byte of its code, and each byte below 128 is that character. -/
def ascii (s : List Char) : Bool := s.all (fun c => decide (c.toNat < 128))

/-- The function `mxArrayToString`: the characters of the array, in column-major order,
as a NUL-terminated `char` buffer in the multibyte encoding of the locale.
For ASCII text that is one `char` per character, holding its code; the bytes
of any other text depend on the locale and are not determined here (`none`). -/
def mxArrayToString (chars : List Char) : Option (List Char) :=
  if ascii chars then some chars else Option.none

/-- The function `mxCreateString`: the 1-by-n character array holding the characters of
the C string, which is read in the multibyte encoding of the locale: for
bytes below 128 one character per byte, `n` the length of the string; the
characters made of other bytes depend on the locale and are not determined
here (`none`). -/
def mxCreateString (buf : List Char) : Option MxArray :=
  if ascii (cString buf) then some (.char [1, (cString buf).length] (cString buf))
  else Option.none

/-! ## Interpreter objects (CPython 2.7) -/

/-- An interpreter object, by category: `None` (standing for every category
the conversions do not know), `bool`, `int` (a C `long`), `long` (arbitrary
precision), `float` (a C `double`), `complex`, `unicode` (its code points),
`str` (its bytes, each written as the character with that code), a numpy
`ndarray`, `list`, `tuple` (a sequence that is not a list) and `dict` with
string keys. An `ndarray` is its `dtype` string, its `shape` and its elements
as interpreter scalars in row-major (C) order, as `tolist()` returns them; a
`dict` is its entries in iteration order. -/
inductive PyObject where
  | none
  | bool (b : Bool)
  | int (v : Int)
  | long (v : Int)
  | float (x : F64)
  | complex (re im : F64)
  | unicode (s : List Char)
  | str (s : List Char)
  | ndarray (dtype : String) (shape : List Nat) (data : List PyObject)
  | list (xs : List PyObject)
  | tuple (xs : List PyObject)
  | dict (kvs : List (String × PyObject))
deriving Repr

instance : Inhabited PyObject := ⟨PyObject.none⟩

/-- The check `PyBool_Check`. -/
def PyBool_Check : PyObject → Bool
  | .bool _ => true
  | _ => false

/-- The check `PyInt_Check`: `bool` is a subclass of `int`. -/
def PyInt_Check : PyObject → Bool
  | .bool _ => true
  | .int _ => true
  | _ => false

/-- The check `PyLong_Check`. -/
def PyLong_Check : PyObject → Bool
  | .long _ => true
  | _ => false

/-- The check `PyFloat_Check`. -/
def PyFloat_Check : PyObject → Bool
  | .float _ => true
  | _ => false

/-- The check `PyComplex_Check`. -/
def PyComplex_Check : PyObject → Bool
  | .complex _ _ => true
  | _ => false

/-- The check `PyUnicode_Check`. -/
def PyUnicode_Check : PyObject → Bool
  | .unicode _ => true
  | _ => false

/-- The check `PyString_Check`. -/
def PyString_Check : PyObject → Bool
  | .str _ => true
  | _ => false

/-- The test `PyObject_IsInstance(o, ndarray_cls)`. -/
def PyObject_IsInstance_ndarray : PyObject → Bool
  | .ndarray _ _ _ => true
  | _ => false

/-- The check `PySequence_Check`: strings, arrays, lists and tuples implement the sequence
protocol; a `dict` is excluded. -/
def PySequence_Check : PyObject → Bool
  | .unicode _ => true
  | .str _ => true
  | .ndarray _ _ _ => true
  | .list _ => true
  | .tuple _ => true
  | _ => false

/-- The check `PyDict_Check`. -/
def PyDict_Check : PyObject → Bool
  | .dict _ => true
  | _ => false

/-- The check `PyList_Check`. -/
def PyList_Check : PyObject → Bool
  | .list _ => true
  | _ => false

/-- The function `PyList_Size`: the length of a list, `-1` for an object that is not a list. -/
def PyList_Size : PyObject → Int
  | .list xs => xs.length
  | _ => -1

/-- The constructor `PyBool_FromLong`. -/
def PyBool_FromLong (v : Int) : PyObject := .bool (decide (v ≠ 0))

/-- The constructor `PyInt_FromLong`. -/
def PyInt_FromLong (v : Int) : PyObject := .int v

/-- The constructor `PyLong_FromLongLong`. -/
def PyLong_FromLongLong (v : Int) : PyObject := .long v

/-- The constructor `PyLong_FromUnsignedLongLong`. -/
def PyLong_FromUnsignedLongLong (v : Int) : PyObject := .long v

/-- The constructor `PyFloat_FromDouble`. -/
def PyFloat_FromDouble (x : F64) : PyObject := .float x

/-- The constructor `PyComplex_FromDoubles`. -/
def PyComplex_FromDoubles (re im : F64) : PyObject := .complex re im

/-- The constructor `PyString_FromString`: a copy of the C string. -/
def PyString_FromString (buf : List Char) : PyObject := .str (cString buf)

/-- The range of a C `long` (and `long long`). -/
def inLong (v : Int) : Bool := decide (-9223372036854775808 ≤ v ∧ v < 9223372036854775808)

/-- The function `PyInt_AsLong`, on integers: the value, or the error value `-1` when it
does not fit a `long`. Objects of other categories go through `__int__`,
which the model does not follow (error value). -/
def PyInt_AsLong : PyObject → Int
  | .bool b => if b then 1 else 0
  | .int v => v
  | .long v => if inLong v then v else -1
  | _ => -1

/-- The function `PyInt_AsUnsignedLongMask`: the value reduced modulo 2^64. -/
def PyInt_AsUnsignedLongMask : PyObject → Int
  | .bool b => if b then 1 else 0
  | .int v => wrapU 64 v
  | .long v => wrapU 64 v
  | _ => wrapU 64 (-1)

/-- The function `PyLong_AsLongLong`: accepts `int` and `long`; the error value is `-1`. -/
def PyLong_AsLongLong : PyObject → Int
  | .bool b => if b then 1 else 0
  | .int v => v
  | .long v => if inLong v then v else -1
  | _ => -1

/-- The function `PyLong_AsUnsignedLongLong`: accepts only a `long` (any other object is a
bad internal call); the error value is `(unsigned long long) -1`. -/
def PyLong_AsUnsignedLongLong : PyObject → Int
  | .long v => if 0 ≤ v ∧ v < 18446744073709551616 then v else wrapU 64 (-1)
  | _ => wrapU 64 (-1)

/-- The value `-1.0`. -/
def minusOne : F64 := .fin true 1023 0

/-- The function `PyFloat_AsDouble`, on floats. Objects of other categories go through
`__float__`, which the model does not follow (error value `-1.0`). -/
def PyFloat_AsDouble : PyObject → F64
  | .float x => x
  | _ => minusOne

/-- The function `PyComplex_RealAsDouble`. -/
def PyComplex_RealAsDouble : PyObject → F64
  | .complex re _ => re
  | o => PyFloat_AsDouble o

/-- The function `PyComplex_ImagAsDouble`. -/
def PyComplex_ImagAsDouble : PyObject → F64
  | .complex _ im => im
  | _ => .fin false 0 0

/-- The function `PyString_AsString`: the character buffer of a `str`. -/
def PyString_AsString : PyObject → Option (List Char)
  | .str s => some s
  | _ => Option.none

/-- The function `PyUnicode_AsASCIIString`: the `str` with the same characters, `NULL` when a
character is outside ASCII. -/
def PyUnicode_AsASCIIString : PyObject → Option PyObject
  | .unicode s => if s.all (fun c => decide (c.toNat < 128)) then some (.str s) else Option.none
  | _ => Option.none

/-! ## numpy -/

/-- Sizes of the integer dtypes: `(bits, signed)`. -/
def intDtype (dtype : String) : Option (Nat × Bool) :=
  if dtype = "int8" then some (8, true)
  else if dtype = "uint8" then some (8, false)
  else if dtype = "int16" then some (16, true)
  else if dtype = "uint16" then some (16, false)
  else if dtype = "int32" then some (32, true)
  else if dtype = "uint32" then some (32, false)
  else if dtype = "int64" then some (64, true)
  else if dtype = "uint64" then some (64, false)
  else Option.none

/-- The interpreter scalar numpy hands out for an element of an integer array
(`tolist`): an `int` for the types that fit a C `long`, a `long` for `uint32`
and `uint64`. -/
def npIntItem (bits : Nat) (signed : Bool) (v : Int) : PyObject :=
  if signed then .int (wrapS bits v)
  else if bits ≤ 16 then .int (wrapU bits v)
  else .long (wrapU bits v)

/-- Storing one interpreter scalar in an array of the given dtype and reading it
back as an interpreter scalar: the value is converted to the element type
as by a C cast. Only scalars of the category `mat2py` builds for the dtype
are followed; anything else is a failed construction. -/
def npCast (dtype : String) (o : PyObject) : Option PyObject :=
  if dtype = "bool" then
    match o with
    | .bool b => some (.bool b)
    | _ => Option.none
  else if dtype = "float64" then
    match o with
    | .float x => some (.float x)
    | _ => Option.none
  else if dtype = "float32" then
    match o with
    | .float x => some (.float x.toF32.toF64)
    | _ => Option.none
  else if dtype = "complex128" then
    match o with
    | .complex re im => some (.complex re im)
    | _ => Option.none
  else if dtype = "complex64" then
    match o with
    | .complex re im => some (.complex re.toF32.toF64 im.toF32.toF64)
    | _ => Option.none
  else
    match intDtype dtype, o with
    | some (bits, signed), .int v => some (npIntItem bits signed v)
    | some (bits, signed), .long v => some (npIntItem bits signed v)
    | _, _ => Option.none

/-- The conversion `npCast` of every scalar of a list; fails when one of them fails. -/
def npCastAll (dtype : String) : List PyObject → Option (List PyObject)
  | [] => some []
  | o :: os =>
    match npCast dtype o, npCastAll dtype os with
    | some p, some ps => some (p :: ps)
    | _, _ => Option.none

/-- The call `numpy.array(list, dtype=dtype)` on a flat list of scalars: a one-dimensional
array, or `NULL` when the construction raises. -/
def np_array (list : List PyObject) (dtype : String) : Option PyObject :=
  match npCastAll dtype list with
  | some items => some (.ndarray dtype [list.length] items)
  | Option.none => Option.none

/-- The multi-index of the `k`-th element in column-major (Fortran) order: the
first index varies fastest. -/
def unravelF : List Nat → Nat → List Nat
  | [], _ => []
  | d :: ds, k => (k % d) :: unravelF ds (k / d)

/-- The column-major offset of a multi-index. -/
def ravelF : List Nat → List Nat → Nat
  | d :: ds, i :: is => i + d * ravelF ds is
  | _, _ => 0

/-- The multi-index of the `k`-th element in row-major (C) order: the last
index varies fastest. -/
def unravelC : List Nat → Nat → List Nat
  | [], _ => []
  | _ :: ds, k => (k / prodDims ds) :: unravelC ds (k % prodDims ds)

/-- The row-major offset of a multi-index. -/
def ravelC : List Nat → List Nat → Nat
  | _ :: ds, i :: is => i * prodDims ds + ravelC ds is
  | _, _ => 0

/-- Every component of a multi-index is below its dimension. -/
def IdxOK : List Nat → List Nat → Prop
  | [], [] => True
  | d :: ds, i :: is => i < d ∧ IdxOK ds is
  | _, _ => False

/-- The elements of an array in column-major order (`order='F'` traversal). -/
def flattenF (shape : List Nat) (data : List PyObject) : List PyObject :=
  (List.range (prodDims shape)).map (fun k => data.getD (ravelC shape (unravelF shape k)) .none)

/-- The method `ndarray.reshape(newshape, order='F')`: the elements are read in column-major
order and placed into the new shape in column-major order; raises (`NULL`)
when the sizes differ. -/
def ndarray_reshape_F : PyObject → List Nat → Option PyObject
  | .ndarray dtype shape data, newshape =>
    if prodDims newshape = prodDims shape then
      let flat := flattenF shape data
      some (.ndarray dtype newshape
        ((List.range (prodDims newshape)).map
          (fun m => flat.getD (ravelF newshape (unravelC newshape m)) .none)))
    else Option.none
  | _, _ => Option.none

/-- The method `ndarray.tolist()` of a one-dimensional array. -/
def ndarray_tolist : PyObject → List PyObject
  | .ndarray _ _ data => data
  | _ => []

/-- The attribute `ndarray.shape`. -/
def ndarray_shape : PyObject → List Nat
  | .ndarray _ shape _ => shape
  | _ => []

/-- The string `str(ndarray.dtype)`. -/
def ndarray_dtype_str : PyObject → String
  | .ndarray dtype _ _ => dtype
  | _ => ""

/-! ## CPython 2.7 dictionaries -/

/-- The iteration order of a `dict` (`PyDict_Keys`, `PyDict_Values`) as a
function of the order in which its keys were inserted. It belongs to the
interpreter, not to `py.cpp`: CPython 2.7 iterates in hash-table slot order
(`py27DictOrder`), an insertion-ordered mapping is `id`. -/
abbrev DictOrder := List String → List String

/-- The function `PyDict_SetItemString` on the insertion history of a dict: an existing key
keeps its place and gets the new value, a new key is added. -/
def PyDict_SetItemString (d : List (String × PyObject)) (key : String) (v : PyObject) :
    List (String × PyObject) :=
  if d.any (fun kv => kv.1 == key) then d.map (fun kv => if kv.1 == key then (key, v) else kv)
  else d ++ [(key, v)]

/-- The entries of a dict in iteration order, from its insertion history. -/
def dictItems (order : DictOrder) (d : List (String × PyObject)) : List (String × PyObject) :=
  (order (d.map Prod.fst)).filterMap (fun k => (d.lookup k).map (fun v => (k, v)))

/-- The `string_hash` of CPython 2.7 (`Objects/stringobject.c`, no hash
randomisation) as an unsigned 64-bit number. -/
def py27StringHash (s : String) : Nat :=
  let p := s.toList.map Char.toNat
  match p with
  | [] => 0
  | c0 :: _ =>
    let x := p.foldl (fun x c => Nat.xor ((1000003 * x) % 2 ^ 64) c) ((c0 * 128) % 2 ^ 64)
    let x := Nat.xor x p.length
    if x = 2 ^ 64 - 1 then 2 ^ 64 - 2 else x

/-- The probe sequence of `lookdict_string`: the first free slot for `hash` in
a table of `mask + 1` slots, starting at slot `i` with perturbation
`perturb`. The table is never full; the fuel only bounds the search. -/
def py27Probe (table : List (Option String)) (mask : Nat) : Nat → Nat → Nat → Nat
  | 0, i, _ => i % (mask + 1)
  | fuel + 1, i, perturb =>
    match table.getD (i % (mask + 1)) Option.none with
    | Option.none => i % (mask + 1)
    | some _ => py27Probe table mask fuel ((i * 5 + perturb + 1) % 2 ^ 64) (perturb / 32)

/-- Insert a key that is not in the table (`insertdict_clean`). -/
def py27Insert (table : List (Option String)) (key : String) : List (Option String) :=
  let mask := table.length - 1
  let h := py27StringHash key
  table.set (py27Probe table mask (64 + 2 * table.length) (h % (mask + 1)) h) (some key)

/-- The table size `dictresize(mp, minused)` chooses: the least power of two
above `minused`, at least 8. -/
def py27NewSize (minused : Nat) : Nat → Nat → Nat
  | 0, size => size
  | fuel + 1, size => if size ≤ minused then py27NewSize minused fuel (size * 2) else size

/-- The function `PyDict_SetItem` for a new string key: insert, and when the table is two
thirds full rebuild it four times the number of entries large, re-inserting
the entries in slot order. -/
def py27SetItem (table : List (Option String)) (key : String) : List (Option String) :=
  if table.contains (some key) then table
  else
    let t := py27Insert table key
    let used := (t.filterMap id).length
    if used * 3 ≥ t.length * 2 then
      let size := py27NewSize ((if used > 50000 then 2 else 4) * used) 64 8
      (t.filterMap id).foldl py27Insert (List.replicate size Option.none)
    else t

/-- The iteration order of a CPython 2.7 dict whose string keys were inserted
in the given order: the slots of the hash table, in index order. -/
def py27DictOrder : DictOrder := fun keys =>
  (keys.foldl py27SetItem (List.replicate 8 Option.none)).filterMap id

/-! ## `mat2py` -/

/-- The real `CASE(cls, c_type, d_type, py_ctor)` table of `mat2py`: the dtype
string and the constructor applied to `*((c_type*) data)`. -/
def mat2pyRealCase : mxClassID → Option (String × (Scalar → PyObject))
  | .mxLOGICAL_CLASS => some ("bool", fun s => PyBool_FromLong (if s.toBool then 1 else 0))
  | .mxDOUBLE_CLASS => some ("float64", fun s => PyFloat_FromDouble s.toF64)
  | .mxSINGLE_CLASS => some ("float32", fun s => PyFloat_FromDouble s.toF32.toF64)
  | .mxINT8_CLASS => some ("int8", fun s => PyInt_FromLong (wrapS 8 s.toInt))
  | .mxUINT8_CLASS => some ("uint8", fun s => PyInt_FromLong (wrapU 8 s.toInt))
  | .mxINT16_CLASS => some ("int16", fun s => PyInt_FromLong (wrapS 16 s.toInt))
  | .mxUINT16_CLASS => some ("uint16", fun s => PyInt_FromLong (wrapU 16 s.toInt))
  | .mxINT32_CLASS => some ("int32", fun s => PyInt_FromLong (wrapS 32 s.toInt))
  | .mxUINT32_CLASS => some ("uint32", fun s => PyLong_FromLongLong (wrapU 32 s.toInt))
  | .mxINT64_CLASS => some ("int64", fun s => PyLong_FromLongLong (wrapS 64 s.toInt))
  | .mxUINT64_CLASS =>
    some ("uint64", fun s => PyLong_FromUnsignedLongLong (wrapU 64 s.toInt))
  | _ => Option.none

/-- The complex `CASE(cls, c_type, d_type)` table of `mat2py`: the dtype string
and the conversion of `*((c_type*) data)` to the `double` argument of
`PyComplex_FromDoubles`. -/
def mat2pyComplexCase : mxClassID → Option (String × (Scalar → F64))
  | .mxDOUBLE_CLASS => some ("complex128", fun s => s.toF64)
  | .mxSINGLE_CLASS => some ("complex64", fun s => s.toF32.toF64)
  | .mxINT8_CLASS => some ("complex64", fun s => intToF64 (wrapS 8 s.toInt))
  | .mxUINT8_CLASS => some ("complex64", fun s => intToF64 (wrapU 8 s.toInt))
  | .mxINT16_CLASS => some ("complex64", fun s => intToF64 (wrapS 16 s.toInt))
  | .mxUINT16_CLASS => some ("complex64", fun s => intToF64 (wrapU 16 s.toInt))
  | .mxINT32_CLASS => some ("complex128", fun s => intToF64 (wrapS 32 s.toInt))
  | .mxUINT32_CLASS => some ("complex128", fun s => intToF64 (wrapU 32 s.toInt))
  | .mxINT64_CLASS => some ("complex128", fun s => intToF64 (wrapS 64 s.toInt))
  | .mxUINT64_CLASS => some ("complex128", fun s => intToF64 (wrapU 64 s.toInt))
  | _ => Option.none

/-- The two `switch(cls)` statements of `mat2py` (lines 156-202): the flat list
of interpreter scalars and the dtype, which is assigned inside the element
loop and so stays `NULL` when there is no element. -/
def mat2pySwitch (cls : mxClassID) (nelem : Nat) (pr : List Scalar)
    (pi : Option (List Scalar)) : Except MexErr (Option String × List PyObject) :=
  match pi with
  | Option.none =>
    match mat2pyRealCase cls with
    | some (d_type, py_ctor) =>
      .ok (if 0 < nelem then some d_type else Option.none, (pr.take nelem).map py_ctor)
    | Option.none => .error .UnsupportedVariableType
  | some imagData =>
    match mat2pyComplexCase cls with
    | some (d_type, conv) =>
      .ok (if 0 < nelem then some d_type else Option.none,
        List.zipWith (fun re im => PyComplex_FromDoubles (conv re) (conv im))
          (pr.take nelem) (imagData.take nelem))
    | Option.none => .error .UnsupportedVariableType

/-- The numeric branch of `mat2py` (lines 134, 155-249). -/
def mat2pyNumeric (cls : mxClassID) (dims : List Nat) (pr : List Scalar)
    (pi : Option (List Scalar)) : Except MexErr (Option PyObject) :=
  match mat2pySwitch cls (prodDims dims) pr pi with
  | .error e => .error e
  | .ok (Option.none, _) => .error .UnsupportedVariableType
  | .ok (some dtype, list) =>
    match np_array list dtype with
    | Option.none => .error .PythonError
    | some ndary => .ok (ndarray_reshape_F ndary dims)

mutual
/-- The function `mat2py` (lines 77-250). -/
def mat2py (order : DictOrder) : MxArray → Except MexErr (Option PyObject)
  | .char _ chars =>
    match mxArrayToString chars with
    | some str => .ok (some (PyString_FromString str))
    | Option.none => .error .localeDependent
  | .struct _ fields =>
    match mat2pyFields order fields [] with
    | .error e => .error e
    | .ok o =>
      -- line 129: `Py_DECREF(list)` reads an uninitialised pointer without fields
      if fields.isEmpty then .error .undefinedBehaviour
      else .ok (some (.dict (dictItems order o)))
  | .cell _ cells =>
    match mat2pyCells order cells with
    | .error e => .error e
    | .ok items => .ok (some (.list items))
  | .numeric cls dims pr pi => mat2pyNumeric cls dims pr pi
/-- The loop over the fields of a struct array (lines 103-127), on the
insertion history `o` of the dict. -/
def mat2pyFields (order : DictOrder) :
    List (String × List (Option MxArray)) → List (String × PyObject) →
      Except MexErr (List (String × PyObject))
  | [], o => .ok o
  | (fieldName, slots) :: rest, o =>
    match mat2pySlots order slots with
    | .error e => .error e
    | .ok list => mat2pyFields order rest (PyDict_SetItemString o fieldName (.list list))
/-- The loop over the elements of one field (lines 107-124). -/
def mat2pySlots (order : DictOrder) : List (Option MxArray) → Except MexErr (List PyObject)
  | [] => .ok []
  | Option.none :: _ => .error .NullFieldValue
  | some item :: rest =>
    match mat2py order item with
    | .error e => .error e
    | .ok Option.none => .error .UnsupportedVariableType
    | .ok (some pyItem) =>
      match mat2pySlots order rest with
      | .error e => .error e
      | .ok list => .ok (pyItem :: list)
/-- The loop over the elements of a cell array (lines 140-153). -/
def mat2pyCells (order : DictOrder) : List MxArray → Except MexErr (List PyObject)
  | [] => .ok []
  | c :: rest =>
    match mat2py order c with
    | .error e => .error e
    | .ok Option.none => .error .UnsupportedVariableType
    | .ok (some item) =>
      match mat2pyCells order rest with
      | .error e => .error e
      | .ok list => .ok (item :: list)
end

/-! ## `py2mat` -/

/-- The calls `mxCreateNumericArray(ndims, dims, cls, mxREAL)` followed by the stores
into its buffer. -/
def mxCreateNumericArray (dims : List Nat) (cls : mxClassID) (pr : List Scalar)
    (pi : Option (List Scalar)) : MxArray :=
  .numeric cls (mxCreateDims dims) pr pi

/-- The first chain of real `CASE(str, c_type, cls, ctor)` tests of `py2mat`
(lines 336-338): the class and the stored value `(c_type) ctor(item)`. -/
def py2matCaseA (dtype_str : String) : Option (mxClassID × (PyObject → Scalar)) :=
  if dtype_str = "bool" then
    some (.mxLOGICAL_CLASS, fun item => .bool (decide (PyInt_AsLong item ≠ 0)))
  else if dtype_str = "float32" then
    some (.mxSINGLE_CLASS, fun item => .f32 (PyFloat_AsDouble item).toF32)
  else if dtype_str = "float64" then
    some (.mxDOUBLE_CLASS, fun item => .f64 (PyFloat_AsDouble item))
  else Option.none

/-- The second chain of real `CASE` tests of `py2mat` (lines 339-346); the
test of `float64` on line 338 is not followed by `else`, so this chain is
evaluated whatever the first one did. -/
def py2matCaseB (dtype_str : String) : Option (mxClassID × (PyObject → Scalar)) :=
  if dtype_str = "int8" then
    some (.mxINT8_CLASS, fun item => .int (wrapS 8 (PyInt_AsLong item)))
  else if dtype_str = "uint8" then
    some (.mxUINT8_CLASS, fun item => .int (wrapU 8 (PyInt_AsLong item)))
  else if dtype_str = "int16" then
    some (.mxINT16_CLASS, fun item => .int (wrapS 16 (PyInt_AsLong item)))
  else if dtype_str = "uint16" then
    some (.mxUINT16_CLASS, fun item => .int (wrapU 16 (PyInt_AsLong item)))
  else if dtype_str = "int32" then
    some (.mxINT32_CLASS, fun item => .int (wrapS 32 (PyInt_AsLong item)))
  else if dtype_str = "uint32" then
    some (.mxUINT32_CLASS, fun item => .int (wrapU 32 (PyInt_AsUnsignedLongMask item)))
  else if dtype_str = "int64" then
    some (.mxINT64_CLASS, fun item => .int (wrapS 64 (PyLong_AsLongLong item)))
  else if dtype_str = "uint64" then
    some (.mxUINT64_CLASS, fun item => .int (wrapU 64 (PyLong_AsUnsignedLongLong item)))
  else Option.none

/-- The complex `CASE(str, c_type, cls)` tests of `py2mat` (lines 361-362): the
class and the conversion `(c_type)` of the real and imaginary parts. -/
def py2matCaseC (dtype_str : String) : Option (mxClassID × (F64 → Scalar)) :=
  if dtype_str = "complex64" then some (.mxSINGLE_CLASS, fun x => .f32 x.toF32)
  else if dtype_str = "complex128" then some (.mxDOUBLE_CLASS, fun x => .f64 x)
  else Option.none

/-- The value of `a` after the `CASE` tests of lines 336-362, `a` being
`NULL` before them; `list` is the flat list of the elements. -/
def py2matCases (dtype_str : String) (dims : List Nat) (list : List PyObject) :
    Option MxArray :=
  let a : Option MxArray := Option.none
  let a : Option MxArray :=
    match py2matCaseA dtype_str with
    | some (cls, conv) => some (mxCreateNumericArray dims cls (list.map conv) Option.none)
    | Option.none => a
  match py2matCaseB dtype_str with
  | some (cls, conv) => some (mxCreateNumericArray dims cls (list.map conv) Option.none)
  | Option.none =>
    match py2matCaseC dtype_str with
    | some (cls, conv) =>
      some (mxCreateNumericArray dims cls
        (list.map (fun item => conv (PyComplex_RealAsDouble item)))
        (some (list.map (fun item => conv (PyComplex_ImagAsDouble item)))))
    | Option.none => a

/-- The `ndarray` branch of `py2mat` (lines 290-371): the array is reshaped to
one dimension in column-major order and turned into a list; a failed
`reshape` is passed on to `PyObject_CallMethod` and `Py_DECREF` as `NULL`.
The loop of the matching `CASE` stores `nelem` elements through `mxGetData(a)`:
for an array object without dimensions (`ndims = 0`, `nelem = 1`) the array
`a` is 0-by-0 and the store is outside its buffer. -/
def py2matArray (o : PyObject) : Except MexErr (Option MxArray) :=
  let dtype_str := ndarray_dtype_str o
  let dims := ndarray_shape o
  let nelem := prodDims dims
  match ndarray_reshape_F o [nelem] with
  | Option.none => .error .undefinedBehaviour
  | some reshaped =>
    match py2matCases dtype_str dims (ndarray_tolist reshaped) with
    | Option.none => .error .UnsupportedVariableType
    | some a =>
      if nelem ≤ prodDims (mxGetDimensions a) then .ok (some a)
      else .error .undefinedBehaviour

/-- The first loop of the `dict` branch of `py2mat` (lines 398-415), from
index `i` on, `rest` being the values from index `i`. The test on line 399
reads item 0 of `items` in every round. -/
def py2matStructForm (items : List PyObject) : List PyObject → Nat → Int → Except MexErr Int
  | [], _, nelem => .ok nelem
  | item :: rest, i, nelem =>
    if !PyList_Check (items.getD 0 .none) then .error .IncorrectStructForm
    else
      let nelem := if i = 0 then PyList_Size (items.getD 0 .none) else nelem
      if nelem ≠ PyList_Size item then .error .IncorrectStructForm
      else py2matStructForm items rest (i + 1) nelem

mutual
/-- The function `py2mat` (lines 252-450). -/
def py2mat (o : PyObject) : Except MexErr (Option MxArray) :=
  if PyBool_Check o then
    .ok (some (mxCreateNumericArray [1, 1] .mxLOGICAL_CLASS
      [.bool (decide (PyInt_AsLong o ≠ 0))] Option.none))
  else if PyInt_Check o then
    .ok (some (mxCreateNumericArray [1, 1] .mxINT32_CLASS
      [.int (wrapS 32 (PyInt_AsLong o))] Option.none))
  else if PyLong_Check o then
    .ok (some (mxCreateNumericArray [1, 1] .mxINT64_CLASS
      [.int (wrapS 64 (PyLong_AsLongLong o))] Option.none))
  else if PyFloat_Check o then
    .ok (some (mxCreateNumericArray [1, 1] .mxDOUBLE_CLASS
      [.f64 (PyFloat_AsDouble o)] Option.none))
  else if PyComplex_Check o then
    .ok (some (mxCreateNumericArray [1, 1] .mxDOUBLE_CLASS
      [.f64 (PyComplex_RealAsDouble o)] (some [.f64 (PyComplex_ImagAsDouble o)])))
  else if PyUnicode_Check o then
    -- lines 278-280: `Py_DECREF(tmpASCII)` without a test for `NULL`
    match PyUnicode_AsASCIIString o with
    | Option.none => .error .undefinedBehaviour
    | some tmpObject =>
      match mxCreateString ((PyString_AsString tmpObject).getD []) with
      | some a => .ok (some a)
      | Option.none => .error .localeDependent
  else if PyString_Check o then
    match mxCreateString ((PyString_AsString o).getD []) with
    | some a => .ok (some a)
    | Option.none => .error .localeDependent
  else if PyObject_IsInstance_ndarray o then py2matArray o
  else if PySequence_Check o then
    match o with
    | .list xs =>
      match py2matCells xs with
      | .error e => .error e
      | .ok cells => .ok (some (.cell [1, xs.length] cells))
    | .tuple xs =>
      match py2matCells xs with
      | .error e => .error e
      | .ok cells => .ok (some (.cell [1, xs.length] cells))
    -- not reached: the other sequence categories are matched by the tests above
    | _ => .error .undefinedBehaviour
  else if PyDict_Check o then
    match o with
    | .dict kvs =>
      let items := kvs.map Prod.snd
      match py2matStructForm items items 0 0 with
      | .error e => .error e
      | .ok nelem =>
        -- `nelem` is read uninitialised when the dict is empty
        if kvs.isEmpty then .error .undefinedBehaviour
        else
          match py2matFields kvs nelem.toNat with
          | .error e => .error e
          | .ok fields => .ok (some (.struct [1, nelem.toNat] fields))
    -- not reached: `PyDict_Check` holds for a `dict` only
    | _ => .error .undefinedBehaviour
  else .error .UnsupportedVariableType
/-- The loop over the elements of a sequence (lines 377-387). -/
def py2matCells : List PyObject → Except MexErr (List MxArray)
  | [] => .ok []
  | item :: rest =>
    match py2mat item with
    | .error e => .error e
    | .ok Option.none => .error .ConversionError
    | .ok (some mat_item) =>
      match py2matCells rest with
      | .error e => .error e
      | .ok cells => .ok (mat_item :: cells)
/-- The loop over the fields of the new struct array (lines 427-439): the keys
become the field names (lines 419-422). After the first loop every value is a
list of `nelem` elements; `PySequence_GetItem` on an object that is no
sequence is `NULL`. -/
def py2matFields : List (String × PyObject) → Nat →
    Except MexErr (List (String × List (Option MxArray)))
  | [], _ => .ok []
  | (key, .list xs) :: rest, nelem =>
    match py2matItems xs nelem with
    | .error e => .error e
    | .ok slots =>
      match py2matFields rest nelem with
      | .error e => .error e
      | .ok fields => .ok ((key, slots) :: fields)
  | (key, .tuple xs) :: rest, nelem =>
    match py2matItems xs nelem with
    | .error e => .error e
    | .ok slots =>
      match py2matFields rest nelem with
      | .error e => .error e
      | .ok fields => .ok ((key, slots) :: fields)
  | _ :: _, _ => .error .undefinedBehaviour
/-- The loop `j = 0 .. nelem-1` over the elements of one field (lines
429-438); `PySequence_GetItem` past the end is `NULL`. -/
def py2matItems : List PyObject → Nat → Except MexErr (List (Option MxArray))
  | _, 0 => .ok []
  | [], _ + 1 => .error .undefinedBehaviour
  | item :: rest, nelem + 1 =>
    match py2mat item with
    | .error e => .error e
    | .ok Option.none => .error .ConversionError
    | .ok (some mat_item) =>
      match py2matItems rest nelem with
      | .error e => .error e
      | .ok slots => .ok (some mat_item :: slots)
end

/-- The composition `py2mat(mat2py(a))`; a `NULL` from `mat2py` is not passed
on (`do_set` reports `ExportError`, which is outside the two conversions). -/
def roundTrip (order : DictOrder) (a : MxArray) : Except MexErr (Option MxArray) :=
  match mat2py order a with
  | .error e => .error e
  | .ok Option.none => .ok Option.none
  | .ok (some o) => py2mat o

/-! ## Vocabulary of the properties -/

/-- The classes of the real `CASE` table of `mat2py`: logical, single, double
and the eight integer classes. -/
def supportedClasses : List mxClassID :=
  [.mxLOGICAL_CLASS, .mxSINGLE_CLASS, .mxDOUBLE_CLASS, .mxINT8_CLASS, .mxINT16_CLASS,
   .mxINT32_CLASS, .mxINT64_CLASS, .mxUINT8_CLASS, .mxUINT16_CLASS, .mxUINT32_CLASS,
   .mxUINT64_CLASS]

/-- The dtype strings of the `CASE` tests of `py2mat`: eleven real, two complex. -/
def dtypeTable : List String :=
  ["bool", "float32", "float64", "int8", "uint8", "int16", "uint16", "int32", "uint32",
   "int64", "uint64", "complex64", "complex128"]

mutual
/-- The values of the cell round trip: a non-empty row of ASCII text without
NUL, a real numeric array of a supported class with positive dimensions, or a
1-by-n cell array of such values. -/
def Plain : MxArray → Prop
  | .char dims chars =>
    dims = [1, chars.length] ∧ chars ≠ [] ∧ NUL ∉ chars ∧ ascii chars = true
  | .struct _ _ => False
  | .cell dims cells => dims = [1, cells.length] ∧ PlainAll cells
  | .numeric cls dims pr pi =>
    pi = Option.none ∧ cls ∈ supportedClasses ∧ MxDims dims ∧ (∀ d ∈ dims, 0 < d) ∧
      pr.length = prodDims dims ∧ ∀ s ∈ pr, Scalar.OfClass cls s
/-- Every value of the list is `Plain`. -/
def PlainAll : List MxArray → Prop
  | [] => True
  | c :: cs => Plain c ∧ PlainAll cs
end

/-- The fields of a struct array taken in the order of `keys`: for every key
that names a field, the field with its slots. -/
def reorderFields (keys : List String) (fields : List (String × List (Option MxArray))) :
    List (String × List (Option MxArray)) :=
  keys.filterMap (fun k => (fields.lookup k).map (fun slots => (k, slots)))

/-- The slots of a field all hold a value that converts and converts back. -/
def SlotsOK (order : DictOrder) (slots : List (Option MxArray)) : Prop :=
  ∀ s ∈ slots, ∃ v p, s = some v ∧ mat2py order v = .ok (some p) ∧ py2mat p = .ok (some v)

/-- The list `mat2pySlots` builds, or the empty list when it fails. -/
def slotsList (order : DictOrder) (slots : List (Option MxArray)) : List PyObject :=
  match mat2pySlots order slots with
  | .ok l => l
  | .error _ => []

/-- The class the real `CASE` tests of `py2mat` give a dtype string: the
matching test of the second chain, else the matching test of the first. -/
def py2matRealClass (dtype_str : String) : Option mxClassID :=
  match py2matCaseB dtype_str with
  | some (cls, _) => some cls
  | Option.none =>
    match py2matCaseA dtype_str with
    | some (cls, _) => some cls
    | Option.none => Option.none

/-- The real dtype strings: the strings of the two real `CASE` chains. -/
def realDtypes : List String :=
  ["bool", "float32", "float64", "int8", "uint8", "int16", "uint16", "int32", "uint32",
   "int64", "uint64"]

/-- The classes of the complex `CASE` table of `mat2py`. -/
def complexClasses : List mxClassID :=
  [.mxDOUBLE_CLASS, .mxSINGLE_CLASS, .mxINT8_CLASS, .mxUINT8_CLASS, .mxINT16_CLASS,
   .mxUINT16_CLASS, .mxINT32_CLASS, .mxUINT32_CLASS, .mxINT64_CLASS, .mxUINT64_CLASS]

/-- The classes whose complex `CASE` is tagged `complex64`. -/
def narrowIntClasses : List mxClassID :=
  [.mxINT8_CLASS, .mxUINT8_CLASS, .mxINT16_CLASS, .mxUINT16_CLASS]

/-- The classes whose complex `CASE` is tagged `complex128`. -/
def wideIntClasses : List mxClassID :=
  [.mxINT32_CLASS, .mxUINT32_CLASS, .mxINT64_CLASS, .mxUINT64_CLASS]

mutual
/-- The values a host value contains, itself included, in the order in which
`mat2py` meets them: the elements of a cell array, and the slots of a struct
array field after field (absent slots hold no value). -/
def subvalues : MxArray → List MxArray
  | .char dims chars => [.char dims chars]
  | .struct dims fields => .struct dims fields :: subvaluesFields fields
  | .cell dims cells => .cell dims cells :: subvaluesCells cells
  | .numeric cls dims pr pi => [.numeric cls dims pr pi]
/-- The values contained in the fields of a struct array. -/
def subvaluesFields : List (String × List (Option MxArray)) → List MxArray
  | [] => []
  | (_, slots) :: rest => subvaluesSlots slots ++ subvaluesFields rest
/-- The values contained in the slots of one field. -/
def subvaluesSlots : List (Option MxArray) → List MxArray
  | [] => []
  | Option.none :: rest => subvaluesSlots rest
  | some item :: rest => subvalues item ++ subvaluesSlots rest
/-- The values contained in the elements of a cell array. -/
def subvaluesCells : List MxArray → List MxArray
  | [] => []
  | c :: rest => subvalues c ++ subvaluesCells rest
end

/-- A value whose tag is not char, struct, cell or a supported numeric class. -/
def unsupportedTag : MxArray → Prop
  | .numeric cls _ _ _ => cls ∉ supportedClasses
  | _ => False

/-- A struct array with an absent slot (`mxGetFieldByNumber` returns `NULL`). -/
def absentSlot : MxArray → Prop
  | .struct _ fields => ∃ f ∈ fields, Option.none ∈ f.2
  | _ => False

/-- A struct array without fields. -/
def noFields : MxArray → Prop
  | .struct _ fields => fields = []
  | _ => False

/-- A character array with a character outside ASCII. -/
def foreignText : MxArray → Prop
  | .char _ chars => ascii chars = false
  | _ => False

/-! ## Reference counts in the struct and cell branches of `mat2py`

The two branches of `mat2py` that hold references across a failure (lines
92-132 and 134-154) are embedded a second time, on a heap of reference
counted objects. An object returned by `PyString_FromString` or by the
numeric branch is one new object with one reference; the temporaries of the
numeric branch (lines 134, 205-243) are not on this heap. -/

/-- What an interpreter object holds references to: nothing that is tracked,
the items of a list, or the key objects and values of a dict with the C
strings of the keys. -/
inductive Rc.Body where
  | leaf
  | list (items : List Nat)
  | dict (entries : List (String × Nat × Nat))
deriving DecidableEq, Repr

/-- An interpreter object on the heap: its `ob_refcnt` and what it holds. A
freed object stays on the heap with `ob_refcnt = 0`. -/
structure Rc.Object where
  ob_refcnt : Nat
  body : Rc.Body
deriving DecidableEq, Repr

/-- The heap: the objects allocated so far, an object's address being its
position. -/
abbrev Rc.Heap := List Rc.Object

/-- The outcome of instrumented code: it returns a value, or
`mexErrMsgIdAndTxt` raises an error; either way with the heap it leaves. -/
inductive Rc.Outcome (α : Type) where
  | returned (h : Rc.Heap) (v : α)
  | raised (e : MexErr) (h : Rc.Heap)
deriving DecidableEq, Repr

/-- A new object with one reference, and its address. -/
def Rc.new (h : Rc.Heap) (body : Rc.Body) : Rc.Heap × Nat :=
  (h ++ [{ ob_refcnt := 1, body := body }], h.length)

/-- The addresses an object holds a reference to. -/
def Rc.Body.owned : Rc.Body → List Nat
  | .leaf => []
  | .list items => items
  | .dict entries => entries.flatMap (fun e => [e.2.1, e.2.2])

/-- The macro `Py_INCREF(a)`. -/
def Rc.Py_INCREF (h : Rc.Heap) (a : Nat) : Rc.Heap :=
  match h.get? a with
  | some o => h.set a { o with ob_refcnt := o.ob_refcnt + 1 }
  | Option.none => h

/-- The macro `Py_DECREF(a)` with a bound on the depth of the deallocations: the
count drops by one, and an object whose count reaches zero is deallocated,
which releases every reference it holds. -/
def Rc.decref : Nat → Rc.Heap → Nat → Rc.Heap
  | 0, h, _ => h
  | fuel + 1, h, a =>
    match h.get? a with
    | Option.none => h
    | some o =>
      if o.ob_refcnt = 0 then h
      else if o.ob_refcnt = 1 then
        o.body.owned.foldl (fun h b => Rc.decref fuel h b)
          (h.set a { ob_refcnt := 0, body := .leaf })
      else h.set a { o with ob_refcnt := o.ob_refcnt - 1 }

/-- The macro `Py_DECREF(a)`: no chain of deallocations is longer than the number of
objects on the heap. -/
def Rc.Py_DECREF (h : Rc.Heap) (a : Nat) : Rc.Heap :=
  Rc.decref (h.length + 1) h a

/-- The function `PyList_SetItem(list, j, item)` on item `j` of a new list, `j` being the
number of items set so far: the list takes over the caller's reference. -/
def Rc.PyList_SetItem (h : Rc.Heap) (list item : Nat) : Rc.Heap :=
  match h.get? list with
  | some ⟨n, .list items⟩ => h.set list ⟨n, .list (items ++ [item])⟩
  | _ => h

/-- The function `PyDict_SetItemString(o, key, v)`: a string object is made of `key`; the
dict takes a reference of its own to the value, and to the key object when
the key is new; for a key it has already, it puts the value in the place of
the old one, which it releases; the caller's reference to the key object is
released at the end. -/
def Rc.PyDict_SetItemString (h : Rc.Heap) (o : Nat) (key : String) (v : Nat) : Rc.Heap :=
  let (h, kv) := Rc.new h .leaf
  match h.get? o with
  | some ⟨n, .dict entries⟩ =>
    match entries.find? (fun e => e.1 == key) with
    | some (_, _, old) =>
      let h := Rc.Py_INCREF h v
      let h := h.set o
        ⟨n, .dict (entries.map (fun e => if e.1 == key then (e.1, e.2.1, v) else e))⟩
      let h := Rc.Py_DECREF h old
      Rc.Py_DECREF h kv
    | Option.none =>
      let h := Rc.Py_INCREF h kv
      let h := Rc.Py_INCREF h v
      let h := h.set o ⟨n, .dict (entries ++ [(key, kv, v)])⟩
      Rc.Py_DECREF h kv
  | _ => Rc.Py_DECREF h kv

mutual
/-- The function `mat2py` with its reference counting: the char branch (lines 87-91)
and the numeric branch return one new object when they return; the struct
branch is lines 93-131, the cell branch lines 134-154. -/
def Rc.mat2py : Rc.Heap → MxArray → Rc.Outcome (Option Nat)
  | h, .char _ chars =>
    match mxArrayToString chars with
    | some _ =>
      let (h, o) := Rc.new h .leaf
      .returned h (some o)
    | Option.none => .raised .localeDependent h
  | h, .struct _ fields =>
    let (h, o) := Rc.new h (.dict [])
    match Rc.mat2pyFields o h fields Option.none with
    | .raised e h => .raised e h
    | .returned h Option.none => .raised .undefinedBehaviour h
    | .returned h (some list) => .returned (Rc.Py_DECREF h list) (some o)
  | h, .cell _ cells =>
    let (h, list) := Rc.new h (.list [])
    match Rc.mat2pyCells list h cells with
    | .raised e h => .raised e h
    | .returned h _ => .returned h (some list)
  | h, .numeric cls dims pr pi =>
    match mat2pyNumeric cls dims pr pi with
    | .error e => .raised e h
    | .ok Option.none => .returned h Option.none
    | .ok (some _) =>
      let (h, ret) := Rc.new h .leaf
      .returned h (some ret)
/-- The loop over the fields (lines 103-127) for the dict `o`; `list` is the
variable `list`, unset before the first field. -/
def Rc.mat2pyFields (o : Nat) :
    Rc.Heap → List (String × List (Option MxArray)) → Option Nat → Rc.Outcome (Option Nat)
  | h, [], list => .returned h list
  | h, (fieldName, slots) :: rest, _ =>
    let (h, list) := Rc.new h (.list [])
    match Rc.mat2pySlots o list h slots with
    | .raised e h => .raised e h
    | .returned h _ =>
      Rc.mat2pyFields o (Rc.PyDict_SetItemString h o fieldName list) rest (some list)
/-- The loop over the elements of one field (lines 107-124). -/
def Rc.mat2pySlots (o list : Nat) : Rc.Heap → List (Option MxArray) → Rc.Outcome Unit
  | h, [] => .returned h ()
  | h, Option.none :: _ =>
    .raised .NullFieldValue (Rc.Py_DECREF (Rc.Py_DECREF h list) o)
  | h, some item :: rest =>
    match Rc.mat2py h item with
    | .raised e h => .raised e h
    | .returned h Option.none =>
      .raised .UnsupportedVariableType (Rc.Py_DECREF (Rc.Py_DECREF h list) o)
    | .returned h (some pyItem) => Rc.mat2pySlots o list (Rc.PyList_SetItem h list pyItem) rest
/-- The loop over the elements of a cell array (lines 140-153). -/
def Rc.mat2pyCells (list : Nat) : Rc.Heap → List MxArray → Rc.Outcome Unit
  | h, [] => .returned h ()
  | h, c :: rest =>
    match Rc.mat2py h c with
    | .raised e h => .raised e h
    | .returned h Option.none => .raised .UnsupportedVariableType (Rc.Py_DECREF h list)
    | .returned h (some item) => Rc.mat2pyCells list (Rc.PyList_SetItem h list item) rest
end

/-- The reference counts of the objects of a heap, by address. -/
def Rc.refcounts (h : Rc.Heap) : List Nat :=
  h.map (fun o => o.ob_refcnt)

/-- An outcome on the heap and a result of the conversion without the heap
agree: the same error, or both return, a `NULL` on both sides or on none. -/
def Rc.Agrees : Rc.Outcome (Option Nat) → Except MexErr (Option PyObject) → Prop
  | .raised e _, r => r = .error e
  | .returned _ a, r => ∃ p, r = .ok p ∧ a.isSome = p.isSome

/-- An outcome of a loop on the heap and the result of the loop without the
heap agree: the same error, or both run to their end. -/
def Rc.AgreesLoop {α β : Type} : Rc.Outcome α → Except MexErr β → Prop
  | .raised e _, r => r = .error e
  | .returned _ _, r => ∃ x, r = .ok x

/-! ## Lemmas: floating point conversions -/

theorem bitPos_spec (fuel : Nat) : ∀ m, 0 < m → m < 2 ^ fuel →
    2 ^ bitPos fuel m ≤ m ∧ m < 2 ^ (bitPos fuel m + 1) ∧ bitPos fuel m < fuel := by
  induction fuel with
  | zero => intro m h0 h1; simp at h1; omega
  | succ f ih =>
    intro m h0 h1
    unfold bitPos
    split
    · rename_i h2
      have hlt : m / 2 < 2 ^ f := by
        rw [pow_succ] at h1; omega
      obtain ⟨a, b, c⟩ := ih (m / 2) (by omega) hlt
      refine ⟨?_, ?_, by omega⟩
      · rw [pow_succ]; omega
      · rw [pow_succ]; omega
    · simp; omega

theorem roundShift_mul (m sh : Nat) (hsh : 0 < sh) : roundShift (m * 2 ^ sh) sh = m := by
  have hp : 0 < 2 ^ sh := Nat.pow_pos (by norm_num)
  have h2 : 2 ≤ 2 ^ sh := by
    calc 2 = 2 ^ 1 := by norm_num
      _ ≤ 2 ^ sh := Nat.pow_le_pow_right (by norm_num) hsh
  unfold roundShift
  simp only [Nat.mul_div_cancel _ hp, Nat.mul_mod_left]
  have : ¬ (2 ^ sh / 2 < 0 ∨ (0 = 2 ^ sh / 2 ∧ 0 < sh ∧ m % 2 = 1)) := by omega
  rw [if_neg this]

theorem F32.toF64_toF32 (x : F32) (h : x.Valid) : x.toF64.toF32 = x := by
  cases x with
  | nan => rfl
  | inf s => rfl
  | fin s e m =>
    obtain ⟨he, hm⟩ := h
    unfold F32.toF64
    by_cases he0 : e = 0
    · subst he0
      by_cases hm0 : m = 0
      · subst hm0; rfl
      · simp only [if_true, hm0, if_false]
        obtain ⟨h1, h2, h3⟩ := bitPos_spec 23 m (by omega) (by norm_num; omega)
        generalize bitPos 23 m = k at h1 h2 h3
        have hsig : 4503599627370496 + (m - 2 ^ k) * 2 ^ (52 - k) = m * 2 ^ (52 - k) := by
          have : 2 ^ k * 2 ^ (52 - k) = 4503599627370496 := by
            rw [← pow_add]; have : k + (52 - k) = 52 := by omega
            rw [this]; norm_num
          rw [Nat.sub_mul, ← this]
          have : 2 ^ k * 2 ^ (52 - k) ≤ m * 2 ^ (52 - k) := Nat.mul_le_mul_right _ h1
          omega
        unfold F64.toF32
        have e1 : ¬ (897 ≤ k + 874) := by omega
        have e2 : ¬ (k + 874 = 0) := by omega
        have e3 : 926 - (k + 874) = 52 - k := by omega
        simp only [e1, e2, if_false, e3, hsig]
        rw [roundShift_mul m (52 - k) (by omega)]
        have h5 : m / 8388608 = 0 := by omega
        have h6 : m % 8388608 = m := by omega
        rw [h5, h6]
    · simp only [he0, if_false]
      unfold F64.toF32
      have e1 : 897 ≤ e + 896 := by omega
      have hr : roundShift (m * 536870912) 29 = m := roundShift_mul m 29 (by norm_num)
      simp only [e1, if_true, hr]
      have e2 : ¬ (2139095040 ≤ (e + 896 - 896) * 8388608 + m) := by omega
      simp only [e2, if_false]
      have h5 : ((e + 896 - 896) * 8388608 + m) / 8388608 = e := by omega
      have h6 : ((e + 896 - 896) * 8388608 + m) % 8388608 = m := by omega
      rw [h5, h6]

theorem F32.toF64_valid (x : F32) (h : x.Valid) : x.toF64.Valid := by
  cases x with
  | nan => trivial
  | inf s => trivial
  | fin s e m =>
    obtain ⟨he, hm⟩ := h
    unfold F32.toF64
    by_cases he0 : e = 0
    · subst he0
      by_cases hm0 : m = 0
      · subst hm0; simp [F64.Valid]
      · simp only [if_true, hm0, if_false]
        obtain ⟨h1, h2, h3⟩ := bitPos_spec 23 m (by omega) (by norm_num; omega)
        generalize bitPos 23 m = k at h1 h2 h3
        refine ⟨by omega, ?_⟩
        have : 2 ^ k * 2 ^ (52 - k) = 4503599627370496 := by
          rw [← pow_add]; have : k + (52 - k) = 52 := by omega
          rw [this]; norm_num
        have h4 : m - 2 ^ k < 2 ^ k := by rw [pow_succ] at h2; omega
        calc (m - 2 ^ k) * 2 ^ (52 - k) < 2 ^ k * 2 ^ (52 - k) :=
              Nat.mul_lt_mul_of_pos_right h4 (Nat.pow_pos (by norm_num))
          _ = 4503599627370496 := this
    · simp only [he0, if_false]
      exact ⟨by omega, by omega⟩

/-! ## Lemmas: row-major and column-major offsets -/

theorem foldl_mul_init (ds : List Nat) : ∀ a : Nat,
    ds.foldl (fun nelem d => nelem * d) a = a * ds.foldl (fun nelem d => nelem * d) 1 := by
  induction ds with
  | nil => intro a; simp
  | cons d ds ih =>
    intro a
    simp only [List.foldl_cons]
    rw [ih (a * d), ih (1 * d)]
    ring

theorem prodDims_nil : prodDims [] = 1 := rfl

theorem prodDims_cons (d : Nat) (ds : List Nat) : prodDims (d :: ds) = d * prodDims ds := by
  unfold prodDims
  simp only [List.foldl_cons]
  rw [foldl_mul_init ds (1 * d)]
  ring

theorem prodDims_pos (dims : List Nat) (h : ∀ d ∈ dims, 0 < d) : 0 < prodDims dims := by
  induction dims with
  | nil => simp [prodDims_nil]
  | cons d ds ih =>
    rw [prodDims_cons]
    exact Nat.mul_pos (h d (by simp)) (ih (fun x hx => h x (by simp [hx])))

theorem ravelF_unravelF (dims : List Nat) : ∀ k, k < prodDims dims →
    ravelF dims (unravelF dims k) = k := by
  induction dims with
  | nil => intro k hk; simp [prodDims_nil] at hk; simp [unravelF, ravelF, hk]
  | cons d ds ih =>
    intro k hk
    rw [prodDims_cons] at hk
    have hd : k / d < prodDims ds := Nat.div_lt_of_lt_mul hk
    simp only [unravelF, ravelF, ih _ hd]
    exact Nat.mod_add_div k d

theorem unravelF_ok (dims : List Nat) : ∀ k, k < prodDims dims → IdxOK dims (unravelF dims k) := by
  induction dims with
  | nil => intro k _; simp [unravelF, IdxOK]
  | cons d ds ih =>
    intro k hk
    rw [prodDims_cons] at hk
    have hd : k / d < prodDims ds := Nat.div_lt_of_lt_mul hk
    have hpos : 0 < d := by
      rcases Nat.eq_zero_or_pos d with h | h
      · subst h; simp at hk
      · exact h
    exact ⟨Nat.mod_lt _ hpos, ih _ hd⟩

theorem ravelC_lt (dims : List Nat) : ∀ idx, IdxOK dims idx → ravelC dims idx < prodDims dims := by
  induction dims with
  | nil => intro idx h; cases idx <;> simp_all [IdxOK, ravelC, prodDims_nil]
  | cons d ds ih =>
    intro idx h
    cases idx with
    | nil => simp [IdxOK] at h
    | cons i is =>
      obtain ⟨h1, h2⟩ := h
      have := ih is h2
      rw [prodDims_cons]
      simp only [ravelC]
      calc i * prodDims ds + ravelC ds is < i * prodDims ds + prodDims ds := by omega
        _ = (i + 1) * prodDims ds := by ring
        _ ≤ d * prodDims ds := Nat.mul_le_mul_right _ h1

theorem unravelC_ravelC (dims : List Nat) : ∀ idx, IdxOK dims idx →
    unravelC dims (ravelC dims idx) = idx := by
  induction dims with
  | nil => intro idx h; cases idx <;> simp_all [IdxOK, unravelC]
  | cons d ds ih =>
    intro idx h
    cases idx with
    | nil => simp [IdxOK] at h
    | cons i is =>
      obtain ⟨h1, h2⟩ := h
      have hlt := ravelC_lt ds is h2
      have hP : 0 < prodDims ds := by omega
      simp only [ravelC, unravelC]
      have e1 : (i * prodDims ds + ravelC ds is) / prodDims ds = i := by
        rw [Nat.add_comm, Nat.add_mul_div_right _ _ hP, Nat.div_eq_of_lt hlt]; simp
      have e2 : (i * prodDims ds + ravelC ds is) % prodDims ds = ravelC ds is := by
        rw [Nat.add_comm, Nat.add_mul_mod_self_right, Nat.mod_eq_of_lt hlt]
      rw [e1, e2, ih is h2]

theorem flattenF_line (L : List PyObject) : flattenF [L.length] L = L := by
  unfold flattenF
  apply List.ext_getElem
  · simp [prodDims_cons, prodDims_nil]
  · intro i h1 h2
    simp [prodDims_cons, prodDims_nil] at h1
    simp [unravelF, ravelC, prodDims_nil, Nat.mod_eq_of_lt h1, List.getD_eq_getElem?_getD, h1]

theorem flattenF_unflatten (dims : List Nat) (L : List PyObject) (hL : L.length = prodDims dims) :
    flattenF dims ((List.range (prodDims dims)).map
      (fun m => L.getD (ravelF dims (unravelC dims m)) .none)) = L := by
  unfold flattenF
  apply List.ext_getElem
  · simp [hL]
  · intro i h1 h2
    simp at h1
    have hok := unravelF_ok dims i h1
    have hlt := ravelC_lt dims _ hok
    simp [List.getD_eq_getElem?_getD, hlt, unravelC_ravelC dims _ hok, ravelF_unravelF dims i h1, h2]

theorem unflatten_line (flat : List PyObject) :
    (List.range (prodDims [flat.length])).map
      (fun m => flat.getD (ravelF [flat.length] (unravelC [flat.length] m)) .none) = flat := by
  apply List.ext_getElem
  · simp [prodDims_cons, prodDims_nil]
  · intro i h1 h2
    simp [unravelC, ravelF, prodDims_nil, List.getD_eq_getElem?_getD, h2]

/-! ## Lemmas: C integer conversions -/

theorem wrapS_8 (v : Int) (h : -128 ≤ v ∧ v < 128) : wrapS 8 v = v := by
  unfold wrapS; norm_num; omega
theorem wrapS_16 (v : Int) (h : -32768 ≤ v ∧ v < 32768) : wrapS 16 v = v := by
  unfold wrapS; norm_num; omega
theorem wrapS_32 (v : Int) (h : -2147483648 ≤ v ∧ v < 2147483648) : wrapS 32 v = v := by
  unfold wrapS; norm_num; omega
theorem wrapS_64 (v : Int) (h : -9223372036854775808 ≤ v ∧ v < 9223372036854775808) :
    wrapS 64 v = v := by
  unfold wrapS; norm_num; omega
theorem wrapU_8 (v : Int) (h : 0 ≤ v ∧ v < 256) : wrapU 8 v = v := by
  unfold wrapU; norm_num; omega
theorem wrapU_16 (v : Int) (h : 0 ≤ v ∧ v < 65536) : wrapU 16 v = v := by
  unfold wrapU; norm_num; omega
theorem wrapU_32 (v : Int) (h : 0 ≤ v ∧ v < 4294967296) : wrapU 32 v = v := by
  unfold wrapU; norm_num; omega
theorem wrapU_64 (v : Int) (h : 0 ≤ v ∧ v < 18446744073709551616) : wrapU 64 v = v := by
  unfold wrapU; norm_num; omega

/-! ## Lemmas: numeric arrays -/

theorem npCastAll_map (dtype : String) (f : PyObject → PyObject) (l : List PyObject)
    (h : ∀ o ∈ l, npCast dtype o = some (f o)) : npCastAll dtype l = some (l.map f) := by
  induction l with
  | nil => rfl
  | cons o os ih =>
    simp only [npCastAll, h o (by simp), ih (fun x hx => h x (by simp [hx])), List.map_cons]

theorem reshape_there (dt : String) (L : List PyObject) (dims : List Nat)
    (hL : L.length = prodDims dims) :
    ndarray_reshape_F (.ndarray dt [L.length] L) dims =
      some (.ndarray dt dims ((List.range (prodDims dims)).map
        (fun m => L.getD (ravelF dims (unravelC dims m)) .none))) := by
  have h1 : prodDims dims = prodDims [L.length] := by
    simp [prodDims_cons, prodDims_nil, hL]
  simp only [ndarray_reshape_F, h1, if_true, flattenF_line]

theorem reshape_back (dt : String) (L : List PyObject) (dims : List Nat)
    (hL : L.length = prodDims dims) :
    ndarray_reshape_F (.ndarray dt dims ((List.range (prodDims dims)).map
        (fun m => L.getD (ravelF dims (unravelC dims m)) .none))) [prodDims dims] =
      some (.ndarray dt [prodDims dims] L) := by
  simp only [ndarray_reshape_F, prodDims_cons, prodDims_nil, Nat.mul_one, if_true]
  rw [flattenF_unflatten dims L hL]
  have := unflatten_line L
  rw [hL] at this
  simp only [prodDims_cons, prodDims_nil, Nat.mul_one] at this
  rw [this]

theorem prodDims_eq_prod (l : List Nat) : prodDims l = l.prod := by
  induction l with
  | nil => rfl
  | cons d ds ih => rw [prodDims_cons, ih, List.prod_cons]

theorem prod_dropWhile_one (l : List Nat) : (l.dropWhile (fun d => d == 1)).prod = l.prod := by
  induction l with
  | nil => rfl
  | cons d ds ih =>
    by_cases h : d = 1
    · subst h; simp [List.dropWhile_cons, ih]
    · have : (d == 1) = false := by simpa using h
      simp [List.dropWhile_cons, this]

theorem prodDims_dropTrailingOnes (l : List Nat) : prodDims (dropTrailingOnes l) = prodDims l := by
  rw [prodDims_eq_prod, prodDims_eq_prod, dropTrailingOnes, List.prod_reverse, prod_dropWhile_one,
    List.prod_reverse]

/-- The host dimensions of a shape of at least one dimension have the product
of the shape. -/
theorem prodDims_mxCreateDims (shape : List Nat) (h : shape ≠ []) :
    prodDims (mxCreateDims shape) = prodDims shape := by
  match shape, h with
  | [n], _ => simp [mxCreateDims, prodDims_cons, prodDims_nil]
  | m :: n :: rest, _ =>
    simp only [mxCreateDims, prodDims_cons, prodDims_dropTrailingOnes]

/-- Whatever the `CASE` tests make of the flat list is a numeric array with
the host dimensions of the shape and one element for each element of the
list, in the real and, when there is one, in the imaginary buffer. -/
theorem py2matCases_shape (dt : String) (dims : List Nat) (list : List PyObject) (a : MxArray)
    (h : py2matCases dt dims list = some a) :
    ∃ cls pr pi, a = .numeric cls (mxCreateDims dims) pr pi ∧ pr.length = list.length ∧
      ∀ im, pi = some im → im.length = list.length := by
  simp only [py2matCases, mxCreateNumericArray] at h
  split at h
  · simp only [Option.some.injEq] at h
    exact ⟨_, _, _, h.symm, by simp, by simp⟩
  · split at h
    · simp only [Option.some.injEq] at h
      exact ⟨_, _, _, h.symm, by simp, by intro im e; simp at e; subst e; simp⟩
    · split at h
      · simp only [Option.some.injEq] at h
        exact ⟨_, _, _, h.symm, by simp, by simp⟩
      · simp at h

theorem MxDims.ne_nil {dims : List Nat} (h : MxDims dims) : dims ≠ [] := by
  intro e
  subst e
  exact absurd h (by decide)

/-- With at least one dimension the array a `CASE` creates has room for the
`nelem` elements its loop stores. -/
theorem py2matCases_fits (dt : String) (dims : List Nat) (list : List PyObject) (a : MxArray)
    (h : py2matCases dt dims list = some a) (hne : dims ≠ []) :
    prodDims dims ≤ prodDims (mxGetDimensions a) := by
  obtain ⟨cls, pr, pi, ha, _, _⟩ := py2matCases_shape dt dims list a h
  subst ha
  simp only [mxGetDimensions, prodDims_mxCreateDims dims hne, le_refl]

theorem py2mat_ndarray (dt : String) (shape : List Nat) (data : List PyObject) :
    py2mat (.ndarray dt shape data) = py2matArray (.ndarray dt shape data) := by
  rfl

/-- The array `mat2py` builds from the flat list `L` of scalars of dtype `dt`
converts back, through `py2matArray`, to what the `CASE` tests make of `L`. -/
theorem py2matArray_reshaped (dt : String) (L : List PyObject) (dims : List Nat)
    (hL : L.length = prodDims dims) (hne : dims ≠ []) :
    py2matArray (.ndarray dt dims ((List.range (prodDims dims)).map
        (fun m => L.getD (ravelF dims (unravelC dims m)) .none))) =
      match py2matCases dt dims L with
      | Option.none => .error .UnsupportedVariableType
      | some a => .ok (some a) := by
  simp only [py2matArray, ndarray_shape, ndarray_dtype_str, reshape_back dt L dims hL,
    ndarray_tolist]
  cases h : py2matCases dt dims L with
  | none => rfl
  | some a => simp only [py2matCases_fits dt dims L a h hne, if_true]

/-- The array that the numeric branch of `mat2py` returns for a flat list. -/
theorem np_array_reshape (dt : String) (list items : List PyObject) (dims : List Nat)
    (hc : npCastAll dt list = some items) (hlen : list.length = prodDims dims)
    (hlen2 : items.length = prodDims dims) :
    (match np_array list dt with
      | Option.none => (.error .PythonError : Except MexErr (Option PyObject))
      | some ndary => .ok (ndarray_reshape_F ndary dims)) =
    .ok (some (.ndarray dt dims ((List.range (prodDims dims)).map
        (fun m => items.getD (ravelF dims (unravelC dims m)) .none)))) := by
  simp only [np_array, hc]
  have := reshape_there dt items dims hlen2
  rw [hlen, ← hlen2, this, hlen2]

/-- What `mat2py` returns for a real numeric array whose class has a `CASE`:
the array of the stored scalars, element `m` in row-major order being the
element of the flat list at the column-major offset of the multi-index of
`m`. -/
theorem real_mat2py_of (order : DictOrder) (cls : mxClassID) (dims : List Nat)
    (pr : List Scalar) (d : String) (ctor item : Scalar → PyObject)
    (h1 : mat2pyRealCase cls = some (d, ctor))
    (h2 : ∀ s ∈ pr, npCast d (ctor s) = some (item s))
    (hN : 0 < prodDims dims) (hlen : pr.length = prodDims dims) :
    mat2py order (.numeric cls dims pr Option.none) =
      .ok (some (.ndarray d dims ((List.range (prodDims dims)).map
        (fun m => (pr.map item).getD (ravelF dims (unravelC dims m)) .none)))) := by
  have key : ∀ l : List Scalar, (∀ s ∈ l, npCast d (ctor s) = some (item s)) →
      npCastAll d (l.map ctor) = some (l.map item) := by
    intro l
    induction l with
    | nil => intro _; rfl
    | cons o os ih =>
      intro h
      simp only [List.map_cons, npCastAll, h o (by simp), ih (fun x hx => h x (by simp [hx]))]
  rw [mat2py]
  simp only [mat2pyNumeric, mat2pySwitch, h1, hN, if_true,
    List.take_of_length_le (le_of_eq hlen)]
  exact np_array_reshape d _ _ dims (key pr h2) (by simp [hlen]) (by simp [hlen])

theorem real_roundtrip_of (order : DictOrder) (cls : mxClassID) (dims : List Nat)
    (pr : List Scalar) (d : String) (ctor item : Scalar → PyObject) (conv : PyObject → Scalar)
    (h1 : mat2pyRealCase cls = some (d, ctor))
    (h2 : ∀ s ∈ pr, npCast d (ctor s) = some (item s) ∧ conv (item s) = s)
    (h3 : ∀ dims list, py2matCases d dims list =
      some (mxCreateNumericArray dims cls (list.map conv) Option.none))
    (hdims : MxDims dims) (hpos : ∀ d ∈ dims, 0 < d) (hlen : pr.length = prodDims dims) :
    roundTrip order (.numeric cls dims pr Option.none) =
      .ok (some (.numeric cls dims pr Option.none)) := by
  have hm := real_mat2py_of order cls dims pr d ctor item h1 (fun s hs => (h2 s hs).1)
    (prodDims_pos dims hpos) hlen
  simp only [roundTrip, hm, py2mat_ndarray]
  rw [py2matArray_reshaped d _ dims (by simp [hlen]) hdims.ne_nil, h3]
  simp only [mxCreateNumericArray]
  have e1 : mxCreateDims dims = dims := hdims
  have e2 : (pr.map item).map conv = pr := by
    rw [List.map_map]
    conv_rhs => rw [← List.map_id pr]
    apply List.map_congr_left
    intro s hs
    simp [(h2 s hs).2]
  rw [e1, e2]

theorem unravelF_ravelF (dims : List Nat) : ∀ idx, IdxOK dims idx →
    unravelF dims (ravelF dims idx) = idx := by
  induction dims with
  | nil => intro idx h; cases idx <;> simp_all [IdxOK, unravelF]
  | cons d ds ih =>
    intro idx h
    cases idx with
    | nil => simp [IdxOK] at h
    | cons i is =>
      obtain ⟨h1, h2⟩ := h
      simp only [ravelF, unravelF]
      have e1 : (i + d * ravelF ds is) % d = i := by
        rw [Nat.add_mul_mod_self_left, Nat.mod_eq_of_lt h1]
      have e2 : (i + d * ravelF ds is) / d = ravelF ds is := by
        rw [Nat.add_mul_div_left _ _ (by omega : 0 < d), Nat.div_eq_of_lt h1]; simp
      rw [e1, e2, ih is h2]

theorem flattenF_length (shape : List Nat) (data : List PyObject) :
    (flattenF shape data).length = prodDims shape := by
  simp [flattenF]

/-- The `ndarray` branch of `py2mat` hands the elements in column-major order
to the `CASE` tests. -/
theorem py2matArray_all (dt : String) (shape : List Nat) (data : List PyObject) :
    py2matArray (.ndarray dt shape data) =
      match py2matCases dt shape (flattenF shape data) with
      | Option.none => .error .UnsupportedVariableType
      | some a =>
        if prodDims shape ≤ prodDims (mxGetDimensions a) then .ok (some a)
        else .error .undefinedBehaviour := by
  have h := unflatten_line (flattenF shape data)
  rw [flattenF_length] at h
  simp only [py2matArray, ndarray_shape, ndarray_dtype_str, ndarray_reshape_F, prodDims_cons,
    prodDims_nil, Nat.mul_one, if_true, ndarray_tolist]
  simp only [prodDims_cons, prodDims_nil, Nat.mul_one] at h
  rw [h]

theorem py2matArray_eq (dt : String) (shape : List Nat) (data : List PyObject)
    (hne : shape ≠ []) :
    py2matArray (.ndarray dt shape data) =
      match py2matCases dt shape (flattenF shape data) with
      | Option.none => .error .UnsupportedVariableType
      | some a => .ok (some a) := by
  rw [py2matArray_all]
  cases h : py2matCases dt shape (flattenF shape data) with
  | none => rfl
  | some a => simp only [py2matCases_fits dt shape _ a h hne, if_true]

/-- An array object without dimensions: a recognized dtype runs into the store
outside the 0-by-0 array, an unrecognized one is reported. -/
theorem py2matArray_nil (dt : String) (data : List PyObject) :
    py2matArray (.ndarray dt [] data) =
      match py2matCases dt [] (flattenF [] data) with
      | Option.none => .error .UnsupportedVariableType
      | some _ => .error .undefinedBehaviour := by
  rw [py2matArray_all]
  cases h : py2matCases dt [] (flattenF [] data) with
  | none => rfl
  | some a =>
    obtain ⟨cls, pr, pi, ha, _, _⟩ := py2matCases_shape dt [] _ a h
    subst ha
    rfl

/-- The `ndarray` branch returns an array, reports an unrecognized dtype, or
stores outside the array; it never returns `NULL`. -/
theorem py2matArray_outcome (dt : String) (shape : List Nat) (data : List PyObject) :
    py2matArray (.ndarray dt shape data) = .error .UnsupportedVariableType ∨
    py2matArray (.ndarray dt shape data) = .error .undefinedBehaviour ∨
    ∃ a, py2matArray (.ndarray dt shape data) = .ok (some a) := by
  rw [py2matArray_all]
  cases h : py2matCases dt shape (flattenF shape data) with
  | none => exact Or.inl rfl
  | some a =>
    by_cases hc : prodDims shape ≤ prodDims (mxGetDimensions a)
    · exact Or.inr (Or.inr ⟨a, by simp only [hc, if_true]⟩)
    · exact Or.inr (Or.inl (by simp only [hc, if_false]))

theorem idx2_lt (r c i j : Nat) (hi : i < r) (hj : j < c) : i * c + j < r * c := by
  calc i * c + j < i * c + c := by omega
    _ = (i + 1) * c := by ring
    _ ≤ r * c := Nat.mul_le_mul_right _ hi

theorem idx2F_lt (r c i j : Nat) (hi : i < r) (hj : j < c) : i + j * r < r * c := by
  calc i + j * r < r + j * r := by omega
    _ = r * (j + 1) := by ring
    _ ≤ r * c := Nat.mul_le_mul_left _ hj

theorem unravelC_2d (r c i j : Nat) (hi : i < r) (hj : j < c) :
    unravelC [r, c] (i * c + j) = [i, j] := by
  have h := unravelC_ravelC [r, c] [i, j] ⟨hi, hj, trivial⟩
  simpa [ravelC, prodDims_cons, prodDims_nil] using h

theorem unravelF_2d (r c i j : Nat) (hi : i < r) (hj : j < c) :
    unravelF [r, c] (i + j * r) = [i, j] := by
  have h := unravelF_ravelF [r, c] [i, j] ⟨hi, hj, trivial⟩
  simpa [ravelF, Nat.mul_comm] using h

/-- A dtype string selects the real `CASE` with class `cls` and extractor
`conv`: a test of the second chain matches, or no later test does and a test
of the first chain matches. -/
theorem py2matCases_real (d : String) (cls : mxClassID) (conv : PyObject → Scalar)
    (h : py2matCaseB d = some (cls, conv) ∨
      (py2matCaseB d = Option.none ∧ py2matCaseC d = Option.none ∧
        py2matCaseA d = some (cls, conv)))
    (dims : List Nat) (list : List PyObject) :
    py2matCases d dims list =
      some (mxCreateNumericArray dims cls (list.map conv) Option.none) := by
  rcases h with h | ⟨h1, h2, h3⟩
  · simp only [py2matCases, h]
  · simp only [py2matCases, h1, h2, h3]

/-- The two real tables agree on every supported class: `mat2py` has a `CASE`
for it, numpy stores what the constructor builds, and the `CASE` that `py2mat`
selects for the dtype string reads the stored scalar back as the element. -/
theorem real_tables (cls : mxClassID) (hcls : cls ∈ supportedClasses) :
    ∃ (d : String) (ctor item : Scalar → PyObject) (conv : PyObject → Scalar),
      mat2pyRealCase cls = some (d, ctor) ∧
      (∀ s, Scalar.OfClass cls s → npCast d (ctor s) = some (item s) ∧ conv (item s) = s) ∧
      (py2matCaseB d = some (cls, conv) ∨
        (py2matCaseB d = Option.none ∧ py2matCaseC d = Option.none ∧
          py2matCaseA d = some (cls, conv))) := by
  simp only [supportedClasses, List.mem_cons, List.mem_singleton, List.not_mem_nil,
    or_false] at hcls
  rcases hcls with rfl | rfl | rfl | rfl | rfl | rfl | rfl | rfl | rfl | rfl | rfl
  · refine ⟨_, _, fun s => .bool s.toBool, _, rfl, ?_, Or.inr ⟨rfl, rfl, rfl⟩⟩
    intro s h
    cases s <;> simp [Scalar.OfClass] at h
    rename_i b
    cases b <;> simp [npCast, PyBool_FromLong, PyInt_AsLong, Scalar.toBool]
  · refine ⟨_, _, fun s => .float s.toF32.toF64, _, rfl, ?_, Or.inr ⟨rfl, rfl, rfl⟩⟩
    intro s h
    cases s <;> simp [Scalar.OfClass] at h
    rename_i v
    simp [npCast, PyFloat_FromDouble, PyFloat_AsDouble, Scalar.toF32, F32.toF64_toF32 v h]
  · refine ⟨_, _, fun s => .float s.toF64, _, rfl, ?_, Or.inr ⟨rfl, rfl, rfl⟩⟩
    intro s h
    cases s <;> simp [Scalar.OfClass] at h
    simp [npCast, PyFloat_FromDouble, PyFloat_AsDouble, Scalar.toF64]
  · refine ⟨_, _, fun s => .int s.toInt, _, rfl, ?_, Or.inl rfl⟩
    intro s h
    cases s <;> simp [Scalar.OfClass] at h
    rename_i v
    simp [npCast, intDtype, npIntItem, PyInt_FromLong, PyInt_AsLong, Scalar.toInt, wrapS_8 v h]
  · refine ⟨_, _, fun s => .int s.toInt, _, rfl, ?_, Or.inl rfl⟩
    intro s h
    cases s <;> simp [Scalar.OfClass] at h
    rename_i v
    simp [npCast, intDtype, npIntItem, PyInt_FromLong, PyInt_AsLong, Scalar.toInt, wrapS_16 v h]
  · refine ⟨_, _, fun s => .int s.toInt, _, rfl, ?_, Or.inl rfl⟩
    intro s h
    cases s <;> simp [Scalar.OfClass] at h
    rename_i v
    simp [npCast, intDtype, npIntItem, PyInt_FromLong, PyInt_AsLong, Scalar.toInt, wrapS_32 v h]
  · refine ⟨_, _, fun s => .int s.toInt, _, rfl, ?_, Or.inl rfl⟩
    intro s h
    cases s <;> simp [Scalar.OfClass] at h
    rename_i v
    simp [npCast, intDtype, npIntItem, PyLong_FromLongLong, PyLong_AsLongLong, Scalar.toInt,
      wrapS_64 v h]
  · refine ⟨_, _, fun s => .int s.toInt, _, rfl, ?_, Or.inl rfl⟩
    intro s h
    cases s <;> simp [Scalar.OfClass] at h
    rename_i v
    simp [npCast, intDtype, npIntItem, PyInt_FromLong, PyInt_AsLong, Scalar.toInt, wrapU_8 v h]
  · refine ⟨_, _, fun s => .int s.toInt, _, rfl, ?_, Or.inl rfl⟩
    intro s h
    cases s <;> simp [Scalar.OfClass] at h
    rename_i v
    simp [npCast, intDtype, npIntItem, PyInt_FromLong, PyInt_AsLong, Scalar.toInt, wrapU_16 v h]
  · refine ⟨_, _, fun s => .long s.toInt, _, rfl, ?_, Or.inl rfl⟩
    intro s h
    cases s <;> simp [Scalar.OfClass] at h
    rename_i v
    have h64 : wrapU 64 v = v := wrapU_64 v ⟨h.1, by omega⟩
    simp [npCast, intDtype, npIntItem, PyLong_FromLongLong, PyInt_AsUnsignedLongMask,
      Scalar.toInt, wrapU_32 v h, h64]
  · refine ⟨_, _, fun s => .long s.toInt, _, rfl, ?_, Or.inl rfl⟩
    intro s h
    cases s <;> simp [Scalar.OfClass] at h
    rename_i v
    simp [npCast, intDtype, npIntItem, PyLong_FromUnsignedLongLong, PyLong_AsUnsignedLongLong,
      Scalar.toInt, wrapU_64 v h, h]

theorem map_zipWith_left {α β γ : Type} (F : γ → α) (G : α → β → γ) :
    ∀ (xs : List α) (ys : List β), xs.length = ys.length → (∀ a ∈ xs, ∀ b, F (G a b) = a) →
      (List.zipWith G xs ys).map F = xs := by
  intro xs
  induction xs with
  | nil => intro ys _ _; simp
  | cons x xs ih =>
    intro ys hl h
    cases ys with
    | nil => simp at hl
    | cons y ys =>
      simp only [List.zipWith_cons_cons, List.map_cons, h x (by simp)]
      rw [ih ys (by simpa using hl) (fun a ha b => h a (by simp [ha]) b)]

theorem map_zipWith_right {α β γ : Type} (F : γ → β) (G : α → β → γ) :
    ∀ (xs : List α) (ys : List β), xs.length = ys.length → (∀ a, ∀ b ∈ ys, F (G a b) = b) →
      (List.zipWith G xs ys).map F = ys := by
  intro xs
  induction xs with
  | nil => intro ys hl _; cases ys <;> simp at hl ⊢
  | cons x xs ih =>
    intro ys hl h
    cases ys with
    | nil => simp at hl
    | cons y ys =>
      simp only [List.zipWith_cons_cons, List.map_cons, h x y (by simp)]
      rw [ih ys (by simpa using hl) (fun a b hb => h a b (by simp [hb]))]

theorem npCastAll_zipWith (d : String) (G H : Scalar → Scalar → PyObject) :
    ∀ (xs ys : List Scalar), (∀ a b, npCast d (G a b) = some (H a b)) →
      npCastAll d (List.zipWith G xs ys) = some (List.zipWith H xs ys) := by
  intro xs
  induction xs with
  | nil => intro ys _; rfl
  | cons x xs ih =>
    intro ys h
    cases ys with
    | nil => rfl
    | cons y ys => simp only [List.zipWith_cons_cons, npCastAll, h x y, ih ys h]

/-- The round trip of a complex array whose class has a complex `CASE` on both
sides, given what numpy stores (`castf`) and that the element is read back. -/
theorem complex_roundtrip_of (order : DictOrder) (cls : mxClassID) (dims : List Nat)
    (pr im : List Scalar) (d : String) (cv : Scalar → F64) (castf : F64 → F64)
    (back : F64 → Scalar)
    (h1 : mat2pyComplexCase cls = some (d, cv))
    (hcast : ∀ a b, npCast d (.complex a b) = some (.complex (castf a) (castf b)))
    (hsel : py2matCaseB d = Option.none ∧ py2matCaseC d = some (cls, back))
    (hrt : ∀ s, Scalar.OfClass cls s → back (castf (cv s)) = s)
    (hdims : MxDims dims) (hpos : ∀ d ∈ dims, 0 < d)
    (hlen : pr.length = prodDims dims) (hlen2 : im.length = prodDims dims)
    (hval : ∀ s ∈ pr, Scalar.OfClass cls s) (hval2 : ∀ s ∈ im, Scalar.OfClass cls s) :
    roundTrip order (.numeric cls dims pr (some im)) =
      .ok (some (.numeric cls dims pr (some im))) := by
  have hN := prodDims_pos dims hpos
  have hc := npCastAll_zipWith d (fun re im => PyComplex_FromDoubles (cv re) (cv im))
    (fun re im => .complex (castf (cv re)) (castf (cv im))) pr im
    (fun a b => hcast (cv a) (cv b))
  have hm : mat2py order (.numeric cls dims pr (some im)) =
      .ok (some (.ndarray d dims ((List.range (prodDims dims)).map
        (fun m => (List.zipWith (fun re im => PyObject.complex (castf (cv re)) (castf (cv im)))
          pr im).getD (ravelF dims (unravelC dims m)) .none)))) := by
    rw [mat2py]
    simp only [mat2pyNumeric, mat2pySwitch, h1, hN, if_true,
      List.take_of_length_le (le_of_eq hlen), List.take_of_length_le (le_of_eq hlen2)]
    exact np_array_reshape d _ _ dims hc (by simp [hlen, hlen2]) (by simp [hlen, hlen2])
  simp only [roundTrip, hm, py2mat_ndarray]
  rw [py2matArray_reshaped d _ dims (by simp [hlen, hlen2]) hdims.ne_nil]
  simp only [py2matCases, hsel.1, hsel.2, mxCreateNumericArray]
  have e1 : mxCreateDims dims = dims := hdims
  rw [e1, map_zipWith_left _ _ pr im (by rw [hlen, hlen2])
      (fun a ha b => by simp [PyComplex_RealAsDouble, hrt a (hval a ha)]),
    map_zipWith_right _ _ pr im (by rw [hlen, hlen2])
      (fun a b hb => by simp [PyComplex_ImagAsDouble, hrt b (hval2 b hb)])]

/-! ## Lemmas: text and dtype strings -/

theorem cString_of_no_nul (chars : List Char) (h : NUL ∉ chars) : cString chars = chars := by
  unfold cString
  rw [List.takeWhile_eq_self_iff]
  intro c hc
  simp only [bne_iff_ne, ne_eq]
  intro hEq
  exact h (hEq ▸ hc)

theorem mxArrayToString_ascii (chars : List Char) (h : ascii chars = true) :
    mxArrayToString chars = some chars := by
  simp only [mxArrayToString, h, if_true]

theorem mxCreateString_ascii (buf : List Char) (h : ascii (cString buf) = true) :
    mxCreateString buf = some (.char [1, (cString buf).length] (cString buf)) := by
  simp only [mxCreateString, h, if_true]

theorem py2mat_str (s : List Char) :
    py2mat (.str s) =
      match mxCreateString s with
      | some a => .ok (some a)
      | Option.none => .error .localeDependent := rfl

theorem mat2py_char (order : DictOrder) (dims : List Nat) (chars : List Char) :
    mat2py order (.char dims chars) =
      match mxArrayToString chars with
      | some str => .ok (some (PyString_FromString str))
      | Option.none => .error .localeDependent := by
  rw [mat2py]

/-- Text with a character outside ASCII: the embedding leaves the result of
`mat2py` open. -/
theorem mat2py_foreign_text (order : DictOrder) (dims : List Nat) (chars : List Char)
    (h : ascii chars = false) :
    mat2py order (.char dims chars) = .error .localeDependent := by
  rw [mat2py_char]
  simp only [mxArrayToString, h, Bool.false_eq_true, if_false]

/-- A row of ASCII text without NUL converts to the `str` of its characters,
which converts back to the row. -/
theorem ascii_text_roundtrip (order : DictOrder) (chars : List Char) (hnul : NUL ∉ chars)
    (hascii : ascii chars = true) :
    mat2py order (.char [1, chars.length] chars) = .ok (some (.str chars)) ∧
    py2mat (.str chars) = .ok (some (.char [1, chars.length] chars)) := by
  have hc := cString_of_no_nul chars hnul
  constructor
  · rw [mat2py_char, mxArrayToString_ascii chars hascii]
    simp only [PyString_FromString, hc]
  · rw [py2mat_str, mxCreateString_ascii chars (by rw [hc]; exact hascii)]
    simp only [hc]

theorem py2matCases_table (dt : String) (dims : List Nat) (list : List PyObject)
    (h : dt ∈ dtypeTable) :
    ∃ cls pr pi, py2matCases dt dims list = some (.numeric cls (mxCreateDims dims) pr pi) := by
  simp only [dtypeTable, List.mem_cons, List.mem_singleton, List.not_mem_nil, or_false] at h
  rcases h with rfl | rfl | rfl | rfl | rfl | rfl | rfl | rfl | rfl | rfl | rfl | rfl | rfl <;>
    exact ⟨_, _, _, rfl⟩

theorem py2matCases_other (dt : String) (dims : List Nat) (list : List PyObject)
    (h : dt ∉ dtypeTable) : py2matCases dt dims list = Option.none := by
  simp only [dtypeTable, List.mem_cons, List.mem_singleton, List.not_mem_nil, or_false,
    not_or] at h
  obtain ⟨h1, h2, h3, h4, h5, h6, h7, h8, h9, h10, h11, h12, h13⟩ := h
  simp only [py2matCases, py2matCaseA, py2matCaseB, py2matCaseC, h1, h2, h3, h4, h5, h6, h7, h8,
    h9, h10, h11, h12, h13, if_false]

/-! ## Lemmas: the `dict` branch of `py2mat` -/

theorem PyList_Size_nonneg_iff (o : PyObject) : 0 ≤ PyList_Size o ↔ PyList_Check o = true := by
  cases o <;> simp [PyList_Size, PyList_Check]

/-- The rounds of the validation loop after the first: with `nelem` set, the
loop succeeds exactly when every remaining value has that `PyList_Size`. -/
theorem py2matStructForm_tail (items : List PyObject)
    (hfirst : PyList_Check (items.getD 0 .none) = true) (nelem : Int) :
    ∀ (rest : List PyObject) (i : Nat), i ≠ 0 →
      py2matStructForm items rest i nelem =
        if ∀ x ∈ rest, PyList_Size x = nelem then .ok nelem else .error .IncorrectStructForm := by
  intro rest
  induction rest with
  | nil => intro i _; simp [py2matStructForm]
  | cons x xs ih =>
    intro i hi
    simp only [py2matStructForm, hfirst, Bool.not_true, Bool.false_eq_true, if_false, hi]
    by_cases hx : nelem = PyList_Size x
    · simp only [hx, ne_eq, not_true_eq_false, if_false]
      rw [← hx, ih (i + 1) (by omega)]
      simp [hx]
    · have : ¬ ∀ y ∈ x :: xs, PyList_Size y = nelem := by
        intro h
        exact hx (h x (by simp)).symm
      rw [if_neg this]
      simp [hx]

/-- The validation loop of the `dict` branch on a non-empty dict. -/
theorem py2matStructForm_eq (x : PyObject) (xs : List PyObject) :
    py2matStructForm (x :: xs) (x :: xs) 0 0 =
      if PyList_Check x = true ∧ ∀ y ∈ xs, PyList_Size y = PyList_Size x then
        .ok (PyList_Size x)
      else .error .IncorrectStructForm := by
  by_cases hx : PyList_Check x = true
  · have hfirst : PyList_Check ((x :: xs).getD 0 .none) = true := by simpa using hx
    rw [py2matStructForm]
    simp only [hfirst, Bool.not_true, Bool.false_eq_true, if_false, if_true, List.getD_cons_zero,
      ne_eq, not_true_eq_false]
    rw [py2matStructForm_tail (x :: xs) hfirst (PyList_Size x) xs 1 (by omega)]
    simp [hx]
  · rw [py2matStructForm]
    simp [hx]

theorem py2mat_dict (kvs : List (String × PyObject)) :
    py2mat (.dict kvs) =
      match py2matStructForm (kvs.map Prod.snd) (kvs.map Prod.snd) 0 0 with
      | .error e => .error e
      | .ok nelem =>
        if kvs.isEmpty then .error .undefinedBehaviour
        else
          match py2matFields kvs nelem.toNat with
          | .error e => .error e
          | .ok fields => .ok (some (.struct [1, nelem.toNat] fields)) := by
  rfl

/-! ## Lemmas: the struct branch of `mat2py` -/

theorem roundTrip_some (order : DictOrder) (a b : MxArray)
    (h : roundTrip order a = .ok (some b)) :
    ∃ p, mat2py order a = .ok (some p) ∧ py2mat p = .ok (some b) := by
  unfold roundTrip at h
  split at h
  · simp at h
  · simp at h
  · rename_i o ho
    exact ⟨o, ho, h⟩

theorem py2mat_list (xs : List PyObject) :
    py2mat (.list xs) =
      match py2matCells xs with
      | .error e => .error e
      | .ok cells => .ok (some (.cell [1, xs.length] cells)) := rfl

mutual
/-- Every `Plain` value converts to an interpreter object that converts back
to it. -/
theorem plain_roundtrip (order : DictOrder) :
    ∀ (a : MxArray), Plain a → ∃ p, mat2py order a = .ok (some p) ∧ py2mat p = .ok (some a)
  | .char dims chars, h => by
    obtain ⟨rfl, _, hn, ha⟩ := h
    exact ⟨.str chars, ascii_text_roundtrip order chars hn ha⟩
  | .struct _ _, h => by exact absurd h (by simp [Plain])
  | .cell dims cells, h => by
    obtain ⟨rfl, hall⟩ := h
    obtain ⟨ps, h1, h2, h3⟩ := plainAll_roundtrip order cells hall
    refine ⟨.list ps, ?_, ?_⟩
    · rw [mat2py]; simp only [h1]
    · rw [py2mat_list]; simp only [h2, h3]
  | .numeric cls dims pr pi, h => by
    obtain ⟨rfl, hcls, hdims, hpos, hlen, hval⟩ := h
    obtain ⟨d, ctor, item, conv, h1, h2, h3⟩ := real_tables cls hcls
    exact roundTrip_some order _ _ (real_roundtrip_of order cls dims pr d ctor item conv h1
      (fun s hs => h2 s (hval s hs)) (py2matCases_real d cls conv h3) hdims hpos hlen)
/-- The element loops of the two cell branches are inverse on `Plain` values. -/
theorem plainAll_roundtrip (order : DictOrder) :
    ∀ (cs : List MxArray), PlainAll cs →
      ∃ ps, mat2pyCells order cs = .ok ps ∧ py2matCells ps = .ok cs ∧ ps.length = cs.length
  | [], _ => ⟨[], by rw [mat2pyCells], by rw [py2matCells], rfl⟩
  | c :: cs, h => by
    obtain ⟨hc, hcs⟩ := h
    obtain ⟨p, hp1, hp2⟩ := plain_roundtrip order c hc
    obtain ⟨ps, h1, h2, h3⟩ := plainAll_roundtrip order cs hcs
    refine ⟨p :: ps, ?_, ?_, by simp [h3]⟩
    · rw [mat2pyCells]; simp only [hp1, h1]
    · rw [py2matCells]; simp only [hp2, h2]
end

/-! ## Lemmas: struct arrays -/

theorem py2matItems_nil : py2matItems [] 0 = .ok [] := rfl

theorem py2matItems_cons (item : PyObject) (rest : List PyObject) (nelem : Nat) :
    py2matItems (item :: rest) (nelem + 1) =
      match py2mat item with
      | .error e => .error e
      | .ok Option.none => .error .ConversionError
      | .ok (some mat_item) =>
        match py2matItems rest nelem with
        | .error e => .error e
        | .ok slots => .ok (some mat_item :: slots) := rfl

theorem slots_roundtrip (order : DictOrder) :
    ∀ (slots : List (Option MxArray)), SlotsOK order slots →
      ∃ ps, mat2pySlots order slots = .ok ps ∧ py2matItems ps slots.length = .ok slots ∧
        ps.length = slots.length := by
  intro slots
  induction slots with
  | nil => intro _; exact ⟨[], by rw [mat2pySlots], py2matItems_nil, rfl⟩
  | cons s rest ih =>
    intro h
    obtain ⟨v, p, rfl, h1, h2⟩ := h s (by simp)
    obtain ⟨ps, i1, i2, i3⟩ := ih (fun t ht => h t (by simp [ht]))
    refine ⟨p :: ps, ?_, ?_, by simp [i3]⟩
    · rw [mat2pySlots]; simp only [h1, i1]
    · rw [List.length_cons, py2matItems_cons]; simp only [h2, i2]

theorem slotsList_spec (order : DictOrder) (slots : List (Option MxArray))
    (h : SlotsOK order slots) :
    mat2pySlots order slots = .ok (slotsList order slots) ∧
      py2matItems (slotsList order slots) slots.length = .ok slots ∧
      (slotsList order slots).length = slots.length := by
  obtain ⟨ps, h1, h2, h3⟩ := slots_roundtrip order slots h
  simp only [slotsList, h1]
  exact ⟨trivial, h2, h3⟩

theorem setItem_new (d : List (String × PyObject)) (key : String) (v : PyObject)
    (h : key ∉ d.map Prod.fst) : PyDict_SetItemString d key v = d ++ [(key, v)] := by
  unfold PyDict_SetItemString
  have : d.any (fun kv => kv.1 == key) = false := by
    rw [List.any_eq_false]
    intro kv hkv
    simp only [beq_iff_eq]
    intro e
    exact h (List.mem_map.2 ⟨kv, hkv, e⟩)
  simp [this]

theorem mat2pyFields_ok (order : DictOrder) :
    ∀ (fields : List (String × List (Option MxArray))) (o : List (String × PyObject)),
      (o.map Prod.fst ++ fields.map Prod.fst).Nodup →
      (∀ f ∈ fields, SlotsOK order f.2) →
      mat2pyFields order fields o =
        .ok (o ++ fields.map (fun f => (f.1, PyObject.list (slotsList order f.2)))) := by
  intro fields
  induction fields with
  | nil => intro o _ _; rw [mat2pyFields]; simp
  | cons f rest ih =>
    intro o hnd hok
    obtain ⟨name, slots⟩ := f
    have h1 := (slotsList_spec order slots (hok (name, slots) (by simp))).1
    have hnew : name ∉ o.map Prod.fst := by
      intro hin
      rw [List.nodup_append] at hnd
      exact hnd.2.2 hin (by simp)
    rw [mat2pyFields]
    simp only [h1, setItem_new o name _ hnew]
    rw [ih _ (by simpa [List.map_append, List.append_assoc] using hnd)
      (fun g hg => hok g (by simp [hg]))]
    simp

theorem lookup_map_snd {β γ : Type} (h : β → γ) (k : String) :
    ∀ (l : List (String × β)), (l.map (fun f => (f.1, h f.2))).lookup k = (l.lookup k).map h := by
  intro l
  induction l with
  | nil => rfl
  | cons f rest ih =>
    obtain ⟨a, b⟩ := f
    simp only [List.map_cons, List.lookup_cons]
    cases k == a <;> simp [ih]

theorem lookup_mem {β : Type} (k : String) (b : β) :
    ∀ (l : List (String × β)), l.lookup k = some b → (k, b) ∈ l := by
  intro l
  induction l with
  | nil => intro h; simp at h
  | cons f rest ih =>
    obtain ⟨a, c⟩ := f
    intro h
    simp only [List.lookup_cons] at h
    by_cases e : k = a
    · subst e; simp at h; subst h; simp
    · have : (k == a) = false := by simpa using e
      rw [this] at h
      exact List.mem_cons_of_mem _ (ih h)

theorem lookup_of_mem_nodup {β : Type} :
    ∀ (l : List (String × β)), (l.map Prod.fst).Nodup → ∀ f ∈ l, l.lookup f.1 = some f.2 := by
  intro l
  induction l with
  | nil => intro _ f hf; simp at hf
  | cons g rest ih =>
    intro hnd f hf
    obtain ⟨a, c⟩ := g
    simp only [List.map_cons, List.nodup_cons] at hnd
    rcases List.mem_cons.1 hf with rfl | hf
    · simp [List.lookup_cons]
    · have hne : f.1 ≠ a := by
        intro e
        exact hnd.1 (e ▸ List.mem_map.2 ⟨f, hf, rfl⟩)
      have : (f.1 == a) = false := by simpa using hne
      simp only [List.lookup_cons, this]
      exact ih hnd.2 f hf

theorem reorderFields_self (fields : List (String × List (Option MxArray)))
    (hnd : (fields.map Prod.fst).Nodup) : reorderFields (fields.map Prod.fst) fields = fields := by
  unfold reorderFields
  rw [List.filterMap_map]
  have : ∀ f ∈ fields, ((fun k => (fields.lookup k).map (fun slots => (k, slots))) ∘ Prod.fst) f
      = some f := by
    intro f hf
    simp [lookup_of_mem_nodup fields hnd f hf]
  rw [List.filterMap_congr this]
  simp

theorem reorderFields_mem (keys : List String) (fields : List (String × List (Option MxArray))) :
    ∀ f ∈ reorderFields keys fields, f ∈ fields := by
  intro f hf
  unfold reorderFields at hf
  rw [List.mem_filterMap] at hf
  obtain ⟨k, _, hk⟩ := hf
  cases hl : fields.lookup k with
  | none => simp [hl] at hk
  | some col =>
    simp [hl] at hk
    subst hk
    exact lookup_mem k col fields hl

theorem lookup_of_mem_keys {β : Type} (k : String) :
    ∀ (l : List (String × β)), k ∈ l.map Prod.fst → ∃ b, l.lookup k = some b := by
  intro l
  induction l with
  | nil => intro h; simp at h
  | cons g rest ih =>
    intro h
    obtain ⟨a, c⟩ := g
    by_cases e : k = a
    · subst e; exact ⟨c, by simp [List.lookup_cons]⟩
    · have hb : (k == a) = false := by simpa using e
      have hin : k ∈ rest.map Prod.fst := by
        simp only [List.map_cons, List.mem_cons] at h
        rcases h with h | h
        · exact absurd h e
        · exact h
      obtain ⟨b, hb2⟩ := ih hin
      exact ⟨b, by simp only [List.lookup_cons, hb, hb2]⟩

theorem reorderFields_keys (keys : List String) (fields : List (String × List (Option MxArray)))
    (hsub : ∀ k ∈ keys, k ∈ fields.map Prod.fst) :
    (reorderFields keys fields).map Prod.fst = keys := by
  unfold reorderFields
  induction keys with
  | nil => rfl
  | cons k ks ih =>
    obtain ⟨col, hl⟩ := lookup_of_mem_keys k fields (hsub k (by simp))
    simp only [List.filterMap_cons, hl, Option.map_some', List.map_cons]
    rw [ih (fun k hk => hsub k (by simp [hk]))]

theorem dictItems_fields (order : DictOrder) (fields : List (String × List (Option MxArray))) :
    dictItems order (fields.map (fun f => (f.1, PyObject.list (slotsList order f.2)))) =
      (reorderFields (order (fields.map Prod.fst)) fields).map
        (fun f => (f.1, PyObject.list (slotsList order f.2))) := by
  unfold dictItems reorderFields
  rw [List.map_map, List.map_filterMap]
  have e : (Prod.fst ∘ fun f : String × List (Option MxArray) =>
      (f.1, PyObject.list (slotsList order f.2))) = Prod.fst := rfl
  rw [e]
  apply List.filterMap_congr
  intro k _
  rw [lookup_map_snd (fun slots => PyObject.list (slotsList order slots)) k fields]
  cases fields.lookup k <;> rfl

theorem py2matFields_nil (nelem : Nat) : py2matFields [] nelem = .ok [] := rfl

theorem py2matFields_list (key : String) (xs : List PyObject) (rest : List (String × PyObject))
    (nelem : Nat) :
    py2matFields ((key, .list xs) :: rest) nelem =
      match py2matItems xs nelem with
      | .error e => .error e
      | .ok slots =>
        match py2matFields rest nelem with
        | .error e => .error e
        | .ok fields => .ok ((key, slots) :: fields) := rfl

theorem py2matFields_ok (order : DictOrder) (N : Nat) :
    ∀ (R : List (String × List (Option MxArray))),
      (∀ f ∈ R, SlotsOK order f.2 ∧ f.2.length = N) →
      py2matFields (R.map (fun f => (f.1, PyObject.list (slotsList order f.2)))) N = .ok R := by
  intro R
  induction R with
  | nil => intro _; exact py2matFields_nil N
  | cons f rest ih =>
    intro h
    obtain ⟨h1, h2⟩ := h f (by simp)
    have hs := (slotsList_spec order f.2 h1).2.1
    rw [h2] at hs
    rw [List.map_cons, py2matFields_list]
    simp only [hs, ih (fun g hg => h g (by simp [hg]))]

theorem py2mat_fields_dict (order : DictOrder) (N : Nat)
    (R : List (String × List (Option MxArray))) (hne : R ≠ [])
    (h : ∀ f ∈ R, SlotsOK order f.2 ∧ f.2.length = N) :
    py2mat (.dict (R.map (fun f => (f.1, PyObject.list (slotsList order f.2))))) =
      .ok (some (.struct [1, N] R)) := by
  have hsize : ∀ f ∈ R, PyList_Size (PyObject.list (slotsList order f.2)) = (N : Int) := by
    intro f hf
    obtain ⟨h1, h2⟩ := h f hf
    simp [PyList_Size, (slotsList_spec order f.2 h1).2.2, h2]
  have hform : py2matStructForm
      ((R.map (fun f => (f.1, PyObject.list (slotsList order f.2)))).map Prod.snd)
      ((R.map (fun f => (f.1, PyObject.list (slotsList order f.2)))).map Prod.snd) 0 0 =
        .ok (N : Int) := by
    cases R with
    | nil => exact absurd rfl hne
    | cons f rest =>
      simp only [List.map_cons, py2matStructForm_eq]
      have hc : PyList_Check (PyObject.list (slotsList order f.2)) = true ∧
          ∀ y ∈ (rest.map (fun f => (f.1, PyObject.list (slotsList order f.2)))).map Prod.snd,
            PyList_Size y = PyList_Size (PyObject.list (slotsList order f.2)) := by
        refine ⟨rfl, ?_⟩
        intro y hy
        simp only [List.map_map, List.mem_map, Function.comp] at hy
        obtain ⟨g, hg, rfl⟩ := hy
        rw [hsize g (by simp [hg]), hsize f (by simp)]
      rw [if_pos hc, hsize f (by simp)]
  have hemp : (R.map (fun f => (f.1, PyObject.list (slotsList order f.2)))).isEmpty = false := by
    cases R with
    | nil => exact absurd rfl hne
    | cons f rest => rfl
  rw [py2mat_dict]
  simp only [hform, hemp, Bool.false_eq_true, if_false, Int.toNat_ofNat,
    py2matFields_ok order N R h]

theorem reorderFields_ne_nil (keys : List String)
    (fields : List (String × List (Option MxArray)))
    (hsub : ∀ k ∈ keys, k ∈ fields.map Prod.fst) (hne : keys ≠ []) :
    reorderFields keys fields ≠ [] := by
  intro h
  have := reorderFields_keys keys fields hsub
  rw [h] at this
  exact hne this.symm

/-- The round trip of a struct array: the fields come back in the iteration
order of the dict. -/
theorem struct_fields_return (order : DictOrder) (N : Nat)
    (fields : List (String × List (Option MxArray))) (hne : fields ≠ [])
    (hnodup : (fields.map Prod.fst).Nodup)
    (hperm : (order (fields.map Prod.fst)).Perm (fields.map Prod.fst))
    (hlen : ∀ f ∈ fields, f.2.length = N)
    (hslots : ∀ f ∈ fields, SlotsOK order f.2) :
    roundTrip order (.struct [1, N] fields) =
      .ok (some (.struct [1, N] (reorderFields (order (fields.map Prod.fst)) fields))) := by
  have hm : mat2py order (.struct [1, N] fields) =
      .ok (some (.dict ((reorderFields (order (fields.map Prod.fst)) fields).map
        (fun f => (f.1, PyObject.list (slotsList order f.2)))))) := by
    have hf := mat2pyFields_ok order fields [] (by simpa using hnodup) hslots
    have he : fields.isEmpty = false := by
      cases fields with
      | nil => exact absurd rfl hne
      | cons f rest => rfl
    rw [mat2py]
    simp only [hf, List.nil_append, he, Bool.false_eq_true, if_false, dictItems_fields]
  have hsub : ∀ k ∈ order (fields.map Prod.fst), k ∈ fields.map Prod.fst :=
    fun k hk => hperm.subset hk
  have hkne : order (fields.map Prod.fst) ≠ [] := by
    intro e
    rw [e] at hperm
    have := hperm.length_eq
    cases fields with
    | nil => exact hne rfl
    | cons f rest => simp at this
  simp only [roundTrip, hm]
  exact py2mat_fields_dict order N _ (reorderFields_ne_nil _ _ hsub hkne)
    (fun f hf => ⟨hslots f (reorderFields_mem _ _ f hf), hlen f (reorderFields_mem _ _ f hf)⟩)

/-! ## Lemmas: scalars, empty arrays and the dtype tables -/

theorem wrapS_32_range (n : Int) : -2147483648 ≤ wrapS 32 n ∧ wrapS 32 n < 2147483648 := by
  unfold wrapS; norm_num; omega

theorem wrapS_32_congr (n : Int) : (wrapS 32 n - n) % 4294967296 = 0 := by
  unfold wrapS; norm_num; omega

theorem py2mat_int (n : Int) :
    py2mat (.int n) =
      .ok (some (.numeric .mxINT32_CLASS [1, 1] [.int (wrapS 32 n)] Option.none)) := rfl

theorem mat2py_numeric (order : DictOrder) (cls : mxClassID) (dims : List Nat)
    (pr : List Scalar) (pi : Option (List Scalar)) :
    mat2py order (.numeric cls dims pr pi) = mat2pyNumeric cls dims pr pi := by
  rw [mat2py]

theorem py2matRealClass_other (s : String) (h : s ∉ realDtypes) :
    py2matRealClass s = Option.none := by
  simp only [realDtypes, List.mem_cons, List.mem_singleton, List.not_mem_nil, or_false,
    not_or] at h
  obtain ⟨h1, h2, h3, h4, h5, h6, h7, h8, h9, h10, h11⟩ := h
  simp only [py2matRealClass, py2matCaseA, py2matCaseB, h1, h2, h3, h4, h5, h6, h7, h8,
    h9, h10, h11, if_false]

/-! ## Lemmas: failures of `py2mat` -/

theorem py2mat_unicode (s : List Char) :
    py2mat (.unicode s) =
      match PyUnicode_AsASCIIString (.unicode s) with
      | Option.none => .error .undefinedBehaviour
      | some tmpObject =>
        match mxCreateString ((PyString_AsString tmpObject).getD []) with
        | some a => .ok (some a)
        | Option.none => .error .localeDependent :=
  rfl

theorem py2mat_tuple (xs : List PyObject) :
    py2mat (.tuple xs) =
      match py2matCells xs with
      | .error e => .error e
      | .ok cells => .ok (some (.cell [1, xs.length] cells)) := rfl

theorem py2mat_none : py2mat .none = .error .UnsupportedVariableType := rfl

/-- The function `py2mat` never returns `NULL`: every path returns an array or raises. -/
theorem py2mat_never_null (o : PyObject) : py2mat o ≠ .ok Option.none := by
  cases o with
  | none => rw [py2mat_none]; simp
  | bool b => rw [show py2mat (.bool b) = .ok (some (mxCreateNumericArray [1, 1] .mxLOGICAL_CLASS
      [.bool (decide (PyInt_AsLong (.bool b) ≠ 0))] Option.none)) from rfl]; simp
  | int v => rw [py2mat_int]; simp
  | long v => rw [show py2mat (.long v) = .ok (some (mxCreateNumericArray [1, 1] .mxINT64_CLASS
      [.int (wrapS 64 (PyLong_AsLongLong (.long v)))] Option.none)) from rfl]; simp
  | float x => rw [show py2mat (.float x) = .ok (some (mxCreateNumericArray [1, 1]
      .mxDOUBLE_CLASS [.f64 x] Option.none)) from rfl]; simp
  | complex re im => rw [show py2mat (.complex re im) = .ok (some (mxCreateNumericArray [1, 1]
      .mxDOUBLE_CLASS [.f64 re] (some [.f64 im]))) from rfl]; simp
  | unicode s => rw [py2mat_unicode]; split <;> (try split) <;> simp
  | str s => rw [py2mat_str]; split <;> simp
  | ndarray dt shape data =>
    rw [py2mat_ndarray]
    rcases py2matArray_outcome dt shape data with h | h | ⟨a, h⟩ <;> rw [h] <;> simp
  | list xs => rw [py2mat_list]; split <;> simp
  | tuple xs => rw [py2mat_tuple]; split <;> simp
  | dict kvs =>
    rw [py2mat_dict]
    split
    · simp
    · split
      · simp
      · split <;> simp

theorem py2matCells_nil : py2matCells [] = .ok [] := rfl

theorem py2matCells_cons (item : PyObject) (rest : List PyObject) :
    py2matCells (item :: rest) =
      match py2mat item with
      | .error e => .error e
      | .ok Option.none => .error .ConversionError
      | .ok (some mat_item) =>
        match py2matCells rest with
        | .error e => .error e
        | .ok cells => .ok (mat_item :: cells) := rfl

theorem py2matItems_zero (xs : List PyObject) : py2matItems xs 0 = .ok [] := by
  cases xs <;> rfl

theorem py2matItems_short (nelem : Nat) :
    py2matItems [] (nelem + 1) = .error .undefinedBehaviour := rfl

theorem py2matFields_tuple (key : String) (xs : List PyObject) (rest : List (String × PyObject))
    (nelem : Nat) :
    py2matFields ((key, .tuple xs) :: rest) nelem =
      match py2matItems xs nelem with
      | .error e => .error e
      | .ok slots =>
        match py2matFields rest nelem with
        | .error e => .error e
        | .ok fields => .ok ((key, slots) :: fields) := rfl

theorem py2matStructForm_error (items : List PyObject) :
    ∀ (rest : List PyObject) (i : Nat) (nelem : Int) (e : MexErr),
      py2matStructForm items rest i nelem = .error e → e = .IncorrectStructForm := by
  intro rest
  induction rest with
  | nil => intro i nelem e h; simp [py2matStructForm] at h
  | cons x xs ih =>
    intro i nelem e h
    simp only [py2matStructForm] at h
    split_ifs at h
    all_goals first
      | exact ih _ _ e h
      | (simp only [Except.error.injEq] at h; exact h.symm)

mutual
/-- No path of `py2mat` raises `ConversionError`: the tests of `mat_item == NULL`
(lines 380 and 431) never fire, since a failing element raises its own error. -/
theorem py2mat_not_conv : ∀ (o : PyObject), py2mat o ≠ .error .ConversionError
  | .none => by rw [py2mat_none]; simp
  | .bool b => by
    rw [show py2mat (.bool b) = .ok (some (mxCreateNumericArray [1, 1] .mxLOGICAL_CLASS
      [.bool (decide (PyInt_AsLong (.bool b) ≠ 0))] Option.none)) from rfl]; simp
  | .int v => by rw [py2mat_int]; simp
  | .long v => by
    rw [show py2mat (.long v) = .ok (some (mxCreateNumericArray [1, 1] .mxINT64_CLASS
      [.int (wrapS 64 (PyLong_AsLongLong (.long v)))] Option.none)) from rfl]; simp
  | .float x => by
    rw [show py2mat (.float x) = .ok (some (mxCreateNumericArray [1, 1]
      .mxDOUBLE_CLASS [.f64 x] Option.none)) from rfl]; simp
  | .complex re im => by
    rw [show py2mat (.complex re im) = .ok (some (mxCreateNumericArray [1, 1]
      .mxDOUBLE_CLASS [.f64 re] (some [.f64 im]))) from rfl]; simp
  | .unicode s => by rw [py2mat_unicode]; split <;> (try split) <;> simp
  | .str s => by rw [py2mat_str]; split <;> simp
  | .ndarray dt shape data => by
    rw [py2mat_ndarray]
    rcases py2matArray_outcome dt shape data with h | h | ⟨a, h⟩ <;> rw [h] <;> simp
  | .list xs => by
    have ih := py2matCells_not_conv xs
    rw [py2mat_list]
    split
    · rename_i e he
      intro h
      simp at h
      exact ih (h ▸ he)
    · simp
  | .tuple xs => by
    have ih := py2matCells_not_conv xs
    rw [py2mat_tuple]
    split
    · rename_i e he
      intro h
      simp at h
      exact ih (h ▸ he)
    · simp
  | .dict kvs => by
    have ih := py2matFields_not_conv kvs
    rw [py2mat_dict]
    split
    · rename_i e he
      have := py2matStructForm_error _ _ _ _ e he
      subst this
      simp
    · split
      · simp
      · split
        · rename_i e he
          intro h
          simp at h
          exact ih _ (h ▸ he)
        · simp
theorem py2matCells_not_conv : ∀ (xs : List PyObject), py2matCells xs ≠ .error .ConversionError
  | [] => by rw [py2matCells_nil]; simp
  | x :: xs => by
    have ih1 := py2mat_not_conv x
    have ih2 := py2matCells_not_conv xs
    rw [py2matCells_cons]
    split
    · rename_i e he
      intro h
      simp at h
      exact ih1 (h ▸ he)
    · rename_i he
      exact absurd he (py2mat_never_null x)
    · split
      · rename_i e he
        intro h
        simp at h
        exact ih2 (h ▸ he)
      · simp
theorem py2matFields_not_conv : ∀ (kvs : List (String × PyObject)) (nelem : Nat),
    py2matFields kvs nelem ≠ .error .ConversionError
  | [], n => by rw [py2matFields_nil]; simp
  | (key, .list xs) :: rest, n => by
    have ih1 := py2matItems_not_conv xs n
    have ih2 := py2matFields_not_conv rest n
    rw [py2matFields_list]
    split
    · rename_i e he
      intro h
      simp at h
      exact ih1 (h ▸ he)
    · split
      · rename_i e he
        intro h
        simp at h
        exact ih2 (h ▸ he)
      · simp
  | (key, .tuple xs) :: rest, n => by
    have ih1 := py2matItems_not_conv xs n
    have ih2 := py2matFields_not_conv rest n
    rw [py2matFields_tuple]
    split
    · rename_i e he
      intro h
      simp at h
      exact ih1 (h ▸ he)
    · split
      · rename_i e he
        intro h
        simp at h
        exact ih2 (h ▸ he)
      · simp
  | (key, .none) :: rest, n => by
    rw [show py2matFields ((key, .none) :: rest) n = .error .undefinedBehaviour from rfl]; simp
  | (key, .bool _) :: rest, n => by
    rw [show py2matFields ((key, .bool _) :: rest) n = .error .undefinedBehaviour from rfl]; simp
  | (key, .int _) :: rest, n => by
    rw [show py2matFields ((key, .int _) :: rest) n = .error .undefinedBehaviour from rfl]; simp
  | (key, .long _) :: rest, n => by
    rw [show py2matFields ((key, .long _) :: rest) n = .error .undefinedBehaviour from rfl]; simp
  | (key, .float _) :: rest, n => by
    rw [show py2matFields ((key, .float _) :: rest) n = .error .undefinedBehaviour from rfl]; simp
  | (key, .complex _ _) :: rest, n => by
    rw [show py2matFields ((key, .complex _ _) :: rest) n = .error .undefinedBehaviour from rfl]
    simp
  | (key, .unicode _) :: rest, n => by
    rw [show py2matFields ((key, .unicode _) :: rest) n = .error .undefinedBehaviour from rfl]
    simp
  | (key, .str _) :: rest, n => by
    rw [show py2matFields ((key, .str _) :: rest) n = .error .undefinedBehaviour from rfl]; simp
  | (key, .ndarray _ _ _) :: rest, n => by
    rw [show py2matFields ((key, .ndarray _ _ _) :: rest) n = .error .undefinedBehaviour from rfl]
    simp
  | (key, .dict _) :: rest, n => by
    rw [show py2matFields ((key, .dict _) :: rest) n = .error .undefinedBehaviour from rfl]; simp
theorem py2matItems_not_conv : ∀ (xs : List PyObject) (nelem : Nat),
    py2matItems xs nelem ≠ .error .ConversionError
  | xs, 0 => by rw [py2matItems_zero]; simp
  | [], n + 1 => by rw [py2matItems_short]; simp
  | x :: xs, n + 1 => by
    have ih1 := py2mat_not_conv x
    have ih2 := py2matItems_not_conv xs n
    rw [py2matItems_cons]
    split
    · rename_i e he
      intro h
      simp at h
      exact ih1 (h ▸ he)
    · rename_i he
      exact absurd he (py2mat_never_null x)
    · split
      · rename_i e he
        intro h
        simp at h
        exact ih2 (h ▸ he)
      · simp
end

/-- Whatever `mat2py` returns for a numeric array is an array object of the
shape `dims` with `prodDims dims` elements. -/
theorem mat2py_numeric_shape (order : DictOrder) (cls : mxClassID) (dims : List Nat)
    (pr : List Scalar) (pi : Option (List Scalar)) (p : PyObject)
    (h : mat2py order (.numeric cls dims pr pi) = .ok (some p)) :
    ∃ d items, p = .ndarray d dims items ∧ items.length = prodDims dims := by
  rw [mat2py_numeric] at h
  unfold mat2pyNumeric at h
  split at h
  · simp at h
  · simp at h
  · rename_i dtype list _
    cases hnp : np_array list dtype with
    | none => simp [hnp] at h
    | some ndary =>
      simp only [hnp, Except.ok.injEq] at h
      unfold np_array at hnp
      cases hc : npCastAll dtype list with
      | none => simp [hc] at hnp
      | some items =>
        simp only [hc, Option.some.injEq] at hnp
        subst hnp
        simp only [ndarray_reshape_F] at h
        split_ifs at h
        simp only [Option.some.injEq] at h
        exact ⟨dtype, _, h.symm, by simp⟩

/-- Every constructor of the real `CASE` table builds a scalar that numpy
stores under the dtype of the `CASE`. -/
theorem real_cast_total (cls : mxClassID) (d : String) (ctor : Scalar → PyObject)
    (h : mat2pyRealCase cls = some (d, ctor)) (s : Scalar) :
    ∃ p, npCast d (ctor s) = some p := by
  cases cls <;> simp only [mat2pyRealCase, Option.some.injEq, Prod.mk.injEq, reduceCtorEq] at h
  all_goals
    obtain ⟨rfl, rfl⟩ := h
    simp [npCast, intDtype, npIntItem, PyBool_FromLong, PyFloat_FromDouble, PyInt_FromLong,
      PyLong_FromLongLong, PyLong_FromUnsignedLongLong]

theorem real_case_of_supported (cls : mxClassID) (h : cls ∈ supportedClasses) :
    ∃ d ctor, mat2pyRealCase cls = some (d, ctor) := by
  simp only [supportedClasses, List.mem_cons, List.mem_singleton, List.not_mem_nil,
    or_false] at h
  rcases h with rfl | rfl | rfl | rfl | rfl | rfl | rfl | rfl | rfl | rfl | rfl <;>
    exact ⟨_, _, rfl⟩

/-- A real numeric array of a supported class with at least one element
converts to an array object of its shape. -/
theorem real_mat2py_exists (order : DictOrder) (cls : mxClassID) (dims : List Nat)
    (pr : List Scalar) (hcls : cls ∈ supportedClasses) (hN : 0 < prodDims dims)
    (hlen : pr.length = prodDims dims) :
    ∃ d ctor items, mat2pyRealCase cls = some (d, ctor) ∧
      mat2py order (.numeric cls dims pr Option.none) = .ok (some (.ndarray d dims items)) ∧
      items.length = prodDims dims := by
  obtain ⟨d, ctor, h1⟩ := real_case_of_supported cls hcls
  have h2 : ∀ s ∈ pr, npCast d (ctor s) = some ((npCast d (ctor s)).getD .none) := by
    intro s _
    obtain ⟨p, hp⟩ := real_cast_total cls d ctor h1 s
    rw [hp]; rfl
  have hm := real_mat2py_of order cls dims pr d ctor (fun s => (npCast d (ctor s)).getD .none)
    h1 h2 hN hlen
  exact ⟨d, ctor, _, h1, hm, by simp⟩

theorem complex_case_of (cls : mxClassID) (h : cls ∈ complexClasses) :
    ∃ d cv, mat2pyComplexCase cls = some (d, cv) ∧ (d = "complex64" ∨ d = "complex128") := by
  simp only [complexClasses, List.mem_cons, List.mem_singleton, List.not_mem_nil,
    or_false] at h
  rcases h with rfl | rfl | rfl | rfl | rfl | rfl | rfl | rfl | rfl | rfl <;>
    exact ⟨_, _, rfl, by simp⟩

/-- What `mat2py` returns for a complex array whose class has a `CASE`. -/
theorem complex_mat2py_of (order : DictOrder) (cls : mxClassID) (dims : List Nat)
    (pr im : List Scalar) (d : String) (cv : Scalar → F64) (castf : F64 → F64)
    (h1 : mat2pyComplexCase cls = some (d, cv))
    (hcast : ∀ a b, npCast d (.complex a b) = some (.complex (castf a) (castf b)))
    (hN : 0 < prodDims dims)
    (hlen : pr.length = prodDims dims) (hlen2 : im.length = prodDims dims) :
    mat2py order (.numeric cls dims pr (some im)) =
      .ok (some (.ndarray d dims ((List.range (prodDims dims)).map
        (fun m => (List.zipWith (fun re im => PyObject.complex (castf (cv re)) (castf (cv im)))
          pr im).getD (ravelF dims (unravelC dims m)) .none)))) := by
  have hc := npCastAll_zipWith d (fun re im => PyComplex_FromDoubles (cv re) (cv im))
    (fun re im => .complex (castf (cv re)) (castf (cv im))) pr im
    (fun a b => hcast (cv a) (cv b))
  rw [mat2py]
  simp only [mat2pyNumeric, mat2pySwitch, h1, hN, if_true,
    List.take_of_length_le (le_of_eq hlen), List.take_of_length_le (le_of_eq hlen2)]
  exact np_array_reshape d _ _ dims hc (by simp [hlen, hlen2]) (by simp [hlen, hlen2])

/-- A complex array of a class of the complex table with at least one element
converts to an array object of its shape tagged with the dtype of the table. -/
theorem complex_mat2py_exists (order : DictOrder) (cls : mxClassID) (dims : List Nat)
    (pr im : List Scalar) (d : String) (cv : Scalar → F64)
    (h1 : mat2pyComplexCase cls = some (d, cv)) (hd : d = "complex64" ∨ d = "complex128")
    (hN : 0 < prodDims dims)
    (hlen : pr.length = prodDims dims) (hlen2 : im.length = prodDims dims) :
    ∃ items, mat2py order (.numeric cls dims pr (some im)) = .ok (some (.ndarray d dims items)) ∧
      items.length = prodDims dims := by
  rcases hd with rfl | rfl
  · exact ⟨_, complex_mat2py_of order cls dims pr im _ cv (fun x => x.toF32.toF64) h1
      (fun _ _ => rfl) hN hlen hlen2, by simp⟩
  · exact ⟨_, complex_mat2py_of order cls dims pr im _ cv (fun x => x) h1
      (fun _ _ => rfl) hN hlen hlen2, by simp⟩

/-- The `CASE` tests at the dtype `complex64`. -/
theorem py2matCases_complex64 (dims : List Nat) (L : List PyObject) :
    py2matCases "complex64" dims L =
      some (.numeric .mxSINGLE_CLASS (mxCreateDims dims)
        (L.map (fun item => .f32 (PyComplex_RealAsDouble item).toF32))
        (some (L.map (fun item => .f32 (PyComplex_ImagAsDouble item).toF32)))) := by
  rfl

/-- The `CASE` tests at the dtype `complex128`. -/
theorem py2matCases_complex128 (dims : List Nat) (L : List PyObject) :
    py2matCases "complex128" dims L =
      some (.numeric .mxDOUBLE_CLASS (mxCreateDims dims)
        (L.map (fun item => .f64 (PyComplex_RealAsDouble item)))
        (some (L.map (fun item => .f64 (PyComplex_ImagAsDouble item))))) := by
  rfl

/-- The round trip of a complex array through the dtype `complex64`. -/
theorem complex64_return (order : DictOrder) (cls : mxClassID) (dims : List Nat)
    (pr im : List Scalar) (cv : Scalar → F64)
    (h1 : mat2pyComplexCase cls = some ("complex64", cv)) (hne : dims ≠ [])
    (hN : 0 < prodDims dims)
    (hlen : pr.length = prodDims dims) (hlen2 : im.length = prodDims dims) :
    ∃ items pr2 pi2,
      mat2py order (.numeric cls dims pr (some im)) =
        .ok (some (.ndarray "complex64" dims items)) ∧
      roundTrip order (.numeric cls dims pr (some im)) =
        .ok (some (.numeric .mxSINGLE_CLASS (mxCreateDims dims) pr2 (some pi2))) := by
  have hm := complex_mat2py_of order cls dims pr im "complex64" cv (fun x => x.toF32.toF64) h1
    (fun _ _ => rfl) hN hlen hlen2
  refine ⟨_, ?_, ?_, hm, ?_⟩
  rotate_left 2
  · simp only [roundTrip, hm, py2mat_ndarray]
    rw [py2matArray_reshaped "complex64" _ dims (by simp [hlen, hlen2]) hne, py2matCases_complex64]
    exact rfl

/-- The round trip of a complex array through the dtype `complex128`. -/
theorem complex128_return (order : DictOrder) (cls : mxClassID) (dims : List Nat)
    (pr im : List Scalar) (cv : Scalar → F64)
    (h1 : mat2pyComplexCase cls = some ("complex128", cv)) (hne : dims ≠ [])
    (hN : 0 < prodDims dims)
    (hlen : pr.length = prodDims dims) (hlen2 : im.length = prodDims dims) :
    ∃ items pr2 pi2,
      mat2py order (.numeric cls dims pr (some im)) =
        .ok (some (.ndarray "complex128" dims items)) ∧
      roundTrip order (.numeric cls dims pr (some im)) =
        .ok (some (.numeric .mxDOUBLE_CLASS (mxCreateDims dims) pr2 (some pi2))) := by
  have hm := complex_mat2py_of order cls dims pr im "complex128" cv (fun x => x) h1
    (fun _ _ => rfl) hN hlen hlen2
  refine ⟨_, ?_, ?_, hm, ?_⟩
  rotate_left 2
  · simp only [roundTrip, hm, py2mat_ndarray]
    rw [py2matArray_reshaped "complex128" _ dims (by simp [hlen, hlen2]) hne, py2matCases_complex128]
    exact rfl

/-! ## Lemmas: failures of `mat2py` -/

theorem complex_cast_total (cls : mxClassID) (d : String) (cv : Scalar → F64)
    (h : mat2pyComplexCase cls = some (d, cv)) (a b : F64) :
    ∃ p, npCast d (PyComplex_FromDoubles a b) = some p := by
  cases cls <;>
    simp only [mat2pyComplexCase, Option.some.injEq, Prod.mk.injEq, reduceCtorEq] at h
  all_goals
    obtain ⟨rfl, rfl⟩ := h
    exact ⟨_, rfl⟩

theorem npCastAll_total (d : String) (l : List PyObject)
    (h : ∀ o ∈ l, ∃ p, npCast d o = some p) : ∃ items, npCastAll d l = some items := by
  refine ⟨_, npCastAll_map d (fun o => (npCast d o).getD .none) l ?_⟩
  intro o ho
  obtain ⟨p, hp⟩ := h o ho
  simp only [hp, Option.getD_some]

theorem real_case_supported (cls : mxClassID) (d : String) (ctor : Scalar → PyObject)
    (h : mat2pyRealCase cls = some (d, ctor)) : cls ∈ supportedClasses := by
  cases cls <;> simp [mat2pyRealCase, supportedClasses] at h ⊢

theorem complex_case_supported (cls : mxClassID) (d : String) (cv : Scalar → F64)
    (h : mat2pyComplexCase cls = some (d, cv)) : cls ∈ supportedClasses := by
  cases cls <;> simp [mat2pyComplexCase, supportedClasses] at h ⊢

/-- The numeric branch of `mat2py` fails with `UnsupportedVariableType` only,
and returns for supported classes only. -/
theorem mat2pyNumeric_cases (cls : mxClassID) (dims : List Nat) (pr : List Scalar)
    (pi : Option (List Scalar)) :
    mat2pyNumeric cls dims pr pi = .error .UnsupportedVariableType ∨
      ((∃ r, mat2pyNumeric cls dims pr pi = .ok r) ∧ cls ∈ supportedClasses) := by
  cases pi with
  | none =>
    cases h : mat2pyRealCase cls with
    | none => left; simp only [mat2pyNumeric, mat2pySwitch, h]
    | some p =>
      obtain ⟨d, ctor⟩ := p
      by_cases hN : 0 < prodDims dims
      · right
        refine ⟨?_, real_case_supported cls d ctor h⟩
        obtain ⟨items, hi⟩ := npCastAll_total d ((pr.take (prodDims dims)).map ctor) (by
          intro o ho
          obtain ⟨s, _, rfl⟩ := List.mem_map.1 ho
          exact real_cast_total cls d ctor h s)
        simp only [mat2pyNumeric, mat2pySwitch, h, hN, if_true, np_array, hi]
        exact ⟨_, rfl⟩
      · left; simp only [mat2pyNumeric, mat2pySwitch, h, hN, if_false]
  | some im =>
    cases h : mat2pyComplexCase cls with
    | none => left; simp only [mat2pyNumeric, mat2pySwitch, h]
    | some p =>
      obtain ⟨d, cv⟩ := p
      by_cases hN : 0 < prodDims dims
      · right
        refine ⟨?_, complex_case_supported cls d cv h⟩
        have hi := npCastAll_zipWith d (fun re im => PyComplex_FromDoubles (cv re) (cv im))
          (fun re im => (npCast d (PyComplex_FromDoubles (cv re) (cv im))).getD .none)
          (pr.take (prodDims dims)) (im.take (prodDims dims)) (by
            intro a b
            obtain ⟨p, hp⟩ := complex_cast_total cls d cv h (cv a) (cv b)
            simp only [hp, Option.getD_some])
        simp only [mat2pyNumeric, mat2pySwitch, h, hN, if_true, np_array, hi]
        exact ⟨_, rfl⟩
      · left; simp only [mat2pyNumeric, mat2pySwitch, h, hN, if_false]


theorem mat2py_struct (order : DictOrder) (dims : List Nat)
    (fields : List (String × List (Option MxArray))) :
    mat2py order (.struct dims fields) =
      match mat2pyFields order fields [] with
      | .error e => .error e
      | .ok o =>
        if fields.isEmpty then .error .undefinedBehaviour
        else .ok (some (.dict (dictItems order o))) := by
  rw [mat2py]

theorem mat2py_cell (order : DictOrder) (dims : List Nat) (cells : List MxArray) :
    mat2py order (.cell dims cells) =
      match mat2pyCells order cells with
      | .error e => .error e
      | .ok items => .ok (some (.list items)) := by
  rw [mat2py]

theorem mat2pyFields_cons (order : DictOrder) (fieldName : String)
    (slots : List (Option MxArray)) (rest : List (String × List (Option MxArray)))
    (o : List (String × PyObject)) :
    mat2pyFields order ((fieldName, slots) :: rest) o =
      match mat2pySlots order slots with
      | .error e => .error e
      | .ok list => mat2pyFields order rest (PyDict_SetItemString o fieldName (.list list)) := by
  rw [mat2pyFields]

theorem mat2pySlots_cons (order : DictOrder) (item : MxArray) (rest : List (Option MxArray)) :
    mat2pySlots order (some item :: rest) =
      match mat2py order item with
      | .error e => .error e
      | .ok Option.none => .error .UnsupportedVariableType
      | .ok (some pyItem) =>
        match mat2pySlots order rest with
        | .error e => .error e
        | .ok list => .ok (pyItem :: list) := by
  rw [mat2pySlots]

theorem mat2pyCells_cons (order : DictOrder) (c : MxArray) (rest : List MxArray) :
    mat2pyCells order (c :: rest) =
      match mat2py order c with
      | .error e => .error e
      | .ok Option.none => .error .UnsupportedVariableType
      | .ok (some item) =>
        match mat2pyCells order rest with
        | .error e => .error e
        | .ok list => .ok (item :: list) := by
  rw [mat2pyCells]

mutual
/-- Without absent slots, structs without fields and text outside ASCII,
`mat2py` fails with `UnsupportedVariableType` or it returns, and then no value
it met has an unsupported tag. -/
theorem mat2py_cases (order : DictOrder) : ∀ (v : MxArray),
    (∀ x ∈ subvalues v, ¬ absentSlot x ∧ ¬ noFields x ∧ ¬ foreignText x) →
    mat2py order v = .error .UnsupportedVariableType ∨
      ((∃ r, mat2py order v = .ok r) ∧ ∀ x ∈ subvalues v, ¬ unsupportedTag x)
  | .char dims chars => fun hreg => by
    have h0 := hreg (.char dims chars) (by simp [subvalues])
    have ha : ascii chars = true := by
      simpa [foreignText] using h0.2.2
    right
    refine ⟨⟨_, by rw [mat2py_char, mxArrayToString_ascii chars ha]⟩, ?_⟩
    intro x hx
    simp only [subvalues, List.mem_singleton] at hx
    subst hx
    simp [unsupportedTag]
  | .numeric cls dims pr pi => fun _ => by
    rw [mat2py_numeric]
    rcases mat2pyNumeric_cases cls dims pr pi with h | ⟨h, hc⟩
    · exact Or.inl h
    · right
      refine ⟨h, ?_⟩
      intro x hx
      simp only [subvalues, List.mem_singleton] at hx
      subst hx
      simpa [unsupportedTag] using hc
  | .cell dims cells => fun hreg => by
    have ih := mat2pyCells_cases order cells (fun x hx => hreg x (by simp [subvalues, hx]))
    rw [mat2py_cell]
    rcases ih with h | ⟨⟨r, h⟩, hu⟩
    · left; rw [h]
    · right
      rw [h]
      refine ⟨⟨_, rfl⟩, ?_⟩
      intro x hx
      simp only [subvalues, List.mem_cons] at hx
      rcases hx with rfl | hx
      · simp [unsupportedTag]
      · exact hu x hx
  | .struct dims fields => fun hreg => by
    have h0 := hreg (.struct dims fields) (by simp [subvalues])
    have hne : fields.isEmpty = false := by
      cases fields with
      | nil => exact absurd rfl h0.2.1
      | cons _ _ => rfl
    have hab : ∀ f ∈ fields, Option.none ∉ f.2 := fun f hf hn => h0.1 ⟨f, hf, hn⟩
    have ih := mat2pyFields_cases order fields [] hab
      (fun x hx => hreg x (by simp [subvalues, hx]))
    rw [mat2py_struct]
    rcases ih with h | ⟨⟨r, h⟩, hu⟩
    · left; rw [h]
    · right
      rw [h]
      simp only [hne]
      refine ⟨⟨_, rfl⟩, ?_⟩
      intro x hx
      simp only [subvalues, List.mem_cons] at hx
      rcases hx with rfl | hx
      · simp [unsupportedTag]
      · exact hu x hx
/-- The loop over the fields, likewise. -/
theorem mat2pyFields_cases (order : DictOrder) :
    ∀ (fields : List (String × List (Option MxArray))) (o : List (String × PyObject)),
    (∀ f ∈ fields, Option.none ∉ f.2) →
    (∀ x ∈ subvaluesFields fields, ¬ absentSlot x ∧ ¬ noFields x ∧ ¬ foreignText x) →
    mat2pyFields order fields o = .error .UnsupportedVariableType ∨
      ((∃ r, mat2pyFields order fields o = .ok r) ∧
        ∀ x ∈ subvaluesFields fields, ¬ unsupportedTag x)
  | [], o => fun _ _ => by
    right
    exact ⟨⟨_, rfl⟩, by simp [subvaluesFields]⟩
  | (fieldName, slots) :: rest, o => fun hab hreg => by
    have ih1 := mat2pySlots_cases order slots (hab (fieldName, slots) (by simp))
      (fun x hx => hreg x (by simp [subvaluesFields, hx]))
    rw [mat2pyFields_cons]
    rcases ih1 with h | ⟨⟨r, h⟩, hu⟩
    · left; rw [h]
    · rw [h]
      have ih2 := mat2pyFields_cases order rest (PyDict_SetItemString o fieldName (.list r))
        (fun f hf => hab f (by simp [hf]))
        (fun x hx => hreg x (by simp [subvaluesFields, hx]))
      rcases ih2 with h2 | ⟨h2, hu2⟩
      · exact Or.inl h2
      · right
        refine ⟨h2, ?_⟩
        intro x hx
        simp only [subvaluesFields, List.mem_append] at hx
        rcases hx with hx | hx
        · exact hu x hx
        · exact hu2 x hx
/-- The loop over the slots of one field, likewise. -/
theorem mat2pySlots_cases (order : DictOrder) : ∀ (slots : List (Option MxArray)),
    Option.none ∉ slots →
    (∀ x ∈ subvaluesSlots slots, ¬ absentSlot x ∧ ¬ noFields x ∧ ¬ foreignText x) →
    mat2pySlots order slots = .error .UnsupportedVariableType ∨
      ((∃ r, mat2pySlots order slots = .ok r) ∧
        ∀ x ∈ subvaluesSlots slots, ¬ unsupportedTag x)
  | [] => fun _ _ => by
    right
    exact ⟨⟨_, rfl⟩, by simp [subvaluesSlots]⟩
  | Option.none :: rest => fun hab _ => absurd (List.mem_cons_self _ _) hab
  | some item :: rest => fun hab hreg => by
    have ih1 := mat2py_cases order item (fun x hx => hreg x (by simp [subvaluesSlots, hx]))
    have ih2 := mat2pySlots_cases order rest (fun hn => hab (List.mem_cons_of_mem _ hn))
      (fun x hx => hreg x (by simp [subvaluesSlots, hx]))
    rw [mat2pySlots_cons]
    rcases ih1 with h | ⟨⟨r, h⟩, hu⟩
    · left; rw [h]
    · rw [h]
      cases r with
      | none => left; rfl
      | some pyItem =>
        rcases ih2 with h2 | ⟨⟨r2, h2⟩, hu2⟩
        · left; simp only [h2]
        · right
          simp only [h2]
          refine ⟨⟨_, rfl⟩, ?_⟩
          intro x hx
          simp only [subvaluesSlots, List.mem_append] at hx
          rcases hx with hx | hx
          · exact hu x hx
          · exact hu2 x hx
/-- The loop over the elements of a cell array, likewise. -/
theorem mat2pyCells_cases (order : DictOrder) : ∀ (cells : List MxArray),
    (∀ x ∈ subvaluesCells cells, ¬ absentSlot x ∧ ¬ noFields x ∧ ¬ foreignText x) →
    mat2pyCells order cells = .error .UnsupportedVariableType ∨
      ((∃ r, mat2pyCells order cells = .ok r) ∧
        ∀ x ∈ subvaluesCells cells, ¬ unsupportedTag x)
  | [] => fun _ => by
    right
    exact ⟨⟨_, rfl⟩, by simp [subvaluesCells]⟩
  | c :: rest => fun hreg => by
    have ih1 := mat2py_cases order c (fun x hx => hreg x (by simp [subvaluesCells, hx]))
    have ih2 := mat2pyCells_cases order rest
      (fun x hx => hreg x (by simp [subvaluesCells, hx]))
    rw [mat2pyCells_cons]
    rcases ih1 with h | ⟨⟨r, h⟩, hu⟩
    · left; rw [h]
    · rw [h]
      cases r with
      | none => left; rfl
      | some pyItem =>
        rcases ih2 with h2 | ⟨⟨r2, h2⟩, hu2⟩
        · left; simp only [h2]
        · right
          simp only [h2]
          refine ⟨⟨_, rfl⟩, ?_⟩
          intro x hx
          simp only [subvaluesCells, List.mem_append] at hx
          rcases hx with hx | hx
          · exact hu x hx
          · exact hu2 x hx
end

/-- A host value that contains a value with an unsupported tag, no absent
slot, no struct without fields and no text outside ASCII fails with
`UnsupportedVariableType`. -/
theorem unsupported_fails (order : DictOrder) (v : MxArray)
    (hu : ∃ x ∈ subvalues v, unsupportedTag x)
    (hreg : ∀ x ∈ subvalues v, ¬ absentSlot x ∧ ¬ noFields x ∧ ¬ foreignText x) :
    mat2py order v = .error .UnsupportedVariableType := by
  rcases mat2py_cases order v hreg with h | ⟨_, h⟩
  · exact h
  · obtain ⟨x, hx, hxu⟩ := hu
    exact absurd hxu (h x hx)

/-! ## Lemmas: the conversion with reference counts -/

mutual
/-- The conversion on the heap takes the path of `mat2py`. -/
theorem rc_mat2py_agrees (order : DictOrder) : ∀ (v : MxArray) (h : Rc.Heap),
    Rc.Agrees (Rc.mat2py h v) (mat2py order v)
  | .char dims chars, h => by
    rw [mat2py_char]
    simp only [Rc.mat2py]
    cases mxArrayToString chars with
    | none => simp only [Rc.Agrees]
    | some str => exact ⟨_, rfl, rfl⟩
  | .numeric cls dims pr pi, h => by
    rw [mat2py_numeric]
    simp only [Rc.mat2py]
    cases hn : mat2pyNumeric cls dims pr pi with
    | error e => simp only [Rc.Agrees]
    | ok r =>
      cases r with
      | none => exact ⟨_, rfl, rfl⟩
      | some p => exact ⟨_, rfl, rfl⟩
  | .cell dims cells, h => by
    have ih := rc_mat2pyCells_agrees order cells (Rc.new h (.list [])).1 (Rc.new h (.list [])).2
    rw [mat2py_cell]
    simp only [Rc.mat2py]
    cases hc : Rc.mat2pyCells (Rc.new h (.list [])).2 (Rc.new h (.list [])).1 cells with
    | raised e h2 =>
      rw [hc] at ih
      simp only [Rc.AgreesLoop] at ih
      simp only [ih, Rc.Agrees]
    | returned h2 u =>
      rw [hc] at ih
      obtain ⟨x, hx⟩ := ih
      simp only [hx, Rc.Agrees]
      exact ⟨_, rfl, rfl⟩
  | .struct dims fields, h => by
    have ih := rc_mat2pyFields_agrees order fields (Rc.new h (.dict [])).1
      (Rc.new h (.dict [])).2 Option.none []
    rw [mat2py_struct]
    simp only [Rc.mat2py]
    cases hc : Rc.mat2pyFields (Rc.new h (.dict [])).2 (Rc.new h (.dict [])).1 fields
        Option.none with
    | raised e h2 =>
      rw [hc] at ih
      simp only [ih, Rc.Agrees]
    | returned h2 l =>
      rw [hc] at ih
      obtain ⟨⟨x, hx⟩, h1, h2⟩ := ih
      cases fields with
      | nil =>
        simp only [h1 rfl, hx, List.isEmpty_nil, if_true, Rc.Agrees]
      | cons f fs =>
        obtain ⟨a, ha⟩ := h2 (by simp)
        simp only [ha, hx, List.isEmpty_cons, Bool.false_eq_true, if_false, Rc.Agrees]
        exact ⟨_, rfl, rfl⟩
/-- The loop over the fields on the heap takes the path of `mat2pyFields`;
when it ends, `list` is set if and only if there was a field. -/
theorem rc_mat2pyFields_agrees (order : DictOrder) :
    ∀ (fields : List (String × List (Option MxArray))) (h : Rc.Heap) (o : Nat)
      (list : Option Nat) (acc : List (String × PyObject)),
    match Rc.mat2pyFields o h fields list with
    | .raised e _ => mat2pyFields order fields acc = .error e
    | .returned _ l =>
      (∃ x, mat2pyFields order fields acc = .ok x) ∧ (fields = [] → l = list) ∧
        (fields ≠ [] → ∃ a, l = some a)
  | [], h, o, list, acc => by
    rw [Rc.mat2pyFields]
    exact ⟨⟨_, rfl⟩, fun _ => rfl, fun hne => absurd rfl hne⟩
  | (fieldName, slots) :: rest, h, o, list, acc => by
    have ih1 := rc_mat2pySlots_agrees order slots (Rc.new h (.list [])).1 o
      (Rc.new h (.list [])).2
    rw [mat2pyFields_cons]
    simp only [Rc.mat2pyFields]
    cases hc : Rc.mat2pySlots o (Rc.new h (.list [])).2 (Rc.new h (.list [])).1 slots with
    | raised e h2 =>
      rw [hc] at ih1
      simp only [Rc.AgreesLoop] at ih1
      simp only [ih1]
    | returned h2 u =>
      rw [hc] at ih1
      obtain ⟨x, hx⟩ := ih1
      simp only [hx]
      have ih2 := rc_mat2pyFields_agrees order rest
        (Rc.PyDict_SetItemString h2 o fieldName (Rc.new h (.list [])).2) o
        (some (Rc.new h (.list [])).2) (PyDict_SetItemString acc fieldName (.list x))
      cases hr : Rc.mat2pyFields o
          (Rc.PyDict_SetItemString h2 o fieldName (Rc.new h (.list [])).2) rest
          (some (Rc.new h (.list [])).2) with
      | raised e h3 =>
        rw [hr] at ih2
        exact ih2
      | returned h3 l =>
        rw [hr] at ih2
        obtain ⟨hx2, h1, h2⟩ := ih2
        refine ⟨hx2, fun hn => absurd hn (by simp), fun _ => ?_⟩
        cases rest with
        | nil => exact ⟨_, h1 rfl⟩
        | cons f fs => exact h2 (by simp)
/-- The loop over the slots on the heap takes the path of `mat2pySlots`. -/
theorem rc_mat2pySlots_agrees (order : DictOrder) :
    ∀ (slots : List (Option MxArray)) (h : Rc.Heap) (o list : Nat),
    Rc.AgreesLoop (Rc.mat2pySlots o list h slots) (mat2pySlots order slots)
  | [], h, o, list => by
    simp only [Rc.mat2pySlots, Rc.AgreesLoop]
    exact ⟨_, rfl⟩
  | Option.none :: rest, h, o, list => by
    simp only [Rc.mat2pySlots, Rc.AgreesLoop]
    rfl
  | some item :: rest, h, o, list => by
    have ih1 := rc_mat2py_agrees order item h
    rw [mat2pySlots_cons]
    simp only [Rc.mat2pySlots]
    cases hc : Rc.mat2py h item with
    | raised e h2 =>
      rw [hc] at ih1
      simp only [Rc.Agrees] at ih1
      simp only [ih1, Rc.AgreesLoop]
    | returned h2 a =>
      rw [hc] at ih1
      obtain ⟨p, hp, hs⟩ := ih1
      cases a with
      | none =>
        cases p with
        | none => simp only [hp, Rc.AgreesLoop]
        | some q => simp at hs
      | some pyItem =>
        cases p with
        | none => simp at hs
        | some q =>
          simp only [hp]
          have ih2 := rc_mat2pySlots_agrees order rest (Rc.PyList_SetItem h2 list pyItem) o list
          cases hr : Rc.mat2pySlots o list (Rc.PyList_SetItem h2 list pyItem) rest with
          | raised e h3 =>
            rw [hr] at ih2
            simp only [Rc.AgreesLoop] at ih2
            simp only [ih2, Rc.AgreesLoop]
          | returned h3 u =>
            rw [hr] at ih2
            obtain ⟨x, hx⟩ := ih2
            simp only [hx, Rc.AgreesLoop]
            exact ⟨_, rfl⟩
/-- The loop over the cells on the heap takes the path of `mat2pyCells`. -/
theorem rc_mat2pyCells_agrees (order : DictOrder) :
    ∀ (cells : List MxArray) (h : Rc.Heap) (list : Nat),
    Rc.AgreesLoop (Rc.mat2pyCells list h cells) (mat2pyCells order cells)
  | [], h, list => by
    simp only [Rc.mat2pyCells, Rc.AgreesLoop]
    exact ⟨_, rfl⟩
  | c :: rest, h, list => by
    have ih1 := rc_mat2py_agrees order c h
    rw [mat2pyCells_cons]
    simp only [Rc.mat2pyCells]
    cases hc : Rc.mat2py h c with
    | raised e h2 =>
      rw [hc] at ih1
      simp only [Rc.Agrees] at ih1
      simp only [ih1, Rc.AgreesLoop]
    | returned h2 a =>
      rw [hc] at ih1
      obtain ⟨p, hp, hs⟩ := ih1
      cases a with
      | none =>
        cases p with
        | none => simp only [hp, Rc.AgreesLoop]
        | some q => simp at hs
      | some pyItem =>
        cases p with
        | none => simp at hs
        | some q =>
          simp only [hp]
          have ih2 := rc_mat2pyCells_agrees order rest (Rc.PyList_SetItem h2 list pyItem) list
          cases hr : Rc.mat2pyCells list (Rc.PyList_SetItem h2 list pyItem) rest with
          | raised e h3 =>
            rw [hr] at ih2
            simp only [Rc.AgreesLoop] at ih2
            simp only [ih2, Rc.AgreesLoop]
          | returned h3 u =>
            rw [hr] at ih2
            obtain ⟨x, hx⟩ := ih2
            simp only [hx, Rc.AgreesLoop]
            exact ⟨_, rfl⟩
end

/-- With the absent slot in the first field nothing is left: the dict and the
partial list are released. -/
theorem null_field_first_released :
    Rc.mat2py [] (.struct [1, 1] [("a", [Option.none])]) =
      .raised .NullFieldValue [⟨0, .leaf⟩, ⟨0, .leaf⟩] := by
  decide

/-! ## Lemmas: the round trip of a cell array -/

theorem ravelF_unravelC_zero : ∀ (dims : List Nat), ravelF dims (unravelC dims 0) = 0
  | [] => rfl
  | d :: ds => by
    simp only [unravelC, Nat.zero_div, Nat.zero_mod, ravelF, ravelF_unravelC_zero ds,
      Nat.mul_zero, Nat.add_zero]

theorem ravelC_unravelF_zero : ∀ (dims : List Nat), ravelC dims (unravelF dims 0) = 0
  | [] => rfl
  | d :: ds => by
    simp only [unravelF, Nat.zero_div, Nat.zero_mod, ravelC, ravelC_unravelF_zero ds,
      Nat.zero_mul, Nat.add_zero]

/-- Reshaping a one-element list to a shape of product 1 leaves the element. -/
theorem reshape_one (dims : List Nat) (hone : prodDims dims = 1) (p : PyObject) :
    (List.range (prodDims dims)).map
      (fun m => [p].getD (ravelF dims (unravelC dims m)) .none) = [p] := by
  rw [hone, show List.range 1 = [0] from rfl]
  simp only [List.map_cons, List.map_nil, ravelF_unravelC_zero]
  rfl

theorem flattenF_one (dims : List Nat) (hone : prodDims dims = 1) (p : PyObject) :
    flattenF dims [p] = [p] := by
  unfold flattenF
  rw [hone, show List.range 1 = [0] from rfl]
  simp only [List.map_cons, List.map_nil, ravelC_unravelF_zero]
  rfl

/-- The array object `mat2py` builds for a real array of one element, and what
`py2mat` reads back from it. -/
theorem real_one_element (order : DictOrder) (cls : mxClassID) (dims : List Nat)
    (hone : prodDims dims = 1) (hcls : cls ∈ supportedClasses) (x : Scalar) :
    ∃ d ctor item,
      mat2pyRealCase cls = some (d, ctor) ∧ npCast d (ctor x) = some item ∧
      mat2py order (.numeric cls dims [x] Option.none) = .ok (some (.ndarray d dims [item])) ∧
      (Scalar.OfClass cls x → dims ≠ [] →
        py2mat (.ndarray d dims [item]) =
          .ok (some (.numeric cls (mxCreateDims dims) [x] Option.none))) := by
  obtain ⟨d, ctor, itemf, conv, h1, h2, h3⟩ := real_tables cls hcls
  obtain ⟨p, hp⟩ := real_cast_total cls d ctor h1 x
  have hm := real_mat2py_of order cls dims [x] d ctor (fun s => (npCast d (ctor s)).getD .none)
    h1 (by
      intro s hs
      simp only [List.mem_singleton] at hs
      subst hs
      simp only [hp, Option.getD_some]) (by omega) (by simp [hone])
  simp only [List.map_cons, List.map_nil, hp, Option.getD_some, reshape_one dims hone] at hm
  refine ⟨d, ctor, p, h1, hp, hm, ?_⟩
  intro hx hne
  obtain ⟨e1, e2⟩ := h2 x hx
  have e3 : p = itemf x := by
    rw [hp] at e1
    exact Option.some.inj e1
  rw [py2mat_ndarray, py2matArray_eq d dims [p] hne, py2matCases_real d cls conv h3,
    flattenF_one dims hone]
  simp only [mxCreateNumericArray, List.map_cons, List.map_nil, e3, e2]

/-- The array object `mat2py` builds for a complex array of one element. -/
theorem complex_one_element (order : DictOrder) (cls : mxClassID) (dims : List Nat)
    (hone : prodDims dims = 1) (hcls : cls ∈ complexClasses) (re im : Scalar) :
    ∃ d cv item,
      mat2pyComplexCase cls = some (d, cv) ∧
      npCast d (PyComplex_FromDoubles (cv re) (cv im)) = some item ∧
      ((d = "complex64" ∧ item = .complex (cv re).toF32.toF64 (cv im).toF32.toF64) ∨
        (d = "complex128" ∧ item = .complex (cv re) (cv im))) ∧
      mat2py order (.numeric cls dims [re] (some [im])) =
        .ok (some (.ndarray d dims [item])) := by
  obtain ⟨d, cv, h1, hd⟩ := complex_case_of cls hcls
  rcases hd with rfl | rfl
  · have hm := complex_mat2py_of order cls dims [re] [im] _ cv (fun x => x.toF32.toF64) h1
      (fun _ _ => rfl) (by omega) (by simp [hone]) (by simp [hone])
    simp only [List.zipWith_cons_cons, List.zipWith_nil_right, reshape_one dims hone] at hm
    exact ⟨_, cv, _, h1, rfl, Or.inl ⟨rfl, rfl⟩, hm⟩
  · have hm := complex_mat2py_of order cls dims [re] [im] _ cv (fun x => x) h1
      (fun _ _ => rfl) (by omega) (by simp [hone]) (by simp [hone])
    simp only [List.zipWith_cons_cons, List.zipWith_nil_right, reshape_one dims hone] at hm
    exact ⟨_, cv, _, h1, rfl, Or.inr ⟨rfl, rfl⟩, hm⟩

theorem dropTrailingOnes_self (rest : List Nat) (h : ∀ l, rest.getLast? = some l → l ≠ 1) :
    dropTrailingOnes rest = rest := by
  unfold dropTrailingOnes
  cases hr : rest.reverse with
  | nil =>
    have : rest = [] := List.reverse_eq_nil_iff.1 hr
    subst this
    rfl
  | cons a t =>
    have e : rest = t.reverse ++ [a] := by
      have := congrArg List.reverse hr
      simpa using this
    have ha : a ≠ 1 := h a (by rw [e]; simp)
    have : (a == 1) = false := by simpa using ha
    rw [List.dropWhile_cons]
    simp only [this, Bool.false_eq_true, if_false]
    rw [e]
    simp

/-- A dimension vector with at least two entries and no trailing 1 beyond the
second is kept by `mxCreateNumericArray`. -/
theorem mxCreateDims_self (m n : Nat) (rest : List Nat)
    (h : ∀ l, rest.getLast? = some l → l ≠ 1) :
    mxCreateDims (m :: n :: rest) = m :: n :: rest := by
  simp only [mxCreateDims, dropTrailingOnes_self rest h]

/-! ## The claims -/

/-- C1: a real numeric host array of a supported class (logical, single,
double, int8/16/32/64, uint8/16/32/64) whose dimensions are all positive
converts to the interpreter and back to itself: `py2mat(mat2py(x))` succeeds
and has the same class, the same dimension vector and the same element at
every linear index. -/
theorem real_numeric_roundtrip (order : DictOrder) (cls : mxClassID) (dims : List Nat)
    (pr : List Scalar) (hcls : cls ∈ supportedClasses) (hdims : MxDims dims)
    (hpos : ∀ d ∈ dims, 0 < d) (hlen : pr.length = prodDims dims)
    (hval : ∀ s ∈ pr, Scalar.OfClass cls s) :
    roundTrip order (.numeric cls dims pr Option.none) =
      .ok (some (.numeric cls dims pr Option.none)) := by
  obtain ⟨d, ctor, item, conv, h1, h2, h3⟩ := real_tables cls hcls
  exact real_roundtrip_of order cls dims pr d ctor item conv h1
    (fun s hs => h2 s (hval s hs)) (py2matCases_real d cls conv h3) hdims hpos hlen

/-- Witness of C1: a 2-by-3 int8 array with negative and extreme elements. -/
theorem real_numeric_roundtrip_witness :
    roundTrip py27DictOrder
        (.numeric .mxINT8_CLASS [2, 3]
          [.int 1, .int (-2), .int 3, .int (-128), .int 127, .int 0] Option.none) =
      .ok (some (.numeric .mxINT8_CLASS [2, 3]
          [.int 1, .int (-2), .int 3, .int (-128), .int 127, .int 0] Option.none)) :=
  real_numeric_roundtrip py27DictOrder .mxINT8_CLASS [2, 3]
    [.int 1, .int (-2), .int 3, .int (-128), .int 127, .int 0]
    (by decide) (by decide) (by decide) (by decide) (by decide)

/-- C2: column-major fidelity for an `r`-by-`c` real numeric array of a
supported class. (1) The array `mat2py` returns has shape `[r, c]` and holds at
index `(i, j)` (row-major offset `i * c + j`) the scalar numpy stores for the
host element at column-major offset `i + j * r`. (2) For every array of shape
`[r, c]` with a real dtype of the table, `py2mat` stores the element at index
`(i, j)` at host offset `i + j * r`. (3) The round trip returns the array
itself, so every element is at its (row, column) position again. -/
theorem column_major_fidelity (order : DictOrder) (cls : mxClassID) (r c : Nat)
    (pr : List Scalar) (hcls : cls ∈ supportedClasses) (hr : 1 ≤ r) (hc : 1 ≤ c)
    (hlen : pr.length = r * c) (hval : ∀ s ∈ pr, Scalar.OfClass cls s) :
    (∃ (d : String) (ctor : Scalar → PyObject) (items : List PyObject),
      mat2pyRealCase cls = some (d, ctor) ∧
      mat2py order (.numeric cls [r, c] pr Option.none) = .ok (some (.ndarray d [r, c] items)) ∧
      ∀ i j, i < r → j < c →
        ∃ s, pr[i + j * r]? = some s ∧ items[i * c + j]? = npCast d (ctor s)) ∧
    (∀ (dt : String) (items : List PyObject) (cls2 : mxClassID) (conv : PyObject → Scalar),
      items.length = r * c →
      (py2matCaseB dt = some (cls2, conv) ∨
        (py2matCaseB dt = Option.none ∧ py2matCaseC dt = Option.none ∧
          py2matCaseA dt = some (cls2, conv))) →
      ∃ pr2, py2mat (.ndarray dt [r, c] items) = .ok (some (.numeric cls2 [r, c] pr2 Option.none)) ∧
        ∀ i j, i < r → j < c → pr2[i + j * r]? = (items[i * c + j]?).map conv) ∧
    roundTrip order (.numeric cls [r, c] pr Option.none) =
      .ok (some (.numeric cls [r, c] pr Option.none)) := by
  have hN : prodDims [r, c] = r * c := by simp [prodDims_cons, prodDims_nil]
  have hpos : ∀ d ∈ [r, c], 0 < d := by
    intro d hd
    simp only [List.mem_cons, List.mem_singleton, List.not_mem_nil, or_false] at hd
    rcases hd with rfl | rfl <;> omega
  obtain ⟨d, ctor, item, conv, h1, h2, h3⟩ := real_tables cls hcls
  refine ⟨⟨d, ctor, _, h1, real_mat2py_of order cls [r, c] pr d ctor item h1
    (fun s hs => (h2 s (hval s hs)).1) (prodDims_pos _ hpos) (by rw [hN]; exact hlen), ?_⟩, ?_, ?_⟩
  · intro i j hi hj
    have hF := idx2F_lt r c i j hi hj
    have hC := idx2_lt r c i j hi hj
    have hs : i + j * r < pr.length := by omega
    refine ⟨pr[i + j * r], by simp [hs], ?_⟩
    rw [(h2 _ (hval _ (List.getElem_mem hs))).1, List.getElem?_map,
      List.getElem?_range (by rw [hN]; exact hC), Option.map_some',
      unravelC_2d r c i j hi hj]
    simp [ravelF, List.getD_eq_getElem?_getD, hs, Nat.mul_comm r j]
  · intro dt items cls2 conv2 hl hsel
    refine ⟨(flattenF [r, c] items).map conv2, ?_, ?_⟩
    · rw [py2mat_ndarray, py2matArray_eq _ _ _ (by simp), py2matCases_real dt cls2 conv2 hsel]
      rfl
    · intro i j hi hj
      have hF := idx2F_lt r c i j hi hj
      have hC := idx2_lt r c i j hi hj
      have hs : i * c + j < items.length := by omega
      rw [List.getElem?_map, flattenF, List.getElem?_map,
        List.getElem?_range (by rw [hN]; exact hF), Option.map_some',
        unravelF_2d r c i j hi hj]
      simp [ravelC, prodDims_cons, prodDims_nil, List.getD_eq_getElem?_getD, hs]
  · exact real_roundtrip_of order cls [r, c] pr d ctor item conv h1
      (fun s hs => h2 s (hval s hs)) (py2matCases_real d cls conv h3) rfl hpos
      (by rw [hN]; exact hlen)

/-- Witness of C2: the 2-by-3 uint8 array with rows (11, 12, 13) and
(21, 22, 23), stored column by column. -/
theorem column_major_fidelity_witness :
    (∃ (d : String) (ctor : Scalar → PyObject) (items : List PyObject),
      mat2pyRealCase .mxUINT8_CLASS = some (d, ctor) ∧
      mat2py py27DictOrder (.numeric .mxUINT8_CLASS [2, 3]
        [.int 11, .int 21, .int 12, .int 22, .int 13, .int 23] Option.none) =
          .ok (some (.ndarray d [2, 3] items)) ∧
      ∀ i j, i < 2 → j < 3 →
        ∃ s, [Scalar.int 11, .int 21, .int 12, .int 22, .int 13, .int 23][i + j * 2]? = some s ∧
          items[i * 3 + j]? = npCast d (ctor s)) ∧
    (∀ (dt : String) (items : List PyObject) (cls2 : mxClassID) (conv : PyObject → Scalar),
      items.length = 2 * 3 →
      (py2matCaseB dt = some (cls2, conv) ∨
        (py2matCaseB dt = Option.none ∧ py2matCaseC dt = Option.none ∧
          py2matCaseA dt = some (cls2, conv))) →
      ∃ pr2, py2mat (.ndarray dt [2, 3] items) = .ok (some (.numeric cls2 [2, 3] pr2 Option.none)) ∧
        ∀ i j, i < 2 → j < 3 → pr2[i + j * 2]? = (items[i * 3 + j]?).map conv) ∧
    roundTrip py27DictOrder (.numeric .mxUINT8_CLASS [2, 3]
        [.int 11, .int 21, .int 12, .int 22, .int 13, .int 23] Option.none) =
      .ok (some (.numeric .mxUINT8_CLASS [2, 3]
        [.int 11, .int 21, .int 12, .int 22, .int 13, .int 23] Option.none)) :=
  column_major_fidelity py27DictOrder .mxUINT8_CLASS 2 3
    [.int 11, .int 21, .int 12, .int 22, .int 13, .int 23]
    (by decide) (by decide) (by decide) (by decide) (by decide)

/-- C3: a complex numeric host array of class single or double whose
dimensions are all positive converts to the interpreter and back to itself:
`py2mat(mat2py(x))` succeeds and is the complex array of the same class and
dimensions with the same real and the same imaginary buffer. -/
theorem complex_numeric_roundtrip (order : DictOrder) (cls : mxClassID) (dims : List Nat)
    (pr im : List Scalar) (hcls : cls = .mxSINGLE_CLASS ∨ cls = .mxDOUBLE_CLASS)
    (hdims : MxDims dims) (hpos : ∀ d ∈ dims, 0 < d)
    (hlen : pr.length = prodDims dims) (hlen2 : im.length = prodDims dims)
    (hval : ∀ s ∈ pr, Scalar.OfClass cls s) (hval2 : ∀ s ∈ im, Scalar.OfClass cls s) :
    roundTrip order (.numeric cls dims pr (some im)) =
      .ok (some (.numeric cls dims pr (some im))) := by
  rcases hcls with rfl | rfl
  · refine complex_roundtrip_of order _ dims pr im "complex64" (fun s => s.toF32.toF64)
      (fun x => x.toF32.toF64) (fun x => .f32 x.toF32) rfl (fun a b => rfl) ⟨rfl, rfl⟩ ?_
      hdims hpos hlen hlen2 hval hval2
    intro s h
    cases s <;> simp [Scalar.OfClass] at h
    rename_i x
    simp [Scalar.toF32, F32.toF64_toF32 x h]
  · refine complex_roundtrip_of order _ dims pr im "complex128" (fun s => s.toF64)
      (fun x => x) (fun x => .f64 x) rfl (fun a b => rfl) ⟨rfl, rfl⟩ ?_
      hdims hpos hlen hlen2 hval hval2
    intro s h
    cases s <;> simp [Scalar.OfClass] at h
    simp [Scalar.toF64]

/-- Witness of C3: a 1-by-2 complex single array, `1.0 + 0.5i` and the
negated smallest subnormal with imaginary part zero. -/
theorem complex_numeric_roundtrip_witness :
    roundTrip py27DictOrder
        (.numeric .mxSINGLE_CLASS [1, 2] [.f32 (.fin false 127 0), .f32 (.fin true 0 1)]
          (some [.f32 (.fin false 126 0), .f32 (.fin false 0 0)])) =
      .ok (some (.numeric .mxSINGLE_CLASS [1, 2] [.f32 (.fin false 127 0), .f32 (.fin true 0 1)]
          (some [.f32 (.fin false 126 0), .f32 (.fin false 0 0)]))) :=
  complex_numeric_roundtrip py27DictOrder .mxSINGLE_CLASS [1, 2]
    [.f32 (.fin false 127 0), .f32 (.fin true 0 1)]
    [.f32 (.fin false 126 0), .f32 (.fin false 0 0)]
    (by decide) (by decide) (by decide) (by decide) (by decide) (by decide) (by decide)

/-- C4 (amended): a 1-by-n struct array with at least one field, distinct
field names, no absent slot and slot values that convert and convert back
round-trips to a 1-by-n struct array with the same fields, each with the slot
values it has in `s`, in the iteration order of the interpreter's dict (a
rearrangement of the field names); when that order is the order of the fields
of `s`, the result is `s` itself. -/
theorem struct_roundtrip (order : DictOrder) (N : Nat)
    (fields : List (String × List (Option MxArray))) (hne : fields ≠ [])
    (hnodup : (fields.map Prod.fst).Nodup)
    (hperm : (order (fields.map Prod.fst)).Perm (fields.map Prod.fst))
    (hlen : ∀ f ∈ fields, f.2.length = N)
    (hslots : ∀ f ∈ fields, ∀ s ∈ f.2, ∃ v, s = some v ∧ roundTrip order v = .ok (some v)) :
    ∃ fields', roundTrip order (.struct [1, N] fields) = .ok (some (.struct [1, N] fields')) ∧
      fields'.map Prod.fst = order (fields.map Prod.fst) ∧
      (∀ f, f ∈ fields' ↔ f ∈ fields) ∧
      (order (fields.map Prod.fst) = fields.map Prod.fst → fields' = fields) := by
  have hsub : ∀ k ∈ order (fields.map Prod.fst), k ∈ fields.map Prod.fst :=
    fun k hk => hperm.subset hk
  have hok : ∀ f ∈ fields, SlotsOK order f.2 := by
    intro f hf s hs
    obtain ⟨v, e, hv⟩ := hslots f hf s hs
    obtain ⟨p, h1, h2⟩ := roundTrip_some order v v hv
    exact ⟨v, p, e, h1, h2⟩
  refine ⟨reorderFields (order (fields.map Prod.fst)) fields,
    struct_fields_return order N fields hne hnodup hperm hlen hok,
    reorderFields_keys _ _ hsub, ?_, ?_⟩
  · intro f
    constructor
    · exact reorderFields_mem _ _ f
    · intro hf
      have hk : f.1 ∈ order (fields.map Prod.fst) :=
        hperm.symm.subset (List.mem_map.2 ⟨f, hf, rfl⟩)
      unfold reorderFields
      rw [List.mem_filterMap]
      exact ⟨f.1, hk, by rw [lookup_of_mem_nodup fields hnodup f hf]; rfl⟩
  · intro e
    rw [e]
    exact reorderFields_self fields hnodup

/-- Witness of C4 (amended): the 1-by-3 struct array with field `a` holding
the doubles 1, 2, 3 and field `b` holding the texts `x`, `y`, `z`, with the
dict order of CPython 2.7. -/
theorem struct_roundtrip_witness :
    ∃ fields', roundTrip py27DictOrder (.struct [1, 3]
        [("a", [some (.numeric .mxDOUBLE_CLASS [1, 1] [.f64 (.fin false 1023 0)] Option.none),
                some (.numeric .mxDOUBLE_CLASS [1, 1] [.f64 (.fin false 1024 0)] Option.none),
                some (.numeric .mxDOUBLE_CLASS [1, 1] [.f64 (.fin false 1024 2251799813685248)]
                  Option.none)]),
         ("b", [some (.char [1, 1] ['x']), some (.char [1, 1] ['y']),
                some (.char [1, 1] ['z'])])]) = .ok (some (.struct [1, 3] fields')) ∧
      fields'.map Prod.fst = py27DictOrder ["a", "b"] ∧
      (∀ f, f ∈ fields' ↔ f ∈
        [("a", [some (.numeric .mxDOUBLE_CLASS [1, 1] [.f64 (.fin false 1023 0)] Option.none),
                some (.numeric .mxDOUBLE_CLASS [1, 1] [.f64 (.fin false 1024 0)] Option.none),
                some (.numeric .mxDOUBLE_CLASS [1, 1] [.f64 (.fin false 1024 2251799813685248)]
                  Option.none)]),
         ("b", [some (MxArray.char [1, 1] ['x']), some (.char [1, 1] ['y']),
                some (.char [1, 1] ['z'])])]) ∧
      (py27DictOrder ["a", "b"] = ["a", "b"] → fields' =
        [("a", [some (.numeric .mxDOUBLE_CLASS [1, 1] [.f64 (.fin false 1023 0)] Option.none),
                some (.numeric .mxDOUBLE_CLASS [1, 1] [.f64 (.fin false 1024 0)] Option.none),
                some (.numeric .mxDOUBLE_CLASS [1, 1] [.f64 (.fin false 1024 2251799813685248)]
                  Option.none)]),
         ("b", [some (MxArray.char [1, 1] ['x']), some (.char [1, 1] ['y']),
                some (.char [1, 1] ['z'])])]) :=
  struct_roundtrip py27DictOrder 3
    [("a", [some (.numeric .mxDOUBLE_CLASS [1, 1] [.f64 (.fin false 1023 0)] Option.none),
            some (.numeric .mxDOUBLE_CLASS [1, 1] [.f64 (.fin false 1024 0)] Option.none),
            some (.numeric .mxDOUBLE_CLASS [1, 1] [.f64 (.fin false 1024 2251799813685248)]
              Option.none)]),
     ("b", [some (.char [1, 1] ['x']), some (.char [1, 1] ['y']), some (.char [1, 1] ['z'])])]
    (by simp) (by decide) (by decide)
    (by
      intro f hf
      simp only [List.mem_cons, List.mem_singleton, List.not_mem_nil, or_false] at hf
      rcases hf with rfl | rfl <;> rfl)
    (by
      intro f hf
      simp only [List.mem_cons, List.mem_singleton, List.not_mem_nil, or_false] at hf
      rcases hf with rfl | rfl
      · intro s hs
        simp only [List.mem_cons, List.mem_singleton, List.not_mem_nil, or_false] at hs
        rcases hs with rfl | rfl | rfl <;> exact ⟨_, rfl, rfl⟩
      · intro s hs
        simp only [List.mem_cons, List.mem_singleton, List.not_mem_nil, or_false] at hs
        rcases hs with rfl | rfl | rfl <;> exact ⟨_, rfl, rfl⟩)

/-- C4 as stated fails: with the dict of CPython 2.7, the 1-by-1 struct array
with the fields `b`, `a` (in this order) comes back with the fields `a`, `b`;
field 0 of the result holds the value of field 1 of the input. -/
theorem struct_field_order_counterexample :
    roundTrip py27DictOrder (.struct [1, 1]
        [("b", [some (.char [1, 2] ['h', 'i'])]),
         ("a", [some (.numeric .mxINT8_CLASS [1, 1] [.int 5] Option.none)])]) =
      .ok (some (.struct [1, 1]
        [("a", [some (.numeric .mxINT8_CLASS [1, 1] [.int 5] Option.none)]),
         ("b", [some (.char [1, 2] ['h', 'i'])])])) ∧
    roundTrip py27DictOrder (.struct [1, 1]
        [("b", [some (.char [1, 2] ['h', 'i'])]),
         ("a", [some (.numeric .mxINT8_CLASS [1, 1] [.int 5] Option.none)])]) ≠
      .ok (some (.struct [1, 1]
        [("b", [some (.char [1, 2] ['h', 'i'])]),
         ("a", [some (.numeric .mxINT8_CLASS [1, 1] [.int 5] Option.none)])])) := by
  have h : roundTrip py27DictOrder (.struct [1, 1]
        [("b", [some (.char [1, 2] ['h', 'i'])]),
         ("a", [some (.numeric .mxINT8_CLASS [1, 1] [.int 5] Option.none)])]) =
      .ok (some (.struct [1, 1]
        [("a", [some (.numeric .mxINT8_CLASS [1, 1] [.int 5] Option.none)]),
         ("b", [some (.char [1, 2] ['h', 'i'])])])) := rfl
  refine ⟨h, ?_⟩
  rw [h]
  simp

/-- C5 (amended): a 1-by-n cell array whose elements are non-empty rows of
ASCII text without NUL, real numeric arrays of a supported class with positive
dimensions, or (recursively) such 1-by-m cell arrays (`PlainAll`) converts to
the interpreter and back to itself: the result is the 1-by-n cell array with
the same element at every position. -/
theorem cell_roundtrip (order : DictOrder) (cells : List MxArray) (h : PlainAll cells) :
    roundTrip order (.cell [1, cells.length] cells) =
      .ok (some (.cell [1, cells.length] cells)) := by
  obtain ⟨ps, h1, h2, h3⟩ := plainAll_roundtrip order cells h
  have hm : mat2py order (.cell [1, cells.length] cells) = .ok (some (.list ps)) := by
    rw [mat2py]; simp only [h1]
  simp only [roundTrip, hm, py2mat_list, h2, h3]

/-- Witness of C5 (amended): the cell array `("a", 1, (2.5, "bc"))` with an
int32 `1`, a double `2.5` and a nested cell array. -/
theorem cell_roundtrip_witness :
    roundTrip py27DictOrder (.cell [1, 3]
      [.char [1, 1] ['a'],
       .numeric .mxINT32_CLASS [1, 1] [.int 1] Option.none,
       .cell [1, 2] [.numeric .mxDOUBLE_CLASS [1, 1] [.f64 (.fin false 1024 1125899906842624)]
          Option.none, .char [1, 2] ['b', 'c']]]) =
    .ok (some (.cell [1, 3]
      [.char [1, 1] ['a'],
       .numeric .mxINT32_CLASS [1, 1] [.int 1] Option.none,
       .cell [1, 2] [.numeric .mxDOUBLE_CLASS [1, 1] [.f64 (.fin false 1024 1125899906842624)]
          Option.none, .char [1, 2] ['b', 'c']]])) :=
  cell_roundtrip py27DictOrder
    [.char [1, 1] ['a'],
     .numeric .mxINT32_CLASS [1, 1] [.int 1] Option.none,
     .cell [1, 2] [.numeric .mxDOUBLE_CLASS [1, 1] [.f64 (.fin false 1024 1125899906842624)]
        Option.none, .char [1, 2] ['b', 'c']]]
    ⟨⟨rfl, by decide⟩,
     ⟨rfl, by decide, by decide, by decide, by decide, by decide⟩,
     ⟨rfl, ⟨rfl, by decide, by decide, by decide, by decide, by decide⟩, ⟨rfl, by decide⟩, trivial⟩,
     trivial⟩

/-- C5 as stated fails: in the cell array holding the text row `a`, NUL, `b`
and the int8 `7`, the text comes back as the 1-by-1 row `a`. -/
theorem cell_roundtrip_nul_counterexample :
    roundTrip py27DictOrder (.cell [1, 2]
      [.char [1, 3] ['a', NUL, 'b'], .numeric .mxINT8_CLASS [1, 1] [.int 7] Option.none]) =
    .ok (some (.cell [1, 2]
      [.char [1, 1] ['a'], .numeric .mxINT8_CLASS [1, 1] [.int 7] Option.none])) ∧
    roundTrip py27DictOrder (.cell [1, 2]
      [.char [1, 3] ['a', NUL, 'b'], .numeric .mxINT8_CLASS [1, 1] [.int 7] Option.none]) ≠
    .ok (some (.cell [1, 2]
      [.char [1, 3] ['a', NUL, 'b'], .numeric .mxINT8_CLASS [1, 1] [.int 7] Option.none])) := by
  have h : roundTrip py27DictOrder (.cell [1, 2]
      [.char [1, 3] ['a', NUL, 'b'], .numeric .mxINT8_CLASS [1, 1] [.int 7] Option.none]) =
    .ok (some (.cell [1, 2]
      [.char [1, 1] ['a'], .numeric .mxINT8_CLASS [1, 1] [.int 7] Option.none])) := rfl
  refine ⟨h, ?_⟩
  rw [h]
  simp

/-- C6 (amended): a single non-empty row of ASCII text that contains no NUL
character converts to the `str` with the same characters, and converts back
to the identical character array. -/
theorem text_roundtrip (order : DictOrder) (c : Char) (cs : List Char)
    (hnul : NUL ∉ c :: cs) (hascii : ascii (c :: cs) = true) :
    mat2py order (.char [1, (c :: cs).length] (c :: cs)) = .ok (some (.str (c :: cs))) ∧
    roundTrip order (.char [1, (c :: cs).length] (c :: cs)) =
      .ok (some (.char [1, (c :: cs).length] (c :: cs))) := by
  obtain ⟨h1, h2⟩ := ascii_text_roundtrip order (c :: cs) hnul hascii
  exact ⟨h1, by simp only [roundTrip, h1, h2]⟩

/-- Witness of C6 (amended): the text `hello`. -/
theorem text_roundtrip_witness :
    mat2py py27DictOrder (.char [1, ['h', 'e', 'l', 'l', 'o'].length]
        ['h', 'e', 'l', 'l', 'o']) =
      .ok (some (.str ['h', 'e', 'l', 'l', 'o'])) ∧
    roundTrip py27DictOrder (.char [1, ['h', 'e', 'l', 'l', 'o'].length]
        ['h', 'e', 'l', 'l', 'o']) =
      .ok (some (.char [1, ['h', 'e', 'l', 'l', 'o'].length] ['h', 'e', 'l', 'l', 'o'])) :=
  text_roundtrip py27DictOrder 'h' ['e', 'l', 'l', 'o'] (by decide) (by decide)

/-- C6 as stated fails: the row of the three characters `a`, NUL, `b` converts
to the `str` holding only `a` (the C string ends at the NUL), and comes back
as the 1-by-1 array `a`. -/
theorem text_roundtrip_nul_counterexample :
    mat2py py27DictOrder (.char [1, 3] ['a', NUL, 'b']) ≠ .ok (some (.str ['a', NUL, 'b'])) ∧
    roundTrip py27DictOrder (.char [1, 3] ['a', NUL, 'b']) ≠
      .ok (some (.char [1, 3] ['a', NUL, 'b'])) ∧
    roundTrip py27DictOrder (.char [1, 3] ['a', NUL, 'b']) = .ok (some (.char [1, 1] ['a'])) := by
  refine ⟨?_, ?_, rfl⟩
  · rw [show mat2py py27DictOrder (.char [1, 3] ['a', NUL, 'b']) = .ok (some (.str ['a'])) from rfl]
    simp
  · rw [show roundTrip py27DictOrder (.char [1, 3] ['a', NUL, 'b']) =
      .ok (some (.char [1, 1] ['a'])) from rfl]
    simp

/-- C7: a `bool` converts to the 1-by-1 logical array holding it. A `bool`
passes both `PyBool_Check` and `PyInt_Check`; the test of `PyBool_Check` comes
first, so the result is never an int32 array. -/
theorem bool_precedence (b : Bool) :
    py2mat (.bool b) = .ok (some (.numeric .mxLOGICAL_CLASS [1, 1] [.bool b] Option.none)) ∧
    PyBool_Check (.bool b) = true ∧ PyInt_Check (.bool b) = true ∧
    ∀ dims pr pi, py2mat (.bool b) ≠ .ok (some (.numeric .mxINT32_CLASS dims pr pi)) := by
  have h : py2mat (.bool b) =
      .ok (some (.numeric .mxLOGICAL_CLASS [1, 1] [.bool b] Option.none)) := by
    cases b <;> rfl
  refine ⟨h, rfl, rfl, ?_⟩
  intro dims pr pi
  rw [h]
  simp

/-- C8: a dict with at least one entry in which some value is not a list, or
in which two values are lists of different lengths, makes `py2mat` fail with
`IncorrectStructForm`, wherever in the iteration order the offending entry
stands. The elements of the lists are arbitrary: the failure comes from the
validation loop, which converts no element. -/
theorem mapping_form_error (kvs : List (String × PyObject)) (hne : kvs ≠ [])
    (h : (∃ kv ∈ kvs, PyList_Check kv.2 = false) ∨
      (∃ kv1 ∈ kvs, ∃ kv2 ∈ kvs, PyList_Check kv1.2 = true ∧ PyList_Check kv2.2 = true ∧
        PyList_Size kv1.2 ≠ PyList_Size kv2.2)) :
    py2mat (.dict kvs) = .error .IncorrectStructForm := by
  cases kvs with
  | nil => exact absurd rfl hne
  | cons kv rest =>
    rw [py2mat_dict]
    simp only [List.map_cons, py2matStructForm_eq]
    have key : ¬ (PyList_Check kv.2 = true ∧
        ∀ y ∈ rest.map Prod.snd, PyList_Size y = PyList_Size kv.2) := by
      rintro ⟨h0, hall⟩
      have hn : 0 ≤ PyList_Size kv.2 := (PyList_Size_nonneg_iff _).2 h0
      have hsz : ∀ e ∈ kv :: rest, PyList_Size e.2 = PyList_Size kv.2 := by
        intro e he
        rcases List.mem_cons.1 he with rfl | he
        · rfl
        · exact hall e.2 (List.mem_map.2 ⟨e, he, rfl⟩)
      rcases h with ⟨e, he, hl⟩ | ⟨e1, he1, e2, he2, _, _, hd⟩
      · have := (PyList_Size_nonneg_iff e.2).1 (by rw [hsz e he]; exact hn)
        rw [hl] at this
        exact absurd this (by simp)
      · exact hd (by rw [hsz e1 he1, hsz e2 he2])
    rw [if_neg key]

/-- Witness of C8: the second value is shorter than the first, and its
element is of a category `py2mat` cannot convert. -/
theorem mapping_form_error_witness :
    py2mat (.dict [("a", .list [.int 1, .int 2]), ("b", .list [.none])]) =
      .error .IncorrectStructForm :=
  mapping_form_error [("a", .list [.int 1, .int 2]), ("b", .list [.none])] (by simp)
    (Or.inr ⟨("a", .list [.int 1, .int 2]), by simp, ("b", .list [.none]), by simp, rfl, rfl,
      by decide⟩)

/-- C10: for an array object, `py2mat` fails with `UnsupportedVariableType`
exactly when the dtype string is not one of the thirteen strings of the table,
and with such a string it returns no array at all. With a string of the table
it returns a numeric array when the array object has a dimension; without
dimensions the `CASE` stores one element outside its 0-by-0 array. -/
theorem dtype_table_exact (dt : String) (shape : List Nat) (data : List PyObject) :
    (py2mat (.ndarray dt shape data) = .error .UnsupportedVariableType ↔ dt ∉ dtypeTable) ∧
    (dt ∈ dtypeTable →
      (shape ≠ [] → ∃ cls dims pr pi,
        py2mat (.ndarray dt shape data) = .ok (some (.numeric cls dims pr pi))) ∧
      (shape = [] → py2mat (.ndarray dt shape data) = .error .undefinedBehaviour)) ∧
    (dt ∉ dtypeTable → ∀ a, py2mat (.ndarray dt shape data) ≠ .ok a) := by
  rw [py2mat_ndarray]
  refine ⟨⟨?_, ?_⟩, ?_, ?_⟩
  · intro h hin
    obtain ⟨cls, pr, pi, e⟩ := py2matCases_table dt shape (flattenF shape data) hin
    rw [py2matArray_all, e] at h
    simp only at h
    split_ifs at h
    exact absurd h (by simp)
  · intro h
    rw [py2matArray_all, py2matCases_other dt shape _ h]
  · intro hin
    obtain ⟨cls, pr, pi, e⟩ := py2matCases_table dt shape (flattenF shape data) hin
    constructor
    · intro hne
      exact ⟨cls, _, pr, pi, by rw [py2matArray_eq dt shape data hne, e]⟩
    · intro hnil
      subst hnil
      rw [py2matArray_nil, e]
  · intro h a
    rw [py2matArray_all, py2matCases_other dt shape _ h]
    simp

/-- C12 (the code at the failing inputs): for a `unicode` object with a
character outside ASCII, `PyUnicode_AsASCIIString` returns `NULL`, which
lines 279-280 pass to `PyObject_Str` and `Py_DECREF`: the conversion ends in a
`NULL` dereference and reports no `ConversionError`. -/
theorem unicode_non_ascii (s : List Char) (h : ∃ c ∈ s, 128 ≤ c.toNat) :
    py2mat (.unicode s) = .error .undefinedBehaviour ∧
    py2mat (.unicode s) ≠ .error .ConversionError := by
  have hn : PyUnicode_AsASCIIString (.unicode s) = Option.none := by
    unfold PyUnicode_AsASCIIString
    have : s.all (fun c => decide (c.toNat < 128)) = false := by
      rw [List.all_eq_false]
      obtain ⟨c, hc, h128⟩ := h
      exact ⟨c, hc, by simp; omega⟩
    simp [this]
  have h1 : py2mat (.unicode s) = .error .undefinedBehaviour := by
    rw [py2mat_unicode, hn]
  exact ⟨h1, by rw [h1]; simp⟩

/-- Witness of C12: the one-character text `é` (code point 233). -/
theorem unicode_non_ascii_witness :
    py2mat (.unicode [Char.ofNat 233]) = .error .undefinedBehaviour ∧
    py2mat (.unicode [Char.ofNat 233]) ≠ .error .ConversionError :=
  unicode_non_ascii [Char.ofNat 233] ⟨Char.ofNat 233, by simp, by decide⟩

/-- C13: the claim fails on the 1-by-2 cell array that holds a struct array
without fields and then a function handle. The value contains a value with
an unsupported tag and no absent slot, but `mat2py` reaches `Py_DECREF(list)`
of line 129 with `list` never assigned before it meets the function handle,
so it does not fail with `UnsupportedVariableType`. -/
theorem unsupported_after_fieldless_struct (order : DictOrder) :
    (∃ x ∈ subvalues (.cell [1, 2]
        [.struct [1, 1] [], .numeric .mxFUNCTION_CLASS [1, 1] [] Option.none]),
      unsupportedTag x) ∧
    (∀ x ∈ subvalues (.cell [1, 2]
        [.struct [1, 1] [], .numeric .mxFUNCTION_CLASS [1, 1] [] Option.none]),
      ¬ absentSlot x) ∧
    mat2py order (.cell [1, 2]
        [.struct [1, 1] [], .numeric .mxFUNCTION_CLASS [1, 1] [] Option.none]) =
      .error .undefinedBehaviour ∧
    mat2py order (.cell [1, 2]
        [.struct [1, 1] [], .numeric .mxFUNCTION_CLASS [1, 1] [] Option.none]) ≠
      .error .UnsupportedVariableType := by
  have h : mat2py order (.cell [1, 2]
        [.struct [1, 1] [], .numeric .mxFUNCTION_CLASS [1, 1] [] Option.none]) =
      .error .undefinedBehaviour := rfl
  refine ⟨⟨.numeric .mxFUNCTION_CLASS [1, 1] [] Option.none, ?_, ?_⟩, ?_, h, ?_⟩
  · simp [subvalues, subvaluesCells]
  · simp [unsupportedTag, supportedClasses]
  · intro x hx
    simp only [subvalues, subvaluesCells, subvaluesFields, List.cons_append, List.nil_append,
      List.mem_cons, List.mem_singleton, List.not_mem_nil, or_false] at hx
    rcases hx with rfl | rfl | rfl <;> simp [absentSlot]
  · rw [h]
    simp

/-- C14: the real class-to-dtype table of `mat2py` and the real dtype-to-class
table of `py2mat` are inverse to each other. For every supported class,
`mat2py` has a dtype string and `py2mat` maps that string back to the class;
for every dtype string to which `py2mat` gives a real class, `mat2py` emits
that very string for the class; and the class `py2mat` gives a string is the
class of the array it builds for an array object of that dtype that has at
least one dimension. -/
theorem real_tables_inverse :
    (∀ cls ∈ supportedClasses, ∃ d ctor,
      mat2pyRealCase cls = some (d, ctor) ∧ py2matRealClass d = some cls) ∧
    (∀ s cls, py2matRealClass s = some cls →
      cls ∈ supportedClasses ∧ ∃ ctor, mat2pyRealCase cls = some (s, ctor)) ∧
    (∀ s cls, py2matRealClass s = some cls → ∀ shape data, shape ≠ [] → ∃ pr,
      py2mat (.ndarray s shape data) =
        .ok (some (.numeric cls (mxCreateDims shape) pr Option.none))) := by
  refine ⟨?_, ?_, ?_⟩
  · intro cls hcls
    simp only [supportedClasses, List.mem_cons, List.mem_singleton, List.not_mem_nil,
      or_false] at hcls
    rcases hcls with rfl | rfl | rfl | rfl | rfl | rfl | rfl | rfl | rfl | rfl | rfl <;>
      exact ⟨_, _, rfl, rfl⟩
  · intro s cls h
    by_cases hs : s ∈ realDtypes
    · simp only [realDtypes, List.mem_cons, List.mem_singleton, List.not_mem_nil,
        or_false] at hs
      rcases hs with rfl | rfl | rfl | rfl | rfl | rfl | rfl | rfl | rfl | rfl | rfl <;>
        (have e : some _ = some cls := h
         injection e with e
         subst e
         exact ⟨by decide, _, rfl⟩)
    · rw [py2matRealClass_other s hs] at h
      exact absurd h (by simp)
  · intro s cls h shape data hne
    rw [py2mat_ndarray, py2matArray_eq s shape data hne]
    by_cases hs : s ∈ realDtypes
    · simp only [realDtypes, List.mem_cons, List.mem_singleton, List.not_mem_nil,
        or_false] at hs
      rcases hs with rfl | rfl | rfl | rfl | rfl | rfl | rfl | rfl | rfl | rfl | rfl <;>
        (have e : some _ = some cls := h
         injection e with e
         subst e
         exact ⟨_, rfl⟩)
    · rw [py2matRealClass_other s hs] at h
      exact absurd h (by simp)

/-- Witness of C14: the class int16 and the dtype string `uint8`. -/
theorem real_tables_inverse_witness :
    (∃ d ctor, mat2pyRealCase .mxINT16_CLASS = some (d, ctor) ∧
      py2matRealClass d = some .mxINT16_CLASS) ∧
    (mxClassID.mxUINT8_CLASS ∈ supportedClasses ∧
      ∃ ctor, mat2pyRealCase .mxUINT8_CLASS = some ("uint8", ctor)) ∧
    (∃ pr, py2mat (.ndarray "uint8" [1, 2] [.int 7, .int 200]) =
      .ok (some (.numeric .mxUINT8_CLASS (mxCreateDims [1, 2]) pr Option.none))) :=
  ⟨real_tables_inverse.1 .mxINT16_CLASS (by decide),
    real_tables_inverse.2.1 "uint8" .mxUINT8_CLASS rfl,
    real_tables_inverse.2.2 "uint8" .mxUINT8_CLASS rfl [1, 2] [.int 7, .int 200] (by simp)⟩

/-- C15 (amended): a numeric host array with exactly one element, real of a
supported class or complex of a class of the complex table, converts to an
array object of the shape of the host array, of the dtype of the table, that
holds that one element: the scalar the constructor of the table makes of the
element, as numpy stores it at that dtype. For a real element of its class
`py2mat` reads the element back from the array object. `mat2py` has no scalar
case. -/
theorem one_element_is_array (order : DictOrder) (cls : mxClassID) (dims : List Nat)
    (hone : prodDims dims = 1) :
    (cls ∈ supportedClasses → ∀ x : Scalar, ∃ d ctor item,
      mat2pyRealCase cls = some (d, ctor) ∧ npCast d (ctor x) = some item ∧
      mat2py order (.numeric cls dims [x] Option.none) = .ok (some (.ndarray d dims [item])) ∧
      (Scalar.OfClass cls x → dims ≠ [] →
        py2mat (.ndarray d dims [item]) =
          .ok (some (.numeric cls (mxCreateDims dims) [x] Option.none)))) ∧
    (cls ∈ complexClasses → ∀ re im : Scalar, ∃ d cv item,
      mat2pyComplexCase cls = some (d, cv) ∧
      npCast d (PyComplex_FromDoubles (cv re) (cv im)) = some item ∧
      ((d = "complex64" ∧ item = .complex (cv re).toF32.toF64 (cv im).toF32.toF64) ∨
        (d = "complex128" ∧ item = .complex (cv re) (cv im))) ∧
      mat2py order (.numeric cls dims [re] (some [im])) =
        .ok (some (.ndarray d dims [item]))) :=
  ⟨fun hcls x => real_one_element order cls dims hone hcls x,
    fun hcls re im => complex_one_element order cls dims hone hcls re im⟩

/-- Witness of C15 (amended): the 1-by-1 int32 array holding 7 and the 1-by-1
complex double array holding `1 + 2i`. -/
theorem one_element_is_array_witness :
    (∃ d ctor item,
      mat2pyRealCase .mxINT32_CLASS = some (d, ctor) ∧ npCast d (ctor (.int 7)) = some item ∧
      mat2py py27DictOrder (.numeric .mxINT32_CLASS [1, 1] [.int 7] Option.none) =
        .ok (some (.ndarray d [1, 1] [item])) ∧
      (Scalar.OfClass .mxINT32_CLASS (.int 7) → [1, 1] ≠ [] →
        py2mat (.ndarray d [1, 1] [item]) =
          .ok (some (.numeric .mxINT32_CLASS (mxCreateDims [1, 1]) [.int 7] Option.none)))) ∧
    (∃ d cv item,
      mat2pyComplexCase .mxDOUBLE_CLASS = some (d, cv) ∧
      npCast d (PyComplex_FromDoubles (cv (.f64 (.fin false 1023 0)))
        (cv (.f64 (.fin false 1024 0)))) = some item ∧
      ((d = "complex64" ∧ item = .complex (cv (.f64 (.fin false 1023 0))).toF32.toF64
          (cv (.f64 (.fin false 1024 0))).toF32.toF64) ∨
        (d = "complex128" ∧ item = .complex (cv (.f64 (.fin false 1023 0)))
          (cv (.f64 (.fin false 1024 0))))) ∧
      mat2py py27DictOrder (.numeric .mxDOUBLE_CLASS [1, 1] [.f64 (.fin false 1023 0)]
          (some [.f64 (.fin false 1024 0)])) =
        .ok (some (.ndarray d [1, 1] [item]))) :=
  ⟨(one_element_is_array py27DictOrder .mxINT32_CLASS [1, 1] (by decide)).1 (by decide)
      (.int 7),
    (one_element_is_array py27DictOrder .mxDOUBLE_CLASS [1, 1] (by decide)).2 (by decide)
      (.f64 (.fin false 1023 0)) (.f64 (.fin false 1024 0))⟩

/-- C15 as stated fails: the 1-by-1 double array holding 2.5 converts to the
array object of dtype `float64` and shape `[1, 1]`, not to the `float` 2.5. -/
theorem one_element_counterexample :
    mat2py py27DictOrder
        (.numeric .mxDOUBLE_CLASS [1, 1] [.f64 (.fin false 1024 1125899906842624)] Option.none) =
      .ok (some (.ndarray "float64" [1, 1] [.float (.fin false 1024 1125899906842624)])) ∧
    mat2py py27DictOrder
        (.numeric .mxDOUBLE_CLASS [1, 1] [.f64 (.fin false 1024 1125899906842624)] Option.none) ≠
      .ok (some (.float (.fin false 1024 1125899906842624))) := by
  have h : mat2py py27DictOrder
        (.numeric .mxDOUBLE_CLASS [1, 1] [.f64 (.fin false 1024 1125899906842624)] Option.none) =
      .ok (some (.ndarray "float64" [1, 1] [.float (.fin false 1024 1125899906842624)])) := rfl
  exact ⟨h, by rw [h]; simp⟩

/-- C16 (amended): the arrays the conversions build have one element for each
index of their shape. For an array object of a dtype of the table and a shape
`s` with at least one dimension, `py2mat` builds a numeric array with
`prodDims s` elements (in each buffer) whose dimension vector is
`mxCreateDims s`, of the same product; that vector is `s` itself when `s` has
at least two entries and no trailing 1 beyond the second, and `[n, 1]` for
`s = [n]`. For a numeric array with positive dimensions `d`, real of a
supported class or complex of a class of the complex table, `mat2py` builds
an array object of shape `d` with `prodDims d` elements. -/
theorem shape_invariant :
    (∀ (dt : String) (shape : List Nat) (data : List PyObject), dt ∈ dtypeTable →
      shape ≠ [] →
      ∃ cls pr pi,
        py2mat (.ndarray dt shape data) =
          .ok (some (.numeric cls (mxCreateDims shape) pr pi)) ∧
        pr.length = prodDims shape ∧ (∀ im, pi = some im → im.length = prodDims shape) ∧
        prodDims (mxCreateDims shape) = prodDims shape) ∧
    (∀ (m n : Nat) (rest : List Nat), (∀ l, rest.getLast? = some l → l ≠ 1) →
      mxCreateDims (m :: n :: rest) = m :: n :: rest) ∧
    (∀ n : Nat, mxCreateDims [n] = [n, 1]) ∧
    (∀ (order : DictOrder) (cls : mxClassID) (dims : List Nat) (pr : List Scalar),
      cls ∈ supportedClasses → (∀ d ∈ dims, 0 < d) → pr.length = prodDims dims →
      ∃ d items,
        mat2py order (.numeric cls dims pr Option.none) = .ok (some (.ndarray d dims items)) ∧
        items.length = prodDims dims) ∧
    (∀ (order : DictOrder) (cls : mxClassID) (dims : List Nat) (pr im : List Scalar),
      cls ∈ complexClasses → (∀ d ∈ dims, 0 < d) → pr.length = prodDims dims →
      im.length = prodDims dims →
      ∃ d items,
        mat2py order (.numeric cls dims pr (some im)) = .ok (some (.ndarray d dims items)) ∧
        items.length = prodDims dims) := by
  refine ⟨?_, mxCreateDims_self, fun _ => rfl, ?_, ?_⟩
  · intro dt shape data hdt hne
    obtain ⟨cls0, pr0, pi0, e⟩ := py2matCases_table dt shape (flattenF shape data) hdt
    obtain ⟨cls, pr, pi, ha, h1, h2⟩ := py2matCases_shape dt shape _ _ e
    refine ⟨cls, pr, pi, ?_, by rw [h1, flattenF_length], ?_, prodDims_mxCreateDims shape hne⟩
    · rw [py2mat_ndarray, py2matArray_eq dt shape data hne, e, ha]
    · intro im him
      rw [h2 im him, flattenF_length]
  · intro order cls dims pr hcls hpos hlen
    obtain ⟨d, ctor, items, _, hm, hl⟩ := real_mat2py_exists order cls dims pr hcls
      (prodDims_pos dims hpos) hlen
    exact ⟨d, items, hm, hl⟩
  · intro order cls dims pr im hcls hpos hlen hlen2
    obtain ⟨d, cv, h1, hd⟩ := complex_case_of cls hcls
    obtain ⟨items, hm, hl⟩ := complex_mat2py_exists order cls dims pr im d cv h1 hd
      (prodDims_pos dims hpos) hlen hlen2
    exact ⟨d, items, hm, hl⟩

/-- Witness of C16 (amended): the int16 array object of shape `[2, 1]`, the
dimension vector `[2, 3, 4]`, the 1-by-1 uint8 host array and the 1-by-2
complex single host array. -/
theorem shape_invariant_witness :
    (∃ cls pr pi,
      py2mat (.ndarray "int16" [2, 1] [.int 5, .int 6]) =
        .ok (some (.numeric cls (mxCreateDims [2, 1]) pr pi)) ∧
      pr.length = prodDims [2, 1] ∧ (∀ im, pi = some im → im.length = prodDims [2, 1]) ∧
      prodDims (mxCreateDims [2, 1]) = prodDims [2, 1]) ∧
    mxCreateDims (2 :: 3 :: [4]) = 2 :: 3 :: [4] ∧
    (∃ d items,
      mat2py py27DictOrder (.numeric .mxUINT8_CLASS [1, 1] [.int 9] Option.none) =
        .ok (some (.ndarray d [1, 1] items)) ∧
      items.length = prodDims [1, 1]) ∧
    (∃ d items,
      mat2py py27DictOrder (.numeric .mxSINGLE_CLASS [1, 2]
          [.f32 (.fin false 127 0), .f32 (.fin false 128 0)]
          (some [.f32 (.fin false 0 0), .f32 (.fin true 127 0)])) =
        .ok (some (.ndarray d [1, 2] items)) ∧
      items.length = prodDims [1, 2]) :=
  ⟨shape_invariant.1 "int16" [2, 1] [.int 5, .int 6] (by decide) (by simp),
    shape_invariant.2.1 2 3 [4] (by simp),
    shape_invariant.2.2.2.1 py27DictOrder .mxUINT8_CLASS [1, 1] [.int 9] (by decide)
      (by decide) (by decide),
    shape_invariant.2.2.2.2 py27DictOrder .mxSINGLE_CLASS [1, 2]
      [.f32 (.fin false 127 0), .f32 (.fin false 128 0)]
      [.f32 (.fin false 0 0), .f32 (.fin true 127 0)] (by decide) (by decide) (by decide)
      (by decide)⟩

/-- C16 as stated fails: the one-dimensional array object of shape `[3]` and
dtype `float64` converts to a numeric array with the dimension vector
`[3, 1]`, not `[3]`; the array object of shape `[2, 1, 1]` converts to one
with the dimension vector `[2, 1]`; and for the array object without
dimensions the `CASE` stores its one element outside the 0-by-0 array it
creates, so no numeric array is built. -/
theorem shape_one_dim_counterexample :
    py2mat (.ndarray "float64" [3]
        [.float (.fin false 1023 0), .float (.fin false 1024 0), .float (.fin false 1025 0)]) =
      .ok (some (.numeric .mxDOUBLE_CLASS [3, 1]
        [.f64 (.fin false 1023 0), .f64 (.fin false 1024 0), .f64 (.fin false 1025 0)]
        Option.none)) ∧
    (∀ cls pr pi, py2mat (.ndarray "float64" [3]
        [.float (.fin false 1023 0), .float (.fin false 1024 0), .float (.fin false 1025 0)]) ≠
      .ok (some (.numeric cls [3] pr pi))) ∧
    py2mat (.ndarray "int32" [2, 1, 1] [.int 4, .int 5]) =
      .ok (some (.numeric .mxINT32_CLASS [2, 1] [.int 4, .int 5] Option.none)) ∧
    py2mat (.ndarray "float64" [] [.float (.fin false 1023 0)]) =
      .error .undefinedBehaviour := by
  have h : py2mat (.ndarray "float64" [3]
        [.float (.fin false 1023 0), .float (.fin false 1024 0), .float (.fin false 1025 0)]) =
      .ok (some (.numeric .mxDOUBLE_CLASS [3, 1]
        [.f64 (.fin false 1023 0), .f64 (.fin false 1024 0), .f64 (.fin false 1025 0)]
        Option.none)) := rfl
  refine ⟨h, ?_, rfl, rfl⟩
  intro cls pr pi
  rw [h]
  simp

/-- C17: the claim fails on the 1-by-1 struct array whose field `a` holds the
double 1 and whose field `b` has an absent slot. `mat2py` fails with
`NullFieldValue`; the dict (address 0), the key object of `a` (address 3) and
the partial list of `b` (address 4) are released, but the list of the
earlier field `a` (address 1) is left with one reference, and with it the
array it holds (address 2): only the dict gave up its reference to that
list, the reference of `PyList_New` is released at line 129 alone, after the
loop. -/
theorem null_field_leaves_list (order : DictOrder) :
    mat2py order (.struct [1, 1]
        [("a", [some (.numeric .mxDOUBLE_CLASS [1, 1] [.f64 (.fin false 1023 0)] Option.none)]),
         ("b", [Option.none])]) = .error .NullFieldValue ∧
    Rc.mat2py [] (.struct [1, 1]
        [("a", [some (.numeric .mxDOUBLE_CLASS [1, 1] [.f64 (.fin false 1023 0)] Option.none)]),
         ("b", [Option.none])]) =
      .raised .NullFieldValue
        [⟨0, .leaf⟩, ⟨1, .list [2]⟩, ⟨1, .leaf⟩, ⟨0, .leaf⟩, ⟨0, .leaf⟩] ∧
    Rc.refcounts [⟨0, .leaf⟩, ⟨1, .list [2]⟩, ⟨1, .leaf⟩, ⟨0, .leaf⟩, ⟨0, .leaf⟩] =
      [0, 1, 1, 0, 0] := by
  refine ⟨rfl, ?_, rfl⟩
  decide

/-- C18: an `int` converts to the 1-by-1 int32 array whose element is the
value reduced to a signed 32-bit integer: the value itself when it is in
`[-2^31, 2^31)`, and in every case the number of that range congruent to it
modulo `2^32`; no error is raised. -/
theorem smallint_wraps (n : Int) :
    py2mat (.int n) =
      .ok (some (.numeric .mxINT32_CLASS [1, 1] [.int (wrapS 32 n)] Option.none)) ∧
    (-2147483648 ≤ n ∧ n < 2147483648 → wrapS 32 n = n) ∧
    (-2147483648 ≤ wrapS 32 n ∧ wrapS 32 n < 2147483648) ∧
    (wrapS 32 n - n) % 4294967296 = 0 :=
  ⟨py2mat_int n, wrapS_32 n, wrapS_32_range n, wrapS_32_congr n⟩

/-- C19 (amended): a complex host array of an integer class with at least one
element (and, as every host array, with a dimension vector that is not empty)
converts to an array object tagged `complex64` when the class is
int8, uint8, int16 or uint16 and `complex128` when it is int32, uint32, int64
or uint64; the round trip then succeeds with a complex array of class single,
respectively double, which is not the class of the input. -/
theorem complex_integer_tags (order : DictOrder) (cls : mxClassID) (dims : List Nat)
    (pr im : List Scalar) (hne : dims ≠ []) (hN : 0 < prodDims dims)
    (hlen : pr.length = prodDims dims) (hlen2 : im.length = prodDims dims) :
    (cls ∈ narrowIntClasses → cls ≠ .mxSINGLE_CLASS ∧ ∃ items pr2 pi2,
      mat2py order (.numeric cls dims pr (some im)) =
        .ok (some (.ndarray "complex64" dims items)) ∧
      roundTrip order (.numeric cls dims pr (some im)) =
        .ok (some (.numeric .mxSINGLE_CLASS (mxCreateDims dims) pr2 (some pi2)))) ∧
    (cls ∈ wideIntClasses → cls ≠ .mxDOUBLE_CLASS ∧ ∃ items pr2 pi2,
      mat2py order (.numeric cls dims pr (some im)) =
        .ok (some (.ndarray "complex128" dims items)) ∧
      roundTrip order (.numeric cls dims pr (some im)) =
        .ok (some (.numeric .mxDOUBLE_CLASS (mxCreateDims dims) pr2 (some pi2)))) := by
  constructor
  · intro h
    simp only [narrowIntClasses, List.mem_cons, List.mem_singleton, List.not_mem_nil,
      or_false] at h
    rcases h with rfl | rfl | rfl | rfl <;>
      exact ⟨by decide, complex64_return order _ dims pr im _ rfl hne hN hlen hlen2⟩
  · intro h
    simp only [wideIntClasses, List.mem_cons, List.mem_singleton, List.not_mem_nil,
      or_false] at h
    rcases h with rfl | rfl | rfl | rfl <;>
      exact ⟨by decide, complex128_return order _ dims pr im _ rfl hne hN hlen hlen2⟩

/-- Witness of C19 (amended): the 1-by-2 complex int16 array `(3 - 4i, 5)` is
tagged `complex64` and comes back with class single. -/
theorem complex_integer_tags_witness :
    0 < prodDims [1, 2] ∧ mxClassID.mxINT16_CLASS ∈ narrowIntClasses ∧
    mxClassID.mxINT16_CLASS ≠ .mxSINGLE_CLASS ∧
    ∃ items pr2 pi2,
      mat2py py27DictOrder (.numeric .mxINT16_CLASS [1, 2] [.int 3, .int 5]
        (some [.int (-4), .int 0])) = .ok (some (.ndarray "complex64" [1, 2] items)) ∧
      roundTrip py27DictOrder (.numeric .mxINT16_CLASS [1, 2] [.int 3, .int 5]
        (some [.int (-4), .int 0])) =
        .ok (some (.numeric .mxSINGLE_CLASS (mxCreateDims [1, 2]) pr2 (some pi2))) :=
  ⟨by decide, by decide,
    (complex_integer_tags py27DictOrder .mxINT16_CLASS [1, 2] [.int 3, .int 5]
      [.int (-4), .int 0] (by simp) (by decide) (by decide) (by decide)).1 (by decide)⟩

/-- C19 as stated fails: the empty 0-by-0 complex int8 array gets no tag at
all; `mat2py` fails with `UnsupportedVariableType` and there is no round
trip. -/
theorem complex_integer_empty_counterexample :
    mat2py py27DictOrder (.numeric .mxINT8_CLASS [0, 0] [] (some [])) =
      .error .UnsupportedVariableType ∧
    roundTrip py27DictOrder (.numeric .mxINT8_CLASS [0, 0] [] (some [])) =
      .error .UnsupportedVariableType ∧
    ∀ items, mat2py py27DictOrder (.numeric .mxINT8_CLASS [0, 0] [] (some [])) ≠
      .ok (some (.ndarray "complex64" [0, 0] items)) := by
  have h : mat2py py27DictOrder (.numeric .mxINT8_CLASS [0, 0] [] (some [])) =
      .error .UnsupportedVariableType := rfl
  refine ⟨h, rfl, ?_⟩
  intro items
  rw [h]
  simp

/-- C20: a numeric host array with zero elements, real or complex and of any
class, makes `mat2py` fail with `UnsupportedVariableType`: the dtype is
assigned inside the element loop and is still `NULL` after it. -/
theorem empty_numeric_unsupported (order : DictOrder) (cls : mxClassID) (dims : List Nat)
    (pr : List Scalar) (pi : Option (List Scalar)) (h : prodDims dims = 0) :
    mat2py order (.numeric cls dims pr pi) = .error .UnsupportedVariableType := by
  rw [mat2py_numeric]
  unfold mat2pyNumeric mat2pySwitch
  rw [h]
  cases pi with
  | none => cases hc : mat2pyRealCase cls with
    | none => rfl
    | some p => rfl
  | some im => cases hc : mat2pyComplexCase cls with
    | none => rfl
    | some p => rfl

/-- Witness of C20: the empty 0-by-0 double array and its class in the table. -/
theorem empty_numeric_unsupported_witness :
    mat2py py27DictOrder (.numeric .mxDOUBLE_CLASS [0, 0] [] Option.none) =
      .error .UnsupportedVariableType :=
  empty_numeric_unsupported py27DictOrder .mxDOUBLE_CLASS [0, 0] [] Option.none (by decide)

end Matpy
